import Mathlib

/-!
# Meteorological monitoring master: frame protocol and shared telemetry store

A shallow embedding of `proto.h`, `shared_data.h`, `receiver_with_shm.c` and the frame
builders of `test_sender.c`.

Modelling conventions:

* a `uint8_t` is a `Fin 256`; a byte buffer (`uint8_t *`) is the list of the bytes it points
  to, read with `rd` (a read past the end of the list yields 0);
* wider machine integers are `Nat` / `Int`, with the reduction modulo `2 ^ w` written out
  where the C code converts or may wrap; signed values are two's complement, so `x >> k` on
  a negative `x` is the arithmetic shift and `b << 24` on a byte `b ≥ 128` gives the
  negative `int` with the same 32 bits;
* a fixed-size array inside a struct is the function of its index; memory layout is not
  represented, so an index outside the declared bounds (undefined in C) addresses no other
  field of the model;
* a C `float` is the rational number that the binary32 value denotes; a conversion from an
  integer and a division yield the binary32 value nearest to the exact result, ties to even
  (`f32_nearest`), as IEEE 754 arithmetic evaluated in `float` precision does; infinities
  and NaN do not arise for the operands of this program and are not represented;
* `time(NULL)` is a parameter `now`, `printf` output is not modelled.
-/

namespace Meteo

/-! ## proto.h -/

/-- The C type `uint8_t`. -/
abbrev uint8_t := Fin 256

/-- The array read `buf[i]`, promoted to an integer. -/
def rd (buf : List uint8_t) (i : Nat) : Nat := (buf.getD i 0).val

/-- Conversion of an integer to `uint8_t` (reduction modulo 256). -/
def to_uint8 (x : Int) : uint8_t := ⟨(x % 256).toNat, by omega⟩

/-- Conversion of an integer value to `int16_t` (two's complement, modulo 2^16). -/
def to_int16 (n : Nat) : Int :=
  if n % 65536 < 32768 then ((n % 65536 : Nat) : Int) else ((n % 65536 : Nat) : Int) - 65536

/-- Conversion of an integer value to `int32_t` (two's complement, modulo 2^32). -/
def to_int32 (n : Nat) : Int :=
  if n % 4294967296 < 2147483648 then ((n % 4294967296 : Nat) : Int)
  else ((n % 4294967296 : Nat) : Int) - 4294967296

/-- The expression `x & 0xFF` on a two's complement signed integer: `x` modulo 256. -/
def and_0xFF (x : Int) : Int := x % 256

def FRAME_LEN : Nat := 32
def ROLE_LEN : Nat := 2
def CMD_BME280 : Nat := 0x01
def CMD_LIGHTRAIN : Nat := 0x02
def CMD_SYSTEM_STATUS : Nat := 0x03
def CMD_GPS : Nat := 0x04

/-- The one-element array `END_SYMBOL[1] = {0xFF}`, as the function of its index. -/
def END_SYMBOL (i : Nat) : Nat := [0xFF].getD i 0

/-- The lookup table `crc4_table[16]`, as the function of its index. -/
def crc4_table (i : Nat) : Nat :=
  [0x0, 0x3, 0x6, 0x5, 0xC, 0xF, 0xA, 0x9, 0xB, 0x8, 0xD, 0xE, 0x7, 0x4, 0x1, 0x2].getD i 0

/-- One iteration of the loop body of `Calculate_CRC4` on the byte `d = data[i]`. -/
def crc4_step (crc : Nat) (d : Nat) : Nat :=
  let tbl_idx := (crc ^^^ (d >>> 4)) &&& 0x0F
  let crc := crc4_table tbl_idx ^^^ (d &&& 0x0F)
  let tbl_idx := (crc ^^^ (d &&& 0x0F)) &&& 0x0F
  crc4_table tbl_idx

/-- The function `Calculate_CRC4(data, len)`. -/
def Calculate_CRC4 (data : List uint8_t) (len : Nat) : Nat :=
  ((List.range len).foldl (fun crc i => crc4_step crc (rd data i)) 0x0F) &&& 0x0F

/-- The checksum loop `calc_cs = 0; for (i = 0; i < n; i++) calc_cs ^= buf[i];`. -/
def calc_cs (buf : List uint8_t) (n : Nat) : Nat :=
  (List.range n).foldl (fun cs i => cs ^^^ rd buf i) 0

/-- The function `LORA_ParseResponse(buf, len)`. The result is `none` when control reaches
the end of the function body without a `return`. -/
def LORA_ParseResponse (buf : List uint8_t) (len : Nat) : Option Int :=
  if len < 3 then some 0
  else if len = 11 ∧ rd buf 10 = END_SYMBOL 0 ∧ rd buf 1 = CMD_BME280 then
    let t100 := to_int16 ((rd buf 2 <<< 8) ||| rd buf 3)
    let p10 := to_int16 ((rd buf 4 <<< 8) ||| rd buf 5)
    let h100 := to_int16 ((rd buf 6 <<< 8) ||| rd buf 7)
    let recv_crc4 := rd buf 8 &&& 0x0F
    let frame_cs := rd buf 9
    if calc_cs buf 9 ≠ frame_cs then some 0
    else
      let crc_data : List uint8_t :=
        [to_uint8 (and_0xFF (t100 >>> (8 : Nat))), to_uint8 (and_0xFF t100),
         to_uint8 (and_0xFF (p10 >>> (8 : Nat))), to_uint8 (and_0xFF p10),
         to_uint8 (and_0xFF (h100 >>> (8 : Nat))), to_uint8 (and_0xFF h100)]
      let calc_crc4 := Calculate_CRC4 crc_data 6
      if calc_crc4 ≠ recv_crc4 then some 0 else some 1
  else if len = 8 ∧ rd buf 7 = END_SYMBOL 0 ∧ rd buf 1 = CMD_LIGHTRAIN then
    let lux10 := to_int16 ((rd buf 2 <<< 8) ||| rd buf 3)
    let rain := buf.getD 4 0
    let recv_crc4 := rd buf 5 &&& 0x0F
    let frame_cs := rd buf 6
    if calc_cs buf 6 ≠ frame_cs then some 0
    else
      let crc_data : List uint8_t :=
        [to_uint8 (and_0xFF (lux10 >>> (8 : Nat))), to_uint8 (and_0xFF lux10), rain]
      let calc_crc4 := Calculate_CRC4 crc_data 3
      if calc_crc4 ≠ recv_crc4 then some 0 else some 2
  else if len = 15 ∧ rd buf 14 = END_SYMBOL 0 ∧ rd buf 1 = CMD_SYSTEM_STATUS then
    let frame_cs := rd buf 13
    if calc_cs buf 13 ≠ frame_cs then some 0 else some 4
  else if len = 25 ∧ rd buf 24 = END_SYMBOL 0 ∧ rd buf 1 = CMD_GPS then
    let recv_crc4 := rd buf 22 &&& 0x0F
    let frame_cs := rd buf 23
    if calc_cs buf 23 ≠ frame_cs then some 0
    else
      let crc_data : List uint8_t := (List.range 20).map (fun i => buf.getD (2 + i) 0)
      let calc_crc4 := Calculate_CRC4 crc_data 20
      if calc_crc4 ≠ recv_crc4 then some 0 else some 4
  else none

/-! ## shared_data.h -/

def MAX_HISTORY_COUNT : Nat := 100
def SENSOR_BME280 : Nat := 1
def SENSOR_LIGHTRAIN : Nat := 2
def SENSOR_SYSTEM_STATUS : Nat := 3
def SENSOR_GPS : Nat := 4
def SHARED_MEMORY_MAGIC : Nat := 0xDEADBEEF
def CONNECTION_DISCONNECTED : Nat := 0
def CONNECTION_CONNECTING : Nat := 1
def CONNECTION_CONNECTED : Nat := 2

/-- The C type `struct bme280_data`. -/
structure bme280_data where
  node_id : uint8_t
  temperature : ℚ
  humidity : ℚ
  pressure : ℚ
  timestamp : Int
  valid : Nat
deriving DecidableEq

/-- The C type `struct lightrain_data`. -/
structure lightrain_data where
  node_id : uint8_t
  light_intensity : ℚ
  rainfall : uint8_t
  timestamp : Int
  valid : Nat
deriving DecidableEq

/-- The C type `struct system_status_data`. -/
structure system_status_data where
  node_id : uint8_t
  bme280_status : uint8_t
  bh1750_status : uint8_t
  rain_sensor_status : uint8_t
  i2c_bus_status : uint8_t
  uptime_seconds : Nat
  total_errors : Nat
  timestamp : Int
  valid : Nat
deriving DecidableEq

/-- The C type `struct gps_data`; `utc` is the array `char utc[7]`. -/
structure gps_data where
  node_id : uint8_t
  utc : List uint8_t
  latitude : ℚ
  longitude : ℚ
  positioning : uint8_t
  satellites : uint8_t
  hdop : ℚ
  altitude : ℚ
  timestamp : Int
  valid : Nat
deriving DecidableEq

/-- The anonymous union `data` of `struct weather_frame`: the member written last, or
`zeroed` for the all-zero bytes that `memset` leaves before any member is written. -/
inductive weather_frame_data where
  | zeroed
  | bme280 (d : bme280_data)
  | lightrain (d : lightrain_data)
  | system_status (d : system_status_data)
  | gps (d : gps_data)
deriving DecidableEq

/-- The C type `struct weather_frame`. -/
structure weather_frame where
  data_type : Nat
  data : weather_frame_data
deriving DecidableEq

/-- The C type `struct shared_weather_data`. The array `history[MAX_HISTORY_COUNT]` is the
function of its index; only the indices below `MAX_HISTORY_COUNT` are slots of the array. -/
structure shared_weather_data where
  magic : Nat
  writer_pid : Nat
  reader_pid : Nat
  update_counter : Nat
  connection_status : Nat
  latest_data : weather_frame
  latest_bme280 : bme280_data
  latest_lightrain : lightrain_data
  latest_system_status : system_status_data
  latest_gps : gps_data
  history_write_index : Nat
  history_count : Nat
  history : Nat → weather_frame
  total_received : Nat
  total_errors : Nat
  last_update_time : Int
  bme280_count : Nat
  lightrain_count : Nat
  system_status_count : Nat
  gps_count : Nat
  server_ip : String
  server_port : Nat
  last_error : String

/-! ## receiver_with_shm.c -/

/-- The increment `x++` of a `uint32_t`. -/
def incr32 (x : Nat) : Nat := (x + 1) % 4294967296

/-- The library call `strncpy(dest, src, n)` on byte arrays: the bytes of `src` up to its
first NUL are copied, the rest of the first `n` bytes of `dest` is filled with NUL, and the
bytes of `dest` from index `n` on are kept. -/
def strncpy (dest src : List uint8_t) (n : Nat) : List uint8_t :=
  let s := (src.take n).takeWhile (fun c => c ≠ 0)
  s ++ List.replicate (n - s.length) 0 ++ dest.drop n

/-! ## C `float` arithmetic -/

/-- Rounding of the fraction `num / den` (`den > 0`) to the nearest natural number, a tie
going to the even neighbour. -/
def round_half_even (num den : Nat) : Nat :=
  let q := num / den
  let r := num % den
  if 2 * r < den then q
  else if den < 2 * r then q + 1
  else if q % 2 = 0 then q else q + 1

/-- The number of binary digits of `n`, counted with at most `fuel` halvings. -/
def bit_length_aux : Nat → Nat → Nat
  | 0, _ => 0
  | fuel + 1, n => if n = 0 then 0 else bit_length_aux fuel (n / 2) + 1

/-- The number of binary digits of `n`: 0 for 0, and `k` when `2 ^ (k - 1) ≤ n < 2 ^ k`. -/
def bit_length (n : Nat) : Nat := bit_length_aux n n

/-- The integer part of the binary logarithm of `n / d`, for `n > 0` and `d > 0`: the `e`
with `2 ^ e ≤ n / d < 2 ^ (e + 1)`. -/
def floor_log2 (n d : Nat) : Int :=
  let e0 : Int := (bit_length n : Int) - (bit_length d : Int)
  if d * 2 ^ e0.toNat ≤ n * 2 ^ (-e0).toNat then e0 else e0 - 1

/-- The binary32 (`float`) value nearest to `a / b` for `b > 0`, ties to even, as the exact
rational it denotes: a significand `m` of at most 24 bits times `2 ^ k`, where `k` is the
exponent of `a / b` less 23 and at least `-149` (the subnormal range). Overflow to infinity
is not represented; the quotients of this program are below `2 ^ 31` in absolute value. -/
def f32_nearest (a : Int) (b : Nat) : ℚ :=
  let n := a.natAbs
  if n = 0 then 0
  else
    let e := max (floor_log2 n b) (-126)
    let k := e - 23
    let m := round_half_even (n * 2 ^ (-k).toNat) (b * 2 ^ k.toNat)
    (if a < 0 then -1 else 1) * (m : ℚ) * 2 ^ k

/-- The C conversion of an integer to `float`, as in the promotion of the `int16_t` or
`int32_t` operand of `x / 100.0f`. -/
def float_of_int (i : Int) : ℚ := f32_nearest i 1

/-- The C expression `x / c` in `float` arithmetic, for a `float` value `x` and a constant
`c` that is a positive integer (`100.0f`, `10.0f`, `1e5f`, all exact in binary32): the
binary32 value nearest to the exact quotient. -/
def float_div (x : ℚ) (c : Nat) : ℚ := f32_nearest x.num (x.den * c)

/-! ## receiver_with_shm.c: the store -/

/-- How the `switch (cmd)` of `write_data_to_shared_memory` is left: by `break` (the frame
was stored in its latest-value slot) or by `return` from an error branch. -/
inductive switch_exit where
  | brk (g : shared_weather_data)
  | ret (g : shared_weather_data)

/-- The statement `g_shared_data->total_errors++; return;` of the error branches. -/
def count_error (g : shared_weather_data) : switch_exit :=
  .ret { g with total_errors := incr32 g.total_errors }

/-- The block `更新BME280数据` / `更新通用数据帧` of `case CMD_BME280`: the decoded values are
written to `latest_bme280`, the tagged union is set and `bme280_count` is incremented. -/
def update_bme280 (g : shared_weather_data) (frame : List uint8_t) (now : Int) :
    shared_weather_data :=
  let node_id := frame.getD 0 0
  let t100 := to_int16 ((rd frame 2 <<< 8) ||| rd frame 3)
  let p10 := to_int16 ((rd frame 4 <<< 8) ||| rd frame 5)
  let h100 := to_int16 ((rd frame 6 <<< 8) ||| rd frame 7)
  let latest_bme280 : bme280_data :=
    { node_id := node_id
      temperature := float_div (float_of_int t100) 100
      pressure := float_div (float_of_int p10) 10
      humidity := float_div (float_of_int h100) 100
      timestamp := now
      valid := 1 }
  { g with
    latest_bme280 := latest_bme280
    latest_data := { data_type := SENSOR_BME280, data := .bme280 latest_bme280 }
    bme280_count := incr32 g.bme280_count }

/-- The body of `case CMD_BME280` of `write_data_to_shared_memory`. -/
def case_CMD_BME280 (g : shared_weather_data) (frame : List uint8_t) (now : Int) :
    switch_exit :=
  if rd frame 10 ≠ END_SYMBOL 0 then count_error g
  else
    let recv_crc4 := rd frame 8 &&& 0x0F
    let frame_cs := rd frame 9
    if calc_cs frame 9 ≠ frame_cs then count_error g
    else
      let crc_data : List uint8_t :=
        [frame.getD 2 0, frame.getD 3 0, frame.getD 4 0, frame.getD 5 0, frame.getD 6 0,
         frame.getD 7 0]
      let calc_crc4 := Calculate_CRC4 crc_data 6
      if calc_crc4 ≠ recv_crc4 then count_error g
      else .brk (update_bme280 g frame now)

/-- The update block of `case CMD_LIGHTRAIN`. -/
def update_lightrain (g : shared_weather_data) (frame : List uint8_t) (now : Int) :
    shared_weather_data :=
  let node_id := frame.getD 0 0
  let lux10 := to_int16 ((rd frame 2 <<< 8) ||| rd frame 3)
  let rain := frame.getD 4 0
  let latest_lightrain : lightrain_data :=
    { node_id := node_id
      light_intensity := float_div (float_of_int lux10) 10
      rainfall := rain
      timestamp := now
      valid := 1 }
  { g with
    latest_lightrain := latest_lightrain
    latest_data := { data_type := SENSOR_LIGHTRAIN, data := .lightrain latest_lightrain }
    lightrain_count := incr32 g.lightrain_count }

/-- The body of `case CMD_LIGHTRAIN` of `write_data_to_shared_memory`. -/
def case_CMD_LIGHTRAIN (g : shared_weather_data) (frame : List uint8_t) (now : Int) :
    switch_exit :=
  if rd frame 7 ≠ END_SYMBOL 0 then count_error g
  else
    let recv_crc4 := rd frame 5 &&& 0x0F
    let frame_cs := rd frame 6
    if calc_cs frame 6 ≠ frame_cs then count_error g
    else
      let crc_data : List uint8_t := [frame.getD 2 0, frame.getD 3 0, frame.getD 4 0]
      let calc_crc4 := Calculate_CRC4 crc_data 3
      if calc_crc4 ≠ recv_crc4 then count_error g
      else .brk (update_lightrain g frame now)

/-- The update block of `case CMD_SYSTEM_STATUS`. -/
def update_system_status (g : shared_weather_data) (frame : List uint8_t) (now : Int) :
    shared_weather_data :=
  let node_id := frame.getD 0 0
  let bme280_status := frame.getD 2 0
  let bh1750_status := frame.getD 3 0
  let rain_sensor_status := frame.getD 4 0
  let i2c_bus_status := frame.getD 5 0
  let uptime_seconds :=
    ((rd frame 6 <<< 24) ||| (rd frame 7 <<< 16) ||| (rd frame 8 <<< 8) ||| rd frame 9)
      % 4294967296
  let total_errors := ((rd frame 10 <<< 8) ||| rd frame 11) % 65536
  let latest_system_status : system_status_data :=
    { node_id := node_id
      bme280_status := bme280_status
      bh1750_status := bh1750_status
      rain_sensor_status := rain_sensor_status
      i2c_bus_status := i2c_bus_status
      uptime_seconds := uptime_seconds
      total_errors := total_errors
      timestamp := now
      valid := 1 }
  { g with
    latest_system_status := latest_system_status
    latest_data :=
      { data_type := SENSOR_SYSTEM_STATUS, data := .system_status latest_system_status }
    system_status_count := incr32 g.system_status_count }

/-- The body of `case CMD_SYSTEM_STATUS` of `write_data_to_shared_memory`. -/
def case_CMD_SYSTEM_STATUS (g : shared_weather_data) (frame : List uint8_t) (now : Int) :
    switch_exit :=
  if rd frame 14 ≠ END_SYMBOL 0 then count_error g
  else
    let frame_cs := rd frame 13
    if calc_cs frame 13 ≠ frame_cs then count_error g
    else .brk (update_system_status g frame now)

/-- The update block of `case CMD_GPS`. The local array `utc[7]` holds `frame[2..7]` and a
final NUL; `strncpy` copies it into `latest_gps.utc` with length `sizeof(utc) - 1 = 6`. -/
def update_gps (g : shared_weather_data) (frame : List uint8_t) (now : Int) :
    shared_weather_data :=
  let node_id := frame.getD 0 0
  let utc : List uint8_t := (List.range 6).map (fun i => frame.getD (2 + i) 0) ++ [0]
  let lat1e5 := to_int32
    ((rd frame 8 <<< 24) ||| (rd frame 9 <<< 16) ||| (rd frame 10 <<< 8) ||| rd frame 11)
  let lon1e5 := to_int32
    ((rd frame 12 <<< 24) ||| (rd frame 13 <<< 16) ||| (rd frame 14 <<< 8) ||| rd frame 15)
  let positioning := frame.getD 16 0
  let sats := frame.getD 17 0
  let hdop10 := to_int16 ((rd frame 18 <<< 8) ||| rd frame 19)
  let alt10 := to_int16 ((rd frame 20 <<< 8) ||| rd frame 21)
  let latest_gps : gps_data :=
    { node_id := node_id
      utc := strncpy g.latest_gps.utc utc 6
      latitude := float_div (float_of_int lat1e5) 100000
      longitude := float_div (float_of_int lon1e5) 100000
      positioning := positioning
      satellites := sats
      hdop := float_div (float_of_int hdop10) 10
      altitude := float_div (float_of_int alt10) 10
      timestamp := now
      valid := 1 }
  { g with
    latest_gps := latest_gps
    latest_data := { data_type := SENSOR_GPS, data := .gps latest_gps }
    gps_count := incr32 g.gps_count }

/-- The body of `case CMD_GPS` of `write_data_to_shared_memory`. -/
def case_CMD_GPS (g : shared_weather_data) (frame : List uint8_t) (now : Int) :
    switch_exit :=
  if rd frame 24 ≠ END_SYMBOL 0 then count_error g
  else
    let recv_crc4 := rd frame 22 &&& 0x0F
    let frame_cs := rd frame 23
    if calc_cs frame 23 ≠ frame_cs then count_error g
    else
      let crc_data : List uint8_t := (List.range 20).map (fun i => frame.getD (2 + i) 0)
      let calc_crc4 := Calculate_CRC4 crc_data 20
      if calc_crc4 ≠ recv_crc4 then count_error g
      else .brk (update_gps g frame now)

/-- The `switch (cmd)` statement of `write_data_to_shared_memory`, on the attached store
`g` (`g_shared_data` is not `NULL`); the `default` branch counts an error and returns. -/
def write_data_switch (g : shared_weather_data) (frame : List uint8_t) (now : Int) :
    switch_exit :=
  let cmd := rd frame 1
  if cmd = CMD_BME280 then case_CMD_BME280 g frame now
  else if cmd = CMD_LIGHTRAIN then case_CMD_LIGHTRAIN g frame now
  else if cmd = CMD_SYSTEM_STATUS then case_CMD_SYSTEM_STATUS g frame now
  else if cmd = CMD_GPS then case_CMD_GPS g frame now
  else count_error g

/-- The statements of `write_data_to_shared_memory` after the `switch`: the tagged frame
is copied into `history[write_idx]` (the C array has the slots below `MAX_HISTORY_COUNT`),
the write index advances modulo `MAX_HISTORY_COUNT`, `history_count` saturates, and
`update_counter`, `total_received` and `last_update_time` are updated. -/
def append_history (g : shared_weather_data) (now : Int) : shared_weather_data :=
  let write_idx := g.history_write_index
  let g := { g with history := Function.update g.history write_idx g.latest_data }
  let g := { g with
    history_write_index := ((write_idx + 1) % 4294967296) % MAX_HISTORY_COUNT }
  let g :=
    if g.history_count < MAX_HISTORY_COUNT then
      { g with history_count := incr32 g.history_count }
    else g
  { g with
    update_counter := incr32 g.update_counter
    total_received := incr32 g.total_received
    last_update_time := now }

/-- The function `write_data_to_shared_memory(frame)` as a transformer of the attached
store, with `now` the value of `time(NULL)`: an error branch of the `switch` returns at
once, after `break` the history ring and the counters are updated. -/
def write_data_to_shared_memory (g : shared_weather_data) (frame : List uint8_t)
    (now : Int) : shared_weather_data :=
  match write_data_switch g frame now with
  | .ret g1 => g1
  | .brk g1 => append_history g1 now

/-- The frame is accepted: the `switch` of `write_data_to_shared_memory` is left by `break`,
not through one of the error branches. -/
def write_accepts (g : shared_weather_data) (frame : List uint8_t) (now : Int) : Bool :=
  match write_data_switch g frame now with
  | .brk _ => true
  | .ret _ => false

/-- The all-zero segment that `memset(g_shared_data, 0, sizeof(...))` leaves. -/
def zeroed_store : shared_weather_data :=
  { magic := 0
    writer_pid := 0
    reader_pid := 0
    update_counter := 0
    connection_status := 0
    latest_data := { data_type := 0, data := .zeroed }
    latest_bme280 :=
      { node_id := 0, temperature := 0, humidity := 0, pressure := 0, timestamp := 0, valid := 0 }
    latest_lightrain :=
      { node_id := 0, light_intensity := 0, rainfall := 0, timestamp := 0, valid := 0 }
    latest_system_status :=
      { node_id := 0, bme280_status := 0, bh1750_status := 0, rain_sensor_status := 0,
        i2c_bus_status := 0, uptime_seconds := 0, total_errors := 0, timestamp := 0, valid := 0 }
    latest_gps :=
      { node_id := 0, utc := List.replicate 7 0, latitude := 0, longitude := 0, positioning := 0,
        satellites := 0, hdop := 0, altitude := 0, timestamp := 0, valid := 0 }
    history_write_index := 0
    history_count := 0
    history := fun _ => { data_type := 0, data := .zeroed }
    total_received := 0
    total_errors := 0
    last_update_time := 0
    bme280_count := 0
    lightrain_count := 0
    system_status_count := 0
    gps_count := 0
    server_ip := ""
    server_port := 0
    last_error := "" }

/-- The function `init_shared_memory()` once `shmget` and `shmat` have succeeded: `mem` is
the content of the attached segment and `pid` the value of `getpid()`. -/
def init_shared_memory (mem : shared_weather_data) (pid : Nat) : shared_weather_data :=
  if mem.magic ≠ SHARED_MEMORY_MAGIC then
    { zeroed_store with
      magic := SHARED_MEMORY_MAGIC
      writer_pid := pid % 4294967296
      connection_status := CONNECTION_DISCONNECTED
      update_counter := 0
      history_write_index := 0
      history_count := 0
      total_received := 0
      total_errors := 0
      last_error := "共享内存已初始化" }
  else
    { mem with writer_pid := pid % 4294967296 }

/-- A sequence of calls of `write_data_to_shared_memory`, each with its frame and the value
of `time(NULL)`; next to the final store, the tagged frames (`latest_data` right after the
call) of the accepted calls are collected in call order. -/
def run_writes (g : shared_weather_data) (log : List weather_frame) :
    List (List uint8_t × Int) → shared_weather_data × List weather_frame
  | [] => (g, log)
  | c :: cs =>
    let g1 := write_data_to_shared_memory g c.1 c.2
    if write_accepts g c.1 c.2 then run_writes g1 (log ++ [g1.latest_data]) cs
    else run_writes g1 log cs

/-! ## test_sender.c -/

def SEND_INTERVAL : Nat := 3

/-- The assignment `buf[i] = x` of an integer value to a `uint8_t` array element. -/
def wr (buf : List uint8_t) (i : Nat) (x : Int) : List uint8_t := buf.set i (to_uint8 x)

/-- The function `build_bme280_frame(buf, node_id)`; the simulated measurements `t100`,
`p10`, `h100` (the `int16_t` values the C code derives from `rand()`) are parameters. The
result is the 32-byte buffer. -/
def build_bme280_frame (node_id : uint8_t) (t100 p10 h100 : Int) : List uint8_t :=
  let buf : List uint8_t := List.replicate 32 0
  let buf := buf.set 0 node_id
  let buf := wr buf 1 CMD_BME280
  let buf := wr buf 2 (and_0xFF (t100 >>> (8 : Nat)))
  let buf := wr buf 3 (and_0xFF t100)
  let buf := wr buf 4 (and_0xFF (p10 >>> (8 : Nat)))
  let buf := wr buf 5 (and_0xFF p10)
  let buf := wr buf 6 (and_0xFF (h100 >>> (8 : Nat)))
  let buf := wr buf 7 (and_0xFF h100)
  let crc_data : List uint8_t :=
    [buf.getD 2 0, buf.getD 3 0, buf.getD 4 0, buf.getD 5 0, buf.getD 6 0, buf.getD 7 0]
  let crc4 := Calculate_CRC4 crc_data 6
  let buf := wr buf 8 (crc4 &&& 0x0F : Nat)
  let checksum := calc_cs buf 9
  let buf := wr buf 9 checksum
  wr buf 10 (END_SYMBOL 0)

/-- The function `build_lightrain_frame(buf, node_id)`; the simulated `lux10` (`int16_t`)
and `rain` (`uint8_t`) are parameters. -/
def build_lightrain_frame (node_id : uint8_t) (lux10 : Int) (rain : uint8_t) : List uint8_t :=
  let buf : List uint8_t := List.replicate 32 0
  let buf := buf.set 0 node_id
  let buf := wr buf 1 CMD_LIGHTRAIN
  let buf := wr buf 2 (and_0xFF (lux10 >>> (8 : Nat)))
  let buf := wr buf 3 (and_0xFF lux10)
  let buf := buf.set 4 rain
  let crc_data : List uint8_t := [buf.getD 2 0, buf.getD 3 0, buf.getD 4 0]
  let crc4 := Calculate_CRC4 crc_data 3
  let buf := wr buf 5 (crc4 &&& 0x0F : Nat)
  let checksum := calc_cs buf 6
  let buf := wr buf 6 checksum
  wr buf 7 (END_SYMBOL 0)

/-- The function `build_system_status_frame(buf, node_id, uptime)`; `uptime` is the value
of `*uptime` at the call, the four status bytes and `total_errors` (`uint16_t`) that the C
code draws with `rand()` are parameters. The result is the buffer and the new `*uptime`. -/
def build_system_status_frame (node_id : uint8_t) (uptime : Nat)
    (s2 s3 s4 s5 : uint8_t) (total_errors : Nat) : List uint8_t × Nat :=
  let buf : List uint8_t := List.replicate 32 0
  let buf := buf.set 0 node_id
  let buf := wr buf 1 CMD_SYSTEM_STATUS
  let buf := buf.set 2 s2
  let buf := buf.set 3 s3
  let buf := buf.set 4 s4
  let buf := buf.set 5 s5
  let uptime := (uptime + SEND_INTERVAL) % 4294967296
  let buf := wr buf 6 ((uptime >>> 24) &&& 0xFF : Nat)
  let buf := wr buf 7 ((uptime >>> 16) &&& 0xFF : Nat)
  let buf := wr buf 8 ((uptime >>> 8) &&& 0xFF : Nat)
  let buf := wr buf 9 (uptime &&& 0xFF : Nat)
  let buf := wr buf 10 ((total_errors >>> 8) &&& 0xFF : Nat)
  let buf := wr buf 11 (total_errors &&& 0xFF : Nat)
  let buf := wr buf 12 0
  let checksum := calc_cs buf 13
  let buf := wr buf 13 checksum
  (wr buf 14 (END_SYMBOL 0), uptime)

/-- The two characters that the conversion `%02d` of `sprintf` prints for `0 ≤ v < 100`. -/
def fmt_02d (v : Nat) : List uint8_t := [to_uint8 (48 + v / 10 : Nat), to_uint8 (48 + v % 10 : Nat)]

/-- The function `build_gps_frame(buf, node_id)`; the broken-down UTC time (`tm_hour`,
`tm_min`, `tm_sec`), the simulated `lat1e5`, `lon1e5` (`int32_t`), the bytes `positioning`
and `sats`, and `hdop10`, `alt10` (`int16_t`) are parameters. -/
def build_gps_frame (node_id : uint8_t) (tm_hour tm_min tm_sec : Nat) (lat1e5 lon1e5 : Int)
    (positioning sats : uint8_t) (hdop10 alt10 : Int) : List uint8_t :=
  let buf : List uint8_t := List.replicate 32 0
  let buf := buf.set 0 node_id
  let buf := wr buf 1 CMD_GPS
  let text : List uint8_t := fmt_02d tm_hour ++ fmt_02d tm_min ++ fmt_02d tm_sec ++ [0]
  let buf := (List.range 7).foldl (fun b i => b.set (2 + i) (text.getD i 0)) buf
  let buf := wr buf 8 (and_0xFF (lat1e5 >>> (24 : Nat)))
  let buf := wr buf 9 (and_0xFF (lat1e5 >>> (16 : Nat)))
  let buf := wr buf 10 (and_0xFF (lat1e5 >>> (8 : Nat)))
  let buf := wr buf 11 (and_0xFF lat1e5)
  let buf := wr buf 12 (and_0xFF (lon1e5 >>> (24 : Nat)))
  let buf := wr buf 13 (and_0xFF (lon1e5 >>> (16 : Nat)))
  let buf := wr buf 14 (and_0xFF (lon1e5 >>> (8 : Nat)))
  let buf := wr buf 15 (and_0xFF lon1e5)
  let buf := buf.set 16 positioning
  let buf := buf.set 17 sats
  let buf := wr buf 18 (and_0xFF (hdop10 >>> (8 : Nat)))
  let buf := wr buf 19 (and_0xFF hdop10)
  let buf := wr buf 20 (and_0xFF (alt10 >>> (8 : Nat)))
  let buf := wr buf 21 (and_0xFF alt10)
  let crc_data : List uint8_t := (List.range 20).map (fun i => buf.getD (2 + i) 0)
  let crc4 := Calculate_CRC4 crc_data 20
  let buf := wr buf 22 (crc4 &&& 0x0F : Nat)
  let checksum := calc_cs buf 23
  let buf := wr buf 23 checksum
  wr buf 24 (END_SYMBOL 0)

/-! ## The frame invariant and the reference CRC of the specification -/

/-- The bytes `buf[lo], ..., buf[lo + n - 1]`. -/
def bytes_of (buf : List uint8_t) (lo n : Nat) : List uint8_t :=
  (List.range n).map (fun i => buf.getD (lo + i) 0)

/-- The XOR of a sequence of bytes. -/
def xor_all : List uint8_t → Nat
  | [] => 0
  | b :: bs => b.val ^^^ xor_all bs

/-- The four frame shapes of the specification: total length, `cmd` byte and terminator. -/
def frame_shape (buf : List uint8_t) (len : Nat) : Prop :=
  (len = 11 ∧ rd buf 1 = 0x01 ∧ rd buf 10 = 0xFF) ∨
  (len = 8 ∧ rd buf 1 = 0x02 ∧ rd buf 7 = 0xFF) ∨
  (len = 15 ∧ rd buf 1 = 0x03 ∧ rd buf 14 = 0xFF) ∨
  (len = 25 ∧ rd buf 1 = 0x04 ∧ rd buf 24 = 0xFF)

/-- The frame invariant of the specification: the checksum byte is the XOR of all bytes
before it, and for Environmental, LightRain and GPS frames the low nibble of the CRC byte is
the CRC4 of the payload bytes; a SystemStatus frame has no CRC4 field. -/
def frame_invariant (buf : List uint8_t) (len : Nat) : Prop :=
  (len = 11 ∧ rd buf 1 = 0x01 ∧ rd buf 10 = 0xFF ∧
    rd buf 9 = xor_all (bytes_of buf 0 9) ∧
    rd buf 8 &&& 0x0F = Calculate_CRC4 (bytes_of buf 2 6) 6) ∨
  (len = 8 ∧ rd buf 1 = 0x02 ∧ rd buf 7 = 0xFF ∧
    rd buf 6 = xor_all (bytes_of buf 0 6) ∧
    rd buf 5 &&& 0x0F = Calculate_CRC4 (bytes_of buf 2 3) 3) ∨
  (len = 15 ∧ rd buf 1 = 0x03 ∧ rd buf 14 = 0xFF ∧
    rd buf 13 = xor_all (bytes_of buf 0 13)) ∨
  (len = 25 ∧ rd buf 1 = 0x04 ∧ rd buf 24 = 0xFF ∧
    rd buf 23 = xor_all (bytes_of buf 0 23) ∧
    rd buf 22 &&& 0x0F = Calculate_CRC4 (bytes_of buf 2 20) 20)

instance (buf : List uint8_t) (len : Nat) : Decidable (frame_shape buf len) := by
  unfold frame_shape
  exact inferInstance

instance (buf : List uint8_t) (len : Nat) : Decidable (frame_invariant buf len) := by
  unfold frame_invariant
  exact inferInstance

/-- The lookup table as the specification lists it: `{0,3,6,5,C,F,A,9,B,8,D,E,7,4,1,2}`. -/
def spec_crc4_table (i : Nat) : Nat :=
  [0x0, 0x3, 0x6, 0x5, 0xC, 0xF, 0xA, 0x9, 0xB, 0x8, 0xD, 0xE, 0x7, 0x4, 0x1, 0x2].getD i 0

/-- The reference CRC as the specification words it: seed `0x0F`; for each byte fold in
the high nibble, `crc = table[(crc ^ (byte >> 4)) & 0xF]`, then the low nibble the same way,
`crc = table[(crc ^ (byte & 0xF)) & 0xF]`; the result is masked to 4 bits. -/
def spec_crc4 (data : List uint8_t) : Nat :=
  (data.foldl (fun crc byte =>
    let crc := spec_crc4_table ((crc ^^^ (byte.val >>> 4)) &&& 0xF)
    spec_crc4_table ((crc ^^^ (byte.val &&& 0xF)) &&& 0xF)) 0x0F) &&& 0xF

/-! ## proto.h: reading frames from a stream socket -/

/-- The role tag `ROLE_SENDER`. -/
def ROLE_SENDER : List uint8_t := [0xAA, 0x00]

/-- The role tag `ROLE_RECVR`. -/
def ROLE_RECVR : List uint8_t := [0xBB, 0x00]

/-- The role tag `ROLE_ACK`. -/
def ROLE_ACK : List uint8_t := [0x01, 0x01]

/-- The role tag `ROLE_ERRORB`. -/
def ROLE_ERRORB : List uint8_t := [0x99, 0x99]

/-- A connected stream socket, seen from the reading side: `data` are the bytes that still
arrive, in order; once they are used up, `recv` reports a pending fatal error (`-1` with an
`errno` other than `EINTR`, such as `ECONNRESET`) when `err` holds, and the end of the
stream (`0`) otherwise. A pending error is reported once: the `recv` that returns it clears
it, and from then on the stream is at its end. Reads interrupted by `EINTR` are retried by
the code and leave no trace in the model. -/
structure sock where
  data : List uint8_t
  err : Bool
deriving DecidableEq

/-- The bytes `bytes` stored into `buf` from index `off` on. -/
def blit (buf : List uint8_t) (off : Nat) (bytes : List uint8_t) : List uint8_t :=
  buf.take off ++ bytes ++ buf.drop (off + bytes.length)

/-- What a call of `read_n` leaves: its return value, the socket and the target buffer. -/
structure read_n_result where
  r : Int
  fd : sock
  buf : List uint8_t
deriving DecidableEq

/-- The function `read_n(fd, buf + off, n)`: `n` when `n` bytes arrive; otherwise the bytes
that arrive are stored and the result is `-1` on a fatal error and the number of bytes read
when the peer closes. In both of these cases the socket is left at the end of its stream
with no error pending. -/
def read_n (fd : sock) (buf : List uint8_t) (off n : Nat) : read_n_result :=
  if n ≤ fd.data.length then
    { r := (n : Int), fd := { fd with data := fd.data.drop n },
      buf := blit buf off (fd.data.take n) }
  else
    { r := if fd.err then -1 else (fd.data.length : Int), fd := { data := [], err := false },
      buf := blit buf off fd.data }

/-- The `switch (cmd)` of `LORA_ReadAndRarse` that sets `expected_len`; `none` is the
`default` branch. -/
def expected_len_of (cmd : Nat) : Option Nat :=
  if cmd = CMD_BME280 then some 11
  else if cmd = CMD_LIGHTRAIN then some 8
  else if cmd = CMD_SYSTEM_STATUS then some 15
  else if cmd = CMD_GPS then some 25
  else none

/-- What a call of `LORA_ReadAndRarse` leaves: its return value (`none` when
`LORA_ParseResponse` ends without a `return`), the socket and the caller's frame buffer. -/
structure read_result where
  ret : Option Int
  fd : sock
  buf : List uint8_t
deriving DecidableEq

/-- The function `LORA_ReadAndRarse(fd, buf)`; `header` is the content of the local array
`header[2]` at entry, which the C code does not initialise. -/
def LORA_ReadAndRarse (fd : sock) (buf : List uint8_t) (header : List uint8_t) :
    read_result :=
  let h := read_n fd header 0 2
  if h.r < 0 then { ret := some h.r, fd := h.fd, buf := buf }
  else if h.r = 0 then { ret := some h.r, fd := h.fd, buf := buf }
  else
    let node_id := h.buf.getD 0 0
    let cmd := h.buf.getD 1 0
    match expected_len_of cmd.val with
    | none => { ret := some (-1), fd := h.fd, buf := buf }
    | some expected_len =>
      let buf := buf.set 0 node_id
      let buf := buf.set 1 cmd
      let b := read_n h.fd buf 2 30
      if b.r = 0 then { ret := some 0, fd := b.fd, buf := b.buf }
      else if b.r < 0 then { ret := some (-1), fd := b.fd, buf := b.buf }
      else if rd b.buf (expected_len - 1) ≠ END_SYMBOL 0 then
        { ret := some (-1), fd := b.fd, buf := b.buf }
      else { ret := LORA_ParseResponse b.buf expected_len, fd := b.fd, buf := b.buf }

/-- Successive calls of `LORA_ReadAndRarse` on one socket and one frame buffer, `k` of
them; call number `i` finds `hdr i` in its local array `header`. -/
def read_calls (hdr : Nat → List uint8_t) : Nat → Nat → sock → List uint8_t →
    List read_result
  | _, 0, _, _ => []
  | i, k + 1, fd, buf =>
    let r := LORA_ReadAndRarse fd buf (hdr i)
    r :: read_calls hdr (i + 1) k r.fd r.buf

/-! ## server.c -/

def MAX_RECV_CLIENTS : Int := 128

/-- The C type `recvr_set_t` without its mutex: the array `fds[MAX_RECV_CLIENTS]` as the
function of its index, and `count`. -/
structure recvr_set_t where
  fds : Int → Int
  count : Int

/-- The descriptors that are in the receiver set: `fds[0], ..., fds[count - 1]`. -/
def registered (s : recvr_set_t) : List Int :=
  (List.range s.count.toNat).map (fun (i : Nat) => s.fds (i : Int))

/-- The entries of the receiver set below the loop index `i` of `broadcast_frame`. -/
def done_part (s : recvr_set_t) (i : Int) : List Int :=
  (List.range i.toNat).map (fun (j : Nat) => s.fds (j : Int))

/-- The entries of the receiver set from the loop index `i` of `broadcast_frame` on. -/
def pending_part (s : recvr_set_t) (i : Int) : List Int :=
  (List.range (s.count - i).toNat).map (fun (j : Nat) => s.fds (i + (j : Int)))

/-- The function a detached thread is started with. -/
inductive thread_start where
  | sender
  | receiver
deriving DecidableEq

/-- The state of the server that its functions act on: the global `g_recvers` and, as a
record of their effects, the descriptors passed to `close`, the `send_all` calls made
(descriptor and bytes) and the threads created (start function and descriptor), each in
call order. -/
structure server_state where
  recvers : recvr_set_t
  closed : List Int
  sent : List (Int × List uint8_t)
  threads : List (thread_start × Int)

/-- The initial server state: `g_recvers = { .fds = {0}, .count = 0 }`, no effects yet. -/
def server_init : server_state :=
  { recvers := { fds := fun _ => 0, count := 0 }, closed := [], sent := [], threads := [] }

/-- The function `add_receiver(fd)`. -/
def add_receiver (st : server_state) (fd : Int) : server_state :=
  if st.recvers.count < MAX_RECV_CLIENTS then
    { st with recvers :=
        { fds := Function.update st.recvers.fds st.recvers.count fd,
          count := st.recvers.count + 1 } }
  else
    { st with closed := st.closed ++ [fd] }

/-- The function `remove_receiver_nolock(idx)`. -/
def remove_receiver_nolock (st : server_state) (idx : Int) : server_state :=
  let fd := st.recvers.fds idx
  let closed := if fd ≥ 0 then st.closed ++ [fd] else st.closed
  { st with
    closed := closed
    recvers :=
      { fds := Function.update st.recvers.fds idx (st.recvers.fds (st.recvers.count - 1)),
        count := st.recvers.count - 1 } }

/-- The `for` loop of `broadcast_frame`, at index `i`, with at most `fuel` passes of its
body; `send_ok fd` tells whether `send_all(fd, frame, FRAME_LEN)` returns `FRAME_LEN`. The
result is `none` when the loop has not ended after `fuel` passes. -/
def broadcast_loop (send_ok : Int → Bool) (frame : List uint8_t) :
    Nat → server_state → Int → Option server_state
  | 0, st, i => if i < st.recvers.count then none else some st
  | fuel + 1, st, i =>
    if i < st.recvers.count then
      let fd := st.recvers.fds i
      let st := { st with sent := st.sent ++ [(fd, bytes_of frame 0 FRAME_LEN)] }
      if send_ok fd = false then
        broadcast_loop send_ok frame fuel (remove_receiver_nolock st i) i
      else
        broadcast_loop send_ok frame fuel st (i + 1)
    else some st

/-- The function `broadcast_frame(frame)`. Each pass of the loop body advances `i` or
removes a descriptor, so `count` passes are enough. -/
def broadcast_frame (send_ok : Int → Bool) (st : server_state) (frame : List uint8_t) :
    Option server_state :=
  broadcast_loop send_ok frame st.recvers.count.toNat st 0

/-- The state of a sender task: the server state, its connection (descriptor and socket),
the local buffer `frame[FRAME_LEN]`, the number of passes of its loop so far, and the
frames handed to `broadcast_frame`, in order. -/
structure sender_state where
  srv : server_state
  conn_fd : Int
  conn : sock
  frame : List uint8_t
  iter : Nat
  broadcasts : List (List uint8_t)

/-- The function `sender_thread` while `g_running` stays set, with at most `fuel` passes
of its `while` loop: `none` when the task is still in the loop after them (or when
`LORA_ReadAndRarse` gave no return value), otherwise the state after `close(conn_fd)`.
In pass `i` the local `header` of `LORA_ReadAndRarse` holds `hdr i` and `send_all`
succeeds on the descriptors that `send_ok i` accepts. -/
def sender_thread (send_ok : Nat → Int → Bool) (hdr : Nat → List uint8_t) :
    Nat → sender_state → Option sender_state
  | 0, _ => none
  | fuel + 1, s =>
    let r := LORA_ReadAndRarse s.conn s.frame (hdr s.iter)
    let s1 := { s with conn := r.fd, frame := r.buf, iter := s.iter + 1 }
    match r.ret with
    | none => none
    | some L_r =>
      if L_r < 0 then sender_thread send_ok hdr fuel s1
      else if L_r = 0 then
        some { s1 with srv := { s1.srv with closed := s1.srv.closed ++ [s1.conn_fd] } }
      else
        match broadcast_frame (send_ok s.iter) s1.srv s1.frame with
        | none => none
        | some srv =>
          sender_thread send_ok hdr fuel
            { s1 with srv := srv, broadcasts := s1.broadcasts ++ [s1.frame] }

/-- What `recv` returns to the keep-alive loop of `receiver_thread`: data (`r > 0`), the
close of the peer (`r == 0`), an error with `errno` `EPIPE` or `ECONNRESET`, or another
error. -/
inductive recv_event where
  | data
  | closed
  | reset
  | error
deriving DecidableEq

/-- The function `receiver_thread` for the connection `conn_fd` while `g_running` stays
set, on the results of its successive `recv` calls: `none` when the task is still in its
loop after them, otherwise the state after `remove_receiver_nolock(conn_fd)` and
`close(conn_fd)`. -/
def receiver_thread (st : server_state) (conn_fd : Int) : List recv_event → Option server_state
  | [] => none
  | recv_event.closed :: _ =>
    let st := remove_receiver_nolock st conn_fd
    some { st with closed := st.closed ++ [conn_fd] }
  | recv_event.reset :: _ =>
    let st := remove_receiver_nolock st conn_fd
    some { st with closed := st.closed ++ [conn_fd] }
  | recv_event.error :: es => receiver_thread st conn_fd es
  | recv_event.data :: es => receiver_thread st conn_fd es

/-- The body of the accept loop of `main` for one accepted connection `conn_fd` with
socket `conn`, from the read of the role tag on; `role` is the content of the local array
`role[ROLE_LEN]` before the read. -/
def main_accept (st : server_state) (conn_fd : Int) (conn : sock) (role : List uint8_t) :
    server_state :=
  let rr := read_n conn role 0 ROLE_LEN
  if rr.r ≠ (ROLE_LEN : Int) then { st with closed := st.closed ++ [conn_fd] }
  else
    let role := rr.buf
    let resp :=
      if role.take ROLE_LEN ≠ ROLE_SENDER ∧ role.take ROLE_LEN ≠ ROLE_RECVR then ROLE_ERRORB
      else ROLE_ACK
    if resp = ROLE_ERRORB then { st with closed := st.closed ++ [conn_fd] }
    else if role.take ROLE_LEN = ROLE_SENDER then
      { st with threads := st.threads ++ [(thread_start.sender, conn_fd)] }
    else
      let st := add_receiver st conn_fd
      { st with threads := st.threads ++ [(thread_start.receiver, conn_fd)] }

/-! ## receiver_with_shm.c: the receive loop -/

/-- The state of the receiver process in `receive_loop`: the attached store, the socket,
the local buffer `frame[FRAME_LEN]` and the number of passes of the loop so far. -/
structure receiver_state where
  store : shared_weather_data
  conn : sock
  frame : List uint8_t
  iter : Nat

/-- The function `receive_loop(fd)` while `g_running` stays set, with at most `fuel`
passes of its `while` loop: `none` when the process is still in the loop after them (or
when `LORA_ReadAndRarse` gave no return value), otherwise the state at the `break`. In
pass `i` the local `header` holds `hdr i` and `time(NULL)` is `now i`. -/
def receive_loop (hdr : Nat → List uint8_t) (now : Nat → Int) :
    Nat → receiver_state → Option receiver_state
  | 0, _ => none
  | fuel + 1, s =>
    let r := LORA_ReadAndRarse s.conn s.frame (hdr s.iter)
    let s1 := { s with conn := r.fd, frame := r.buf, iter := s.iter + 1 }
    match r.ret with
    | none => none
    | some L_r =>
      if L_r < 0 then receive_loop hdr now fuel s1
      else if L_r = 0 then some s1
      else
        receive_loop hdr now fuel
          { s1 with store := write_data_to_shared_memory s1.store s1.frame (now s.iter) }

/-! ## receiver_with_shm.c: one pass of the receive loop -/

/-- How one pass of a `while (g_running)` loop body ends: the loop goes on with the next
pass, the loop is left by `break`, or the pass has no defined outcome because
`LORA_ReadAndRarse` gave no return value. -/
inductive pass_exit where
  | next (s : receiver_state)
  | brk (s : receiver_state)
  | no_value

/-- One pass of the body of the `while` loop of `receive_loop`, from the call of
`LORA_ReadAndRarse(fd, frame)` to the end of the body: a negative code leads to `continue`,
0 to `break`, and a positive code to `write_data_to_shared_memory(frame)`. -/
def receive_pass (hdr : Nat → List uint8_t) (now : Nat → Int) (s : receiver_state) :
    pass_exit :=
  let r := LORA_ReadAndRarse s.conn s.frame (hdr s.iter)
  let s1 := { s with conn := r.fd, frame := r.buf, iter := s.iter + 1 }
  match r.ret with
  | none => pass_exit.no_value
  | some L_r =>
    if L_r < 0 then pass_exit.next s1
    else if L_r = 0 then pass_exit.brk s1
    else
      pass_exit.next
        { s1 with store := write_data_to_shared_memory s1.store s1.frame (now s.iter) }

/-- The state of `receive_loop` after `n` passes of its loop, or at the pass in which the
loop was left when that comes earlier. -/
def receive_passes (hdr : Nat → List uint8_t) (now : Nat → Int) :
    Nat → receiver_state → receiver_state
  | 0, s => s
  | n + 1, s =>
    match receive_pass hdr now s with
    | pass_exit.next s1 => receive_passes hdr now n s1
    | pass_exit.brk s1 => s1
    | pass_exit.no_value => s

/-! ## Integer conversions -/

theorem shl8_or (a b : Nat) (hb : b < 256) : (a <<< 8) ||| b = a * 256 + b := by
  rw [Nat.shiftLeft_eq, Nat.mul_comm, ← Nat.mul_add_lt_is_or (by simpa using hb)]

theorem asr8_eq (t : Int) : t >>> (8 : Nat) = t / 256 := by
  rw [Int.shiftRight_eq_div_pow]; norm_num

theorem to_int16_val (n : Nat) (h : n < 65536) :
    to_int16 n = if n < 32768 then (n : Int) else (n : Int) - 65536 := by
  unfold to_int16
  rw [Nat.mod_eq_of_lt h]

theorem to_uint8_and_val (x : Int) : (to_uint8 (and_0xFF x)).val = (x % 256).toNat := by
  simp only [to_uint8, and_0xFF]
  congr 1
  omega

theorem int16_hi (a b : uint8_t) :
    to_uint8 (and_0xFF (to_int16 ((a.val <<< 8) ||| b.val) >>> (8 : Nat))) = a := by
  have ha := a.isLt
  have hb := b.isLt
  apply Fin.ext
  rw [shl8_or _ _ hb, to_int16_val _ (by omega), asr8_eq, to_uint8_and_val]
  split_ifs <;> push_cast <;> omega

theorem int16_lo (a b : uint8_t) :
    to_uint8 (and_0xFF (to_int16 ((a.val <<< 8) ||| b.val))) = b := by
  have ha := a.isLt
  have hb := b.isLt
  apply Fin.ext
  rw [shl8_or _ _ hb, to_int16_val _ (by omega), to_uint8_and_val]
  split_ifs <;> push_cast <;> omega

theorem int16_roundtrip (t : Int) (h1 : -32768 ≤ t) (h2 : t < 32768) :
    to_int16 (((to_uint8 (and_0xFF (t >>> (8 : Nat)))).val <<< 8) |||
      (to_uint8 (and_0xFF t)).val) = t := by
  rw [shl8_or _ _ (to_uint8 _).isLt, asr8_eq, to_uint8_and_val, to_uint8_and_val,
    to_int16_val _ (by omega)]
  split_ifs <;> push_cast <;> omega

/-! ## The XOR checksum loop -/

theorem calc_cs_succ (buf : List uint8_t) (n : Nat) :
    calc_cs buf (n + 1) = calc_cs buf n ^^^ rd buf n := by
  simp [calc_cs, List.range_succ, List.foldl_append]

theorem xor_all_append (l : List uint8_t) (x : uint8_t) :
    xor_all (l ++ [x]) = xor_all l ^^^ x.val := by
  induction l with
  | nil => simp [xor_all]
  | cons b bs ih => simp [xor_all, ih, Nat.xor_assoc]

theorem bytes_of_succ (buf : List uint8_t) (lo n : Nat) :
    bytes_of buf lo (n + 1) = bytes_of buf lo n ++ [buf.getD (lo + n) 0] := by
  simp [bytes_of, List.range_succ]

theorem calc_cs_eq_xor_all (buf : List uint8_t) (n : Nat) :
    calc_cs buf n = xor_all (bytes_of buf 0 n) := by
  induction n with
  | zero => rfl
  | succ n ih => rw [calc_cs_succ, bytes_of_succ, xor_all_append, ih]; simp [rd]

theorem rd_set_ne (buf : List uint8_t) (i j : Nat) (v : uint8_t) (h : i ≠ j) :
    rd (buf.set i v) j = rd buf j := by
  simp [rd, List.getD_eq_getElem?_getD, List.getElem?_set_ne h]

theorem getD_set_ne (buf : List uint8_t) (i j : Nat) (v : uint8_t) (h : i ≠ j) :
    (buf.set i v).getD j 0 = buf.getD j 0 := by
  simp [List.getD_eq_getElem?_getD, List.getElem?_set_ne h]

theorem getD_set_self (buf : List uint8_t) (i : Nat) (v : uint8_t) (h : i < buf.length) :
    (buf.set i v).getD i 0 = v := by
  simp [List.getD_eq_getElem?_getD, List.getElem?_set_self h]

theorem rd_set_self (buf : List uint8_t) (i : Nat) (v : uint8_t) (h : i < buf.length) :
    rd (buf.set i v) i = v.val := by
  unfold rd
  rw [getD_set_self buf i v h]

theorem calc_cs_set_ge (buf : List uint8_t) (i n : Nat) (v : uint8_t) (h : n ≤ i) :
    calc_cs (buf.set i v) n = calc_cs buf n := by
  induction n with
  | zero => rfl
  | succ n ih => rw [calc_cs_succ, calc_cs_succ, ih (by omega), rd_set_ne _ _ _ _ (by omega)]

theorem calc_cs_set_lt (buf : List uint8_t) (i n : Nat) (v : uint8_t) (h : i < n)
    (hl : i < buf.length) :
    calc_cs (buf.set i v) n = calc_cs buf n ^^^ rd buf i ^^^ v.val := by
  induction n with
  | zero => omega
  | succ n ih =>
    rw [calc_cs_succ, calc_cs_succ]
    by_cases hn : i = n
    · subst hn
      rw [calc_cs_set_ge _ _ _ _ (le_refl _), rd_set_self _ _ _ hl]
      simp only [Nat.xor_assoc, Nat.xor_cancel_left]
    · rw [ih (by omega), rd_set_ne _ _ _ _ hn]
      simp only [Nat.xor_assoc]
      rw [Nat.xor_comm (rd buf n) (rd buf i ^^^ v.val), Nat.xor_assoc]

theorem xor_ne_of_ne (a x y : Nat) (h : x ≠ y) : a ^^^ x ^^^ y ≠ a := by
  intro e
  rw [Nat.xor_assoc] at e
  have h0 : x ^^^ y = 0 :=
    @Nat.xor_right_injective a (x ^^^ y) 0 (by simpa using e)
  exact h (Nat.xor_eq_zero.mp h0)

/-- Replacing one byte below the checksum byte by a different value changes the XOR of
the bytes before the checksum byte, and all bytes from the checksum byte on are kept. -/
theorem calc_cs_set_ne (buf : List uint8_t) (i n : Nat) (v : uint8_t) (h : i < n)
    (hl : i < buf.length) (hv : v ≠ buf.getD i 0) (hc : calc_cs buf n = rd buf n) :
    calc_cs (buf.set i v) n ≠ rd (buf.set i v) n := by
  rw [calc_cs_set_lt _ _ _ _ h hl, rd_set_ne _ _ _ _ (by omega), hc.symm]
  apply xor_ne_of_ne
  intro e
  apply hv
  apply Fin.ext
  exact e.symm

/-! ## `LORA_ParseResponse` on the four frame shapes -/

theorem parse_bme280 (buf : List uint8_t) (h1 : rd buf 1 = 0x01) (h10 : rd buf 10 = 0xFF) :
    LORA_ParseResponse buf 11 =
      if calc_cs buf 9 = rd buf 9 ∧ Calculate_CRC4 (bytes_of buf 2 6) 6 = rd buf 8 &&& 0x0F
      then some 1 else some 0 := by
  have hb : bytes_of buf 2 6 =
      [buf.getD 2 0, buf.getD 3 0, buf.getD 4 0, buf.getD 5 0, buf.getD 6 0, buf.getD 7 0] := rfl
  simp only [LORA_ParseResponse, h1, h10, END_SYMBOL, CMD_BME280, rd, int16_hi, int16_lo, hb]
  by_cases hc : calc_cs buf 9 = rd buf 9 <;>
    by_cases hr : Calculate_CRC4 [buf.getD 2 0, buf.getD 3 0, buf.getD 4 0, buf.getD 5 0,
      buf.getD 6 0, buf.getD 7 0] 6 = rd buf 8 &&& 0x0F <;>
    simp_all [rd]

theorem parse_lightrain (buf : List uint8_t) (h1 : rd buf 1 = 0x02) (h7 : rd buf 7 = 0xFF) :
    LORA_ParseResponse buf 8 =
      if calc_cs buf 6 = rd buf 6 ∧ Calculate_CRC4 (bytes_of buf 2 3) 3 = rd buf 5 &&& 0x0F
      then some 2 else some 0 := by
  have hb : bytes_of buf 2 3 = [buf.getD 2 0, buf.getD 3 0, buf.getD 4 0] := rfl
  simp only [LORA_ParseResponse, h1, h7, END_SYMBOL, CMD_BME280, CMD_LIGHTRAIN, rd, int16_hi,
    int16_lo, hb]
  by_cases hc : calc_cs buf 6 = rd buf 6 <;>
    by_cases hr : Calculate_CRC4 [buf.getD 2 0, buf.getD 3 0, buf.getD 4 0] 3
      = rd buf 5 &&& 0x0F <;>
    simp_all [rd]

theorem parse_system_status (buf : List uint8_t) (h1 : rd buf 1 = 0x03)
    (h14 : rd buf 14 = 0xFF) :
    LORA_ParseResponse buf 15 = if calc_cs buf 13 = rd buf 13 then some 4 else some 0 := by
  simp only [LORA_ParseResponse, h1, h14, END_SYMBOL, CMD_BME280, CMD_LIGHTRAIN,
    CMD_SYSTEM_STATUS]
  by_cases hc : calc_cs buf 13 = rd buf 13 <;> simp_all

theorem parse_gps (buf : List uint8_t) (h1 : rd buf 1 = 0x04) (h24 : rd buf 24 = 0xFF) :
    LORA_ParseResponse buf 25 =
      if calc_cs buf 23 = rd buf 23 ∧ Calculate_CRC4 (bytes_of buf 2 20) 20 = rd buf 22 &&& 0x0F
      then some 4 else some 0 := by
  have hb : (List.range 20).map (fun i => buf.getD (2 + i) 0) = bytes_of buf 2 20 := rfl
  simp only [LORA_ParseResponse, h1, h24, END_SYMBOL, CMD_BME280, CMD_LIGHTRAIN,
    CMD_SYSTEM_STATUS, CMD_GPS, hb]
  by_cases hc : calc_cs buf 23 = rd buf 23 <;>
    by_cases hr : Calculate_CRC4 (bytes_of buf 2 20) 20 = rd buf 22 &&& 0x0F <;>
    simp_all

/-- Outside the four frame shapes `LORA_ParseResponse` returns 0 (length below 3) or
reaches the end of its body without a `return`. -/
theorem parse_no_shape (buf : List uint8_t) (len : Nat) (h : ¬ frame_shape buf len) :
    LORA_ParseResponse buf len = some 0 ∨ LORA_ParseResponse buf len = none := by
  simp only [frame_shape, not_or, not_and] at h
  obtain ⟨ha, hb, hc, hd⟩ := h
  unfold LORA_ParseResponse
  by_cases h3 : len < 3
  · left; simp [h3]
  · right
    rw [if_neg h3, if_neg, if_neg, if_neg, if_neg]
    · rintro ⟨h1, h2, h3⟩; exact hd h1 h3 h2
    · rintro ⟨h1, h2, h3⟩; exact hc h1 h3 h2
    · rintro ⟨h1, h2, h3⟩; exact hb h1 h3 h2
    · rintro ⟨h1, h2, h3⟩; exact ha h1 h3 h2

/-- The value of `LORA_ParseResponse` on a buffer of one of the four frame shapes: non-zero
when the frame invariant holds, 0 when it fails. -/
theorem parse_shape (buf : List uint8_t) (len : Nat) (h : frame_shape buf len) :
    (frame_invariant buf len → ∃ c, LORA_ParseResponse buf len = some c ∧ c ≠ 0) ∧
    (¬ frame_invariant buf len → LORA_ParseResponse buf len = some 0) := by
  rcases h with ⟨hl, h1, ht⟩ | ⟨hl, h1, ht⟩ | ⟨hl, h1, ht⟩ | ⟨hl, h1, ht⟩ <;> subst hl
  · rw [parse_bme280 buf h1 ht, calc_cs_eq_xor_all]
    have hi : frame_invariant buf 11 ↔ (xor_all (bytes_of buf 0 9) = rd buf 9 ∧
        Calculate_CRC4 (bytes_of buf 2 6) 6 = rd buf 8 &&& 0x0F) := by
      simp only [frame_invariant, h1, ht]
      norm_num
      constructor
      · rintro ⟨a, b⟩; exact ⟨a.symm, b.symm⟩
      · rintro ⟨a, b⟩; exact ⟨a.symm, b.symm⟩
    rw [hi]
    constructor
    · intro hv; exact ⟨1, by rw [if_pos hv], by norm_num⟩
    · intro hv; rw [if_neg hv]
  · rw [parse_lightrain buf h1 ht, calc_cs_eq_xor_all]
    have hi : frame_invariant buf 8 ↔ (xor_all (bytes_of buf 0 6) = rd buf 6 ∧
        Calculate_CRC4 (bytes_of buf 2 3) 3 = rd buf 5 &&& 0x0F) := by
      simp only [frame_invariant, h1, ht]
      norm_num
      constructor
      · rintro ⟨a, b⟩; exact ⟨a.symm, b.symm⟩
      · rintro ⟨a, b⟩; exact ⟨a.symm, b.symm⟩
    rw [hi]
    constructor
    · intro hv; exact ⟨2, by rw [if_pos hv], by norm_num⟩
    · intro hv; rw [if_neg hv]
  · rw [parse_system_status buf h1 ht, calc_cs_eq_xor_all]
    have hi : frame_invariant buf 15 ↔ xor_all (bytes_of buf 0 13) = rd buf 13 := by
      simp only [frame_invariant, h1, ht]
      norm_num
      exact eq_comm
    rw [hi]
    constructor
    · intro hv; exact ⟨4, by rw [if_pos hv], by norm_num⟩
    · intro hv; rw [if_neg hv]
  · rw [parse_gps buf h1 ht, calc_cs_eq_xor_all]
    have hi : frame_invariant buf 25 ↔ (xor_all (bytes_of buf 0 23) = rd buf 23 ∧
        Calculate_CRC4 (bytes_of buf 2 20) 20 = rd buf 22 &&& 0x0F) := by
      simp only [frame_invariant, h1, ht]
      norm_num
      constructor
      · rintro ⟨a, b⟩; exact ⟨a.symm, b.symm⟩
      · rintro ⟨a, b⟩; exact ⟨a.symm, b.symm⟩
    rw [hi]
    constructor
    · intro hv; exact ⟨4, by rw [if_pos hv], by norm_num⟩
    · intro hv; rw [if_neg hv]

theorem frame_invariant_shape (buf : List uint8_t) (len : Nat) (h : frame_invariant buf len) :
    frame_shape buf len := by
  rcases h with ⟨a, b, c, _⟩ | ⟨a, b, c, _⟩ | ⟨a, b, c, _⟩ | ⟨a, b, c, _⟩
  · exact Or.inl ⟨a, b, c⟩
  · exact Or.inr (Or.inl ⟨a, b, c⟩)
  · exact Or.inr (Or.inr (Or.inl ⟨a, b, c⟩))
  · exact Or.inr (Or.inr (Or.inr ⟨a, b, c⟩))

theorem parse_nonzero_iff (buf : List uint8_t) (len : Nat) :
    (∃ c, LORA_ParseResponse buf len = some c ∧ c ≠ 0) ↔ frame_invariant buf len := by
  constructor
  · rintro ⟨c, hc, hne⟩
    by_contra hi
    by_cases hs : frame_shape buf len
    · rw [(parse_shape buf len hs).2 hi] at hc
      exact hne (Option.some.inj hc).symm
    · rcases parse_no_shape buf len hs with h0 | h0
      · rw [h0] at hc
        exact hne (Option.some.inj hc).symm
      · rw [h0] at hc
        exact Option.noConfusion hc
  · intro hi
    exact (parse_shape buf len (frame_invariant_shape buf len hi)).1 hi

/-- A frame whose XOR check fails is answered with 0, whatever its variant. -/
theorem parse_xor_mismatch (buf : List uint8_t) (len : Nat) (hs : frame_shape buf len)
    (hx : calc_cs buf (len - 2) ≠ rd buf (len - 2)) : LORA_ParseResponse buf len = some 0 := by
  apply (parse_shape buf len hs).2
  intro hi
  apply hx
  rcases hi with ⟨hl, _, _, h, _⟩ | ⟨hl, _, _, h, _⟩ | ⟨hl, _, _, h⟩ | ⟨hl, _, _, h, _⟩ <;>
    subst hl <;> rw [calc_cs_eq_xor_all] <;> exact h.symm

/-! ## The cases of `write_data_to_shared_memory` -/

/-- The checks of `case CMD_BME280`: terminator, XOR checksum, CRC4. -/
theorem case_CMD_BME280_eq (g : shared_weather_data) (frame : List uint8_t) (now : Int) :
    case_CMD_BME280 g frame now =
      if rd frame 10 = 0xFF ∧ calc_cs frame 9 = rd frame 9 ∧
          Calculate_CRC4 (bytes_of frame 2 6) 6 = rd frame 8 &&& 0x0F
      then .brk (update_bme280 g frame now) else count_error g := by
  have hb : bytes_of frame 2 6 = [frame.getD 2 0, frame.getD 3 0, frame.getD 4 0,
      frame.getD 5 0, frame.getD 6 0, frame.getD 7 0] := rfl
  rw [hb]
  simp only [case_CMD_BME280, END_SYMBOL, List.getD_cons_zero, ne_eq]
  split_ifs <;> first | rfl | simp_all

theorem case_CMD_LIGHTRAIN_eq (g : shared_weather_data) (frame : List uint8_t) (now : Int) :
    case_CMD_LIGHTRAIN g frame now =
      if rd frame 7 = 0xFF ∧ calc_cs frame 6 = rd frame 6 ∧
          Calculate_CRC4 (bytes_of frame 2 3) 3 = rd frame 5 &&& 0x0F
      then .brk (update_lightrain g frame now) else count_error g := by
  have hb : bytes_of frame 2 3 = [frame.getD 2 0, frame.getD 3 0, frame.getD 4 0] := rfl
  rw [hb]
  simp only [case_CMD_LIGHTRAIN, END_SYMBOL, List.getD_cons_zero, ne_eq]
  split_ifs <;> first | rfl | simp_all

theorem case_CMD_SYSTEM_STATUS_eq (g : shared_weather_data) (frame : List uint8_t)
    (now : Int) :
    case_CMD_SYSTEM_STATUS g frame now =
      if rd frame 14 = 0xFF ∧ calc_cs frame 13 = rd frame 13
      then .brk (update_system_status g frame now) else count_error g := by
  simp only [case_CMD_SYSTEM_STATUS, END_SYMBOL, List.getD_cons_zero, ne_eq]
  split_ifs <;> first | rfl | simp_all

theorem case_CMD_GPS_eq (g : shared_weather_data) (frame : List uint8_t) (now : Int) :
    case_CMD_GPS g frame now =
      if rd frame 24 = 0xFF ∧ calc_cs frame 23 = rd frame 23 ∧
          Calculate_CRC4 (bytes_of frame 2 20) 20 = rd frame 22 &&& 0x0F
      then .brk (update_gps g frame now) else count_error g := by
  have hb : (List.range 20).map (fun i => frame.getD (2 + i) 0) = bytes_of frame 2 20 := rfl
  simp only [case_CMD_GPS, END_SYMBOL, List.getD_cons_zero, ne_eq, hb]
  split_ifs <;> first | rfl | simp_all

/-- How the `switch` ends: in an error branch, or by `break` in the case of the frame's
`cmd` byte after all checks of that case have passed. -/
theorem write_data_switch_cases (g : shared_weather_data) (frame : List uint8_t)
    (now : Int) :
    write_data_switch g frame now = count_error g ∨
    (rd frame 1 = 0x01 ∧ frame_invariant frame 11 ∧
      write_data_switch g frame now = .brk (update_bme280 g frame now)) ∨
    (rd frame 1 = 0x02 ∧ frame_invariant frame 8 ∧
      write_data_switch g frame now = .brk (update_lightrain g frame now)) ∨
    (rd frame 1 = 0x03 ∧ frame_invariant frame 15 ∧
      write_data_switch g frame now = .brk (update_system_status g frame now)) ∨
    (rd frame 1 = 0x04 ∧ frame_invariant frame 25 ∧
      write_data_switch g frame now = .brk (update_gps g frame now)) := by
  unfold write_data_switch
  simp only [CMD_BME280, CMD_LIGHTRAIN, CMD_SYSTEM_STATUS, CMD_GPS]
  by_cases h1 : rd frame 1 = 1
  · rw [if_pos h1, case_CMD_BME280_eq]
    split_ifs with hc
    · right; left
      refine ⟨h1, Or.inl ⟨rfl, h1, hc.1, ?_, hc.2.2.symm⟩, rfl⟩
      rw [← calc_cs_eq_xor_all]; exact hc.2.1.symm
    · left; rfl
  · rw [if_neg h1]
    by_cases h2 : rd frame 1 = 2
    · rw [if_pos h2, case_CMD_LIGHTRAIN_eq]
      split_ifs with hc
      · right; right; left
        refine ⟨h2, Or.inr (Or.inl ⟨rfl, h2, hc.1, ?_, hc.2.2.symm⟩), rfl⟩
        rw [← calc_cs_eq_xor_all]; exact hc.2.1.symm
      · left; rfl
    · rw [if_neg h2]
      by_cases h3 : rd frame 1 = 3
      · rw [if_pos h3, case_CMD_SYSTEM_STATUS_eq]
        split_ifs with hc
        · right; right; right; left
          refine ⟨h3, Or.inr (Or.inr (Or.inl ⟨rfl, h3, hc.1, ?_⟩)), rfl⟩
          rw [← calc_cs_eq_xor_all]; exact hc.2.symm
        · left; rfl
      · rw [if_neg h3]
        by_cases h4 : rd frame 1 = 4
        · rw [if_pos h4, case_CMD_GPS_eq]
          split_ifs with hc
          · right; right; right; right
            refine ⟨h4, Or.inr (Or.inr (Or.inr ⟨rfl, h4, hc.1, ?_, hc.2.2.symm⟩)), rfl⟩
            rw [← calc_cs_eq_xor_all]; exact hc.2.1.symm
          · left; rfl
        · rw [if_neg h4]; left; rfl

theorem write_rejected (g : shared_weather_data) (frame : List uint8_t) (now : Int)
    (h : write_data_switch g frame now = count_error g) :
    write_accepts g frame now = false ∧
    write_data_to_shared_memory g frame now =
      { g with total_errors := incr32 g.total_errors } := by
  unfold write_accepts write_data_to_shared_memory
  rw [h]
  exact ⟨rfl, rfl⟩

theorem write_stored (g g1 : shared_weather_data) (frame : List uint8_t) (now : Int)
    (h : write_data_switch g frame now = .brk g1) :
    write_accepts g frame now = true ∧
    write_data_to_shared_memory g frame now = append_history g1 now := by
  unfold write_accepts write_data_to_shared_memory
  rw [h]
  exact ⟨rfl, rfl⟩

/-- The fields that the statements after the `switch` leave alone, and the counters they
increment. -/
theorem append_history_fields (g : shared_weather_data) (now : Int) :
    (append_history g now).update_counter = incr32 g.update_counter ∧
    (append_history g now).total_received = incr32 g.total_received ∧
    (append_history g now).last_update_time = now ∧
    (append_history g now).latest_data = g.latest_data ∧
    (append_history g now).latest_bme280 = g.latest_bme280 ∧
    (append_history g now).latest_lightrain = g.latest_lightrain ∧
    (append_history g now).latest_system_status = g.latest_system_status ∧
    (append_history g now).latest_gps = g.latest_gps ∧
    (append_history g now).bme280_count = g.bme280_count ∧
    (append_history g now).lightrain_count = g.lightrain_count ∧
    (append_history g now).system_status_count = g.system_status_count ∧
    (append_history g now).gps_count = g.gps_count ∧
    (append_history g now).total_errors = g.total_errors := by
  unfold append_history
  simp only []
  split_ifs <;> simp

/-! ## The frames of the test sender -/

theorem to_uint8_nat_val (m : Nat) (h : m < 256) : (to_uint8 (m : Int)).val = m := by
  simp only [to_uint8]
  omega

theorem calc_cs_lt (buf : List uint8_t) (n : Nat) : calc_cs buf n < 256 := by
  induction n with
  | zero => simp [calc_cs]
  | succ n ih =>
    rw [calc_cs_succ]
    exact Nat.xor_lt_two_pow (n := 8) ih (buf.getD n 0).isLt

theorem Calculate_CRC4_lt (data : List uint8_t) (len : Nat) : Calculate_CRC4 data len < 16 := by
  unfold Calculate_CRC4
  exact Nat.and_lt_two_pow _ (n := 4) (by norm_num)

theorem Calculate_CRC4_and (data : List uint8_t) (len : Nat) :
    Calculate_CRC4 data len &&& 0x0F = Calculate_CRC4 data len := by
  have h := Calculate_CRC4_lt data len
  have e : (0x0F : Nat) = 2 ^ 4 - 1 := by norm_num
  rw [e, Nat.and_pow_two_sub_one_eq_mod]
  exact Nat.mod_eq_of_lt h

theorem rd_append_left (b r : List uint8_t) (i : Nat) (h : i < b.length) :
    rd (b ++ r) i = rd b i := by
  unfold rd
  rw [List.getD_append _ _ _ _ h]

theorem rd_append_right (b r : List uint8_t) (i : Nat) (h : b.length ≤ i) :
    rd (b ++ r) i = rd r (i - b.length) := by
  unfold rd
  rw [List.getD_append_right _ _ _ _ h]

theorem calc_cs_congr (a b : List uint8_t) (n : Nat) (h : ∀ i, i < n → rd a i = rd b i) :
    calc_cs a n = calc_cs b n := by
  induction n with
  | zero => rfl
  | succ n ih =>
    rw [calc_cs_succ, calc_cs_succ, ih (fun i hi => h i (by omega)), h n (by omega)]

/-- The last two steps of every frame builder: the XOR of the first `n` bytes `b` is
stored at index `n`, before the terminator; the XOR check then succeeds. -/
theorem seal_xor (b pad rest : List uint8_t) (n : Nat) (hb : b.length = n) :
    calc_cs (b ++ to_uint8 (calc_cs (b ++ pad) n : Nat) :: rest) n =
      rd (b ++ to_uint8 (calc_cs (b ++ pad) n : Nat) :: rest) n := by
  rw [rd_append_right _ _ _ (by omega), hb, Nat.sub_self]
  have h0 : rd (to_uint8 (calc_cs (b ++ pad) n : Nat) :: rest) 0 =
      (to_uint8 (calc_cs (b ++ pad) n : Nat)).val := rfl
  rw [h0, to_uint8_nat_val _ (calc_cs_lt _ _)]
  apply calc_cs_congr
  intro i hi
  rw [rd_append_left _ _ _ (by omega), rd_append_left _ _ _ (by omega)]

/-- The CRC byte of a frame builder, `buf[k] = crc4 & 0x0F`, holds the CRC4 itself. -/
theorem crc_byte_val (data : List uint8_t) (len : Nat) :
    (to_uint8 ((Calculate_CRC4 data len &&& 0x0F : Nat) : Int)).val &&& 0x0F =
      Calculate_CRC4 data len := by
  have h := Calculate_CRC4_lt data len
  rw [Calculate_CRC4_and, to_uint8_nat_val _ (by omega), Calculate_CRC4_and]

/-- The buffer that `build_bme280_frame` returns, byte by byte. -/
theorem build_bme280_frame_eq (node_id : uint8_t) (t100 p10 h100 : Int) :
    build_bme280_frame node_id t100 p10 h100 =
      let a : List uint8_t :=
        [to_uint8 (and_0xFF (t100 >>> (8 : Nat))), to_uint8 (and_0xFF t100),
         to_uint8 (and_0xFF (p10 >>> (8 : Nat))), to_uint8 (and_0xFF p10),
         to_uint8 (and_0xFF (h100 >>> (8 : Nat))), to_uint8 (and_0xFF h100)]
      let b : List uint8_t :=
        node_id :: to_uint8 (CMD_BME280 : Nat) :: a ++
          [to_uint8 ((Calculate_CRC4 a 6 &&& 0x0F : Nat) : Int)]
      b ++ to_uint8 (calc_cs (b ++ List.replicate 23 0) 9 : Nat) ::
        to_uint8 (END_SYMBOL 0 : Nat) :: List.replicate 21 0 := by
  simp only [build_bme280_frame, wr, List.replicate, List.set, List.getD_cons_succ,
    List.getD_cons_zero, List.cons_append, List.nil_append]

/-- The buffer that `build_lightrain_frame` returns, byte by byte. -/
theorem build_lightrain_frame_eq (node_id : uint8_t) (lux10 : Int) (rain : uint8_t) :
    build_lightrain_frame node_id lux10 rain =
      let a : List uint8_t :=
        [to_uint8 (and_0xFF (lux10 >>> (8 : Nat))), to_uint8 (and_0xFF lux10), rain]
      let b : List uint8_t :=
        node_id :: to_uint8 (CMD_LIGHTRAIN : Nat) :: a ++
          [to_uint8 ((Calculate_CRC4 a 3 &&& 0x0F : Nat) : Int)]
      b ++ to_uint8 (calc_cs (b ++ List.replicate 26 0) 6 : Nat) ::
        to_uint8 (END_SYMBOL 0 : Nat) :: List.replicate 24 0 := by
  simp only [build_lightrain_frame, wr, List.replicate, List.set, List.getD_cons_succ,
    List.getD_cons_zero, List.cons_append, List.nil_append]

/-- The buffer and the new `*uptime` that `build_system_status_frame` returns. -/
theorem build_system_status_frame_eq (node_id : uint8_t) (uptime : Nat)
    (s2 s3 s4 s5 : uint8_t) (total_errors : Nat) :
    build_system_status_frame node_id uptime s2 s3 s4 s5 total_errors =
      let u := (uptime + SEND_INTERVAL) % 4294967296
      let b : List uint8_t :=
        [node_id, to_uint8 (CMD_SYSTEM_STATUS : Nat), s2, s3, s4, s5,
         to_uint8 ((u >>> 24 &&& 0xFF : Nat) : Int), to_uint8 ((u >>> 16 &&& 0xFF : Nat) : Int),
         to_uint8 ((u >>> 8 &&& 0xFF : Nat) : Int), to_uint8 ((u &&& 0xFF : Nat) : Int),
         to_uint8 ((total_errors >>> 8 &&& 0xFF : Nat) : Int),
         to_uint8 ((total_errors &&& 0xFF : Nat) : Int), to_uint8 0]
      (b ++ to_uint8 (calc_cs (b ++ List.replicate 19 0) 13 : Nat) ::
        to_uint8 (END_SYMBOL 0 : Nat) :: List.replicate 17 0, u) := by
  simp only [build_system_status_frame, wr, List.replicate, List.set, List.getD_cons_succ,
    List.getD_cons_zero, List.cons_append, List.nil_append]

/-- The buffer that `build_gps_frame` returns, byte by byte. -/
theorem build_gps_frame_eq (node_id : uint8_t) (tm_hour tm_min tm_sec : Nat)
    (lat1e5 lon1e5 : Int) (positioning sats : uint8_t) (hdop10 alt10 : Int) :
    build_gps_frame node_id tm_hour tm_min tm_sec lat1e5 lon1e5 positioning sats hdop10 alt10 =
      let a : List uint8_t :=
        [to_uint8 (48 + tm_hour / 10 : Nat), to_uint8 (48 + tm_hour % 10 : Nat),
         to_uint8 (48 + tm_min / 10 : Nat), to_uint8 (48 + tm_min % 10 : Nat),
         to_uint8 (48 + tm_sec / 10 : Nat), to_uint8 (48 + tm_sec % 10 : Nat),
         to_uint8 (and_0xFF (lat1e5 >>> (24 : Nat))), to_uint8 (and_0xFF (lat1e5 >>> (16 : Nat))),
         to_uint8 (and_0xFF (lat1e5 >>> (8 : Nat))), to_uint8 (and_0xFF lat1e5),
         to_uint8 (and_0xFF (lon1e5 >>> (24 : Nat))), to_uint8 (and_0xFF (lon1e5 >>> (16 : Nat))),
         to_uint8 (and_0xFF (lon1e5 >>> (8 : Nat))), to_uint8 (and_0xFF lon1e5),
         positioning, sats,
         to_uint8 (and_0xFF (hdop10 >>> (8 : Nat))), to_uint8 (and_0xFF hdop10),
         to_uint8 (and_0xFF (alt10 >>> (8 : Nat))), to_uint8 (and_0xFF alt10)]
      let b : List uint8_t :=
        node_id :: to_uint8 (CMD_GPS : Nat) :: a ++
          [to_uint8 ((Calculate_CRC4 a 20 &&& 0x0F : Nat) : Int)]
      b ++ to_uint8 (calc_cs (b ++ List.replicate 9 0) 23 : Nat) ::
        to_uint8 (END_SYMBOL 0 : Nat) :: List.replicate 7 0 := by
  simp only [build_gps_frame, wr, fmt_02d, List.replicate, List.set_cons_succ,
    List.set_cons_zero, List.getD_cons_succ, List.getD_cons_zero, List.cons_append,
    List.nil_append, List.range_succ, List.range_zero, List.foldl_cons, List.foldl_nil,
    List.map_cons, List.map_nil, List.map_append, List.foldl_append, Nat.add_zero,
    Nat.reduceAdd]

theorem build_bme280_frame_invariant (node_id : uint8_t) (t100 p10 h100 : Int) :
    frame_invariant (build_bme280_frame node_id t100 p10 h100) 11 := by
  rw [build_bme280_frame_eq]
  refine Or.inl ⟨rfl, rfl, rfl, ?_, ?_⟩
  · rw [← calc_cs_eq_xor_all]
    exact (seal_xor _ _ _ 9 (by rfl)).symm
  · exact crc_byte_val _ 6

theorem build_lightrain_frame_invariant (node_id : uint8_t) (lux10 : Int) (rain : uint8_t) :
    frame_invariant (build_lightrain_frame node_id lux10 rain) 8 := by
  rw [build_lightrain_frame_eq]
  refine Or.inr (Or.inl ⟨rfl, rfl, rfl, ?_, ?_⟩)
  · rw [← calc_cs_eq_xor_all]
    exact (seal_xor _ _ _ 6 (by rfl)).symm
  · exact crc_byte_val _ 3

theorem build_system_status_frame_invariant (node_id : uint8_t) (uptime : Nat)
    (s2 s3 s4 s5 : uint8_t) (total_errors : Nat) :
    frame_invariant
      (build_system_status_frame node_id uptime s2 s3 s4 s5 total_errors).1 15 := by
  rw [build_system_status_frame_eq]
  refine Or.inr (Or.inr (Or.inl ⟨rfl, rfl, rfl, ?_⟩))
  rw [← calc_cs_eq_xor_all]
  exact (seal_xor _ _ _ 13 (by rfl)).symm

theorem build_gps_frame_invariant (node_id : uint8_t) (tm_hour tm_min tm_sec : Nat)
    (lat1e5 lon1e5 : Int) (positioning sats : uint8_t) (hdop10 alt10 : Int) :
    frame_invariant (build_gps_frame node_id tm_hour tm_min tm_sec lat1e5 lon1e5
      positioning sats hdop10 alt10) 25 := by
  rw [build_gps_frame_eq]
  refine Or.inr (Or.inr (Or.inr ⟨rfl, rfl, rfl, ?_, ?_⟩))
  · rw [← calc_cs_eq_xor_all]
    exact (seal_xor _ _ _ 23 (by rfl)).symm
  · exact crc_byte_val _ 20

/-! ## Wider integers and the UTC text -/

theorem shl_or4 (a b c d : Nat) (hb : b < 256) (hc : c < 256) (hd : d < 256) :
    (a <<< 24) ||| (b <<< 16) ||| (c <<< 8) ||| d =
      a * 16777216 + b * 65536 + c * 256 + d := by
  simp only [Nat.shiftLeft_eq]
  have e1 : a * 2 ^ 24 ||| b * 2 ^ 16 = 2 ^ 16 * (a * 256 + b) := by
    have h := @Nat.mul_add_lt_is_or 24 (b * 2 ^ 16) (by omega) a
    rw [Nat.mul_comm a, ← h]
    omega
  have e2 : 2 ^ 16 * (a * 256 + b) ||| c * 2 ^ 8 = 2 ^ 8 * (a * 65536 + b * 256 + c) := by
    have h := @Nat.mul_add_lt_is_or 16 (c * 2 ^ 8) (by omega) (a * 256 + b)
    rw [← h]
    omega
  have e3 : 2 ^ 8 * (a * 65536 + b * 256 + c) ||| d =
      a * 16777216 + b * 65536 + c * 256 + d := by
    have h := @Nat.mul_add_lt_is_or 8 d (by omega) (a * 65536 + b * 256 + c)
    rw [← h]
    omega
  rw [e1, e2, e3]

theorem asr_eq (t : Int) :
    t >>> (24 : Nat) = t / 16777216 ∧ t >>> (16 : Nat) = t / 65536 := by
  constructor <;> (rw [Int.shiftRight_eq_div_pow]; norm_num)

theorem to_int32_val (n : Nat) (h : n < 4294967296) :
    to_int32 n = if n < 2147483648 then (n : Int) else (n : Int) - 4294967296 := by
  unfold to_int32
  rw [Nat.mod_eq_of_lt h]

theorem int32_roundtrip (t : Int) (h1 : -2147483648 ≤ t) (h2 : t < 2147483648) :
    to_int32 (((to_uint8 (and_0xFF (t >>> (24 : Nat)))).val <<< 24) |||
      ((to_uint8 (and_0xFF (t >>> (16 : Nat)))).val <<< 16) |||
      ((to_uint8 (and_0xFF (t >>> (8 : Nat)))).val <<< 8) |||
      (to_uint8 (and_0xFF t)).val) = t := by
  rw [shl_or4 _ _ _ _ (to_uint8 _).isLt (to_uint8 _).isLt (to_uint8 _).isLt, asr8_eq,
    (asr_eq t).1, (asr_eq t).2, to_uint8_and_val, to_uint8_and_val, to_uint8_and_val,
    to_uint8_and_val, to_int32_val _ (by omega)]
  split_ifs <;> push_cast <;> omega

theorem byte_of_nat (u k : Nat) :
    (to_uint8 ((u >>> k &&& 0xFF : Nat) : Int)).val = u / 2 ^ k % 256 := by
  have e : (0xFF : Nat) = 2 ^ 8 - 1 := by norm_num
  rw [e, Nat.and_pow_two_sub_one_eq_mod, Nat.shiftRight_eq_div_pow,
    to_uint8_nat_val _ (Nat.mod_lt _ (by norm_num))]

theorem byte_of_nat_zero (u : Nat) :
    (to_uint8 ((u &&& 0xFF : Nat) : Int)).val = u % 256 := by
  have e : (0xFF : Nat) = 2 ^ 8 - 1 := by norm_num
  rw [e, Nat.and_pow_two_sub_one_eq_mod, to_uint8_nat_val _ (Nat.mod_lt _ (by norm_num))]

theorem uint32_roundtrip (u : Nat) (h : u < 4294967296) :
    (((to_uint8 ((u >>> 24 &&& 0xFF : Nat) : Int)).val <<< 24) |||
      ((to_uint8 ((u >>> 16 &&& 0xFF : Nat) : Int)).val <<< 16) |||
      ((to_uint8 ((u >>> 8 &&& 0xFF : Nat) : Int)).val <<< 8) |||
      (to_uint8 ((u &&& 0xFF : Nat) : Int)).val) % 4294967296 = u := by
  rw [shl_or4 _ _ _ _ (to_uint8 _).isLt (to_uint8 _).isLt (to_uint8 _).isLt, byte_of_nat,
    byte_of_nat, byte_of_nat, byte_of_nat_zero]
  omega

theorem uint16_roundtrip (e : Nat) (h : e < 65536) :
    (((to_uint8 ((e >>> 8 &&& 0xFF : Nat) : Int)).val <<< 8) |||
      (to_uint8 ((e &&& 0xFF : Nat) : Int)).val) % 65536 = e := by
  rw [shl8_or _ _ (to_uint8 _).isLt, byte_of_nat, byte_of_nat_zero]
  omega

theorem digit_ne_zero (v : Nat) (h : v < 10) : to_uint8 ((48 + v : Nat) : Int) ≠ 0 := by
  intro e
  have h2 := congrArg Fin.val e
  rw [to_uint8_nat_val _ (by omega)] at h2
  simp at h2

theorem strncpy_text (old d : List uint8_t) (hd : d.length = 6) (hnz : ∀ c ∈ d, c ≠ 0) :
    strncpy old (d ++ [0]) 6 = d ++ old.drop 6 := by
  unfold strncpy
  have ht : (d ++ [0]).take 6 = d := by
    rw [← hd]; exact List.take_left' rfl
  have hw : d.takeWhile (fun c => decide (c ≠ 0)) = d := by
    rw [List.takeWhile_eq_self_iff]
    intro c hc
    simpa using hnz c hc
  simp only [ht, hw, hd, Nat.sub_self, List.replicate_zero, List.append_nil]

/-! ## Accepted frames: return code and store update -/

theorem parse_code_of_invariant (buf : List uint8_t) :
    (frame_invariant buf 11 → LORA_ParseResponse buf 11 = some 1) ∧
    (frame_invariant buf 8 → LORA_ParseResponse buf 8 = some 2) ∧
    (frame_invariant buf 15 → LORA_ParseResponse buf 15 = some 4) ∧
    (frame_invariant buf 25 → LORA_ParseResponse buf 25 = some 4) := by
  refine ⟨?_, ?_, ?_, ?_⟩
  · intro h
    rcases h with ⟨_, h1, ht, hx, hc⟩ | ⟨hl, _⟩ | ⟨hl, _⟩ | ⟨hl, _⟩
    · rw [parse_bme280 buf h1 ht, calc_cs_eq_xor_all, if_pos ⟨hx.symm, hc.symm⟩]
    · omega
    · omega
    · omega
  · intro h
    rcases h with ⟨hl, _⟩ | ⟨_, h1, ht, hx, hc⟩ | ⟨hl, _⟩ | ⟨hl, _⟩
    · omega
    · rw [parse_lightrain buf h1 ht, calc_cs_eq_xor_all, if_pos ⟨hx.symm, hc.symm⟩]
    · omega
    · omega
  · intro h
    rcases h with ⟨hl, _⟩ | ⟨hl, _⟩ | ⟨_, h1, ht, hx⟩ | ⟨hl, _⟩
    · omega
    · omega
    · rw [parse_system_status buf h1 ht, calc_cs_eq_xor_all, if_pos hx.symm]
    · omega
  · intro h
    rcases h with ⟨hl, _⟩ | ⟨hl, _⟩ | ⟨hl, _⟩ | ⟨_, h1, ht, hx, hc⟩
    · omega
    · omega
    · omega
    · rw [parse_gps buf h1 ht, calc_cs_eq_xor_all, if_pos ⟨hx.symm, hc.symm⟩]

/-- A frame that satisfies the frame invariant for the length of its `cmd` byte leaves the
`switch` by `break`, with the update block of its case. -/
theorem write_data_switch_of_invariant (g : shared_weather_data) (frame : List uint8_t)
    (now : Int) :
    (frame_invariant frame 11 →
      write_data_switch g frame now = .brk (update_bme280 g frame now)) ∧
    (frame_invariant frame 8 →
      write_data_switch g frame now = .brk (update_lightrain g frame now)) ∧
    (frame_invariant frame 15 →
      write_data_switch g frame now = .brk (update_system_status g frame now)) ∧
    (frame_invariant frame 25 →
      write_data_switch g frame now = .brk (update_gps g frame now)) := by
  refine ⟨?_, ?_, ?_, ?_⟩
  · intro h
    rcases h with ⟨_, h1, ht, hx, hc⟩ | ⟨hl, _⟩ | ⟨hl, _⟩ | ⟨hl, _⟩
    · unfold write_data_switch
      simp only [CMD_BME280]
      rw [if_pos h1, case_CMD_BME280_eq, calc_cs_eq_xor_all, if_pos ⟨ht, hx.symm, hc.symm⟩]
    · omega
    · omega
    · omega
  · intro h
    rcases h with ⟨hl, _⟩ | ⟨_, h1, ht, hx, hc⟩ | ⟨hl, _⟩ | ⟨hl, _⟩
    · omega
    · unfold write_data_switch
      simp only [CMD_BME280, CMD_LIGHTRAIN]
      rw [if_neg (by omega), if_pos h1, case_CMD_LIGHTRAIN_eq, calc_cs_eq_xor_all,
        if_pos ⟨ht, hx.symm, hc.symm⟩]
    · omega
    · omega
  · intro h
    rcases h with ⟨hl, _⟩ | ⟨hl, _⟩ | ⟨_, h1, ht, hx⟩ | ⟨hl, _⟩
    · omega
    · omega
    · unfold write_data_switch
      simp only [CMD_BME280, CMD_LIGHTRAIN, CMD_SYSTEM_STATUS]
      rw [if_neg (by omega), if_neg (by omega), if_pos h1, case_CMD_SYSTEM_STATUS_eq,
        calc_cs_eq_xor_all, if_pos ⟨ht, hx.symm⟩]
    · omega
  · intro h
    rcases h with ⟨hl, _⟩ | ⟨hl, _⟩ | ⟨hl, _⟩ | ⟨_, h1, ht, hx, hc⟩
    · omega
    · omega
    · omega
    · unfold write_data_switch
      simp only [CMD_BME280, CMD_LIGHTRAIN, CMD_SYSTEM_STATUS, CMD_GPS]
      rw [if_neg (by omega), if_neg (by omega), if_neg (by omega), if_pos h1, case_CMD_GPS_eq,
        calc_cs_eq_xor_all, if_pos ⟨ht, hx.symm, hc.symm⟩]

/-- The frames that `write_data_to_shared_memory` accepts are those that satisfy the frame
invariant for one of the four lengths (the length that goes with their `cmd` byte). -/
theorem write_accepts_iff (g : shared_weather_data) (frame : List uint8_t) (now : Int) :
    write_accepts g frame now = true ↔
      (frame_invariant frame 11 ∨ frame_invariant frame 8 ∨ frame_invariant frame 15 ∨
        frame_invariant frame 25) := by
  constructor
  · intro ha
    rcases write_data_switch_cases g frame now with h | ⟨-, hi, -⟩ | ⟨-, hi, -⟩ | ⟨-, hi, -⟩ |
        ⟨-, hi, -⟩
    · rw [(write_rejected g frame now h).1] at ha
      exact Bool.noConfusion ha
    · exact Or.inl hi
    · exact Or.inr (Or.inl hi)
    · exact Or.inr (Or.inr (Or.inl hi))
    · exact Or.inr (Or.inr (Or.inr hi))
  · intro h
    obtain ⟨s1, s2, s3, s4⟩ := write_data_switch_of_invariant g frame now
    rcases h with h | h | h | h
    · exact (write_stored g _ frame now (s1 h)).1
    · exact (write_stored g _ frame now (s2 h)).1
    · exact (write_stored g _ frame now (s3 h)).1
    · exact (write_stored g _ frame now (s4 h)).1

/-! ## The history ring -/

theorem append_history_ring (g : shared_weather_data) (now : Int) :
    (append_history g now).history =
      Function.update g.history g.history_write_index g.latest_data ∧
    (append_history g now).history_write_index =
      ((g.history_write_index + 1) % 4294967296) % MAX_HISTORY_COUNT ∧
    (append_history g now).history_count =
      if g.history_count < MAX_HISTORY_COUNT then incr32 g.history_count
      else g.history_count := by
  unfold append_history
  simp only []
  split_ifs <;> simp

/-- The `switch` writes neither the history ring nor its index and count. -/
theorem write_data_switch_ring (g g1 : shared_weather_data) (frame : List uint8_t)
    (now : Int) (h : write_data_switch g frame now = .brk g1) :
    g1.history = g.history ∧ g1.history_write_index = g.history_write_index ∧
    g1.history_count = g.history_count := by
  rcases write_data_switch_cases g frame now with hs | ⟨-, -, hs⟩ | ⟨-, -, hs⟩ | ⟨-, -, hs⟩ |
      ⟨-, -, hs⟩
  · rw [hs] at h; simp [count_error] at h
  all_goals
    rw [hs] at h
    cases h
    exact ⟨rfl, rfl, rfl⟩

/-- The ring invariant, relative to the tagged frames `log` of the accepted calls so far:
the write index is their number modulo 100, the count is their number capped at 100, and
each of the last 100 of them is in the slot of its position modulo 100. -/
theorem ring_invariant_step (g : shared_weather_data) (log : List weather_frame)
    (frame : List uint8_t) (now : Int)
    (hw : g.history_write_index = log.length % 100)
    (hc : g.history_count = min log.length 100)
    (hs : ∀ j, j < log.length → log.length ≤ j + 100 → log[j]? = some (g.history (j % 100)))
    (ha : write_accepts g frame now = true) :
    (write_data_to_shared_memory g frame now).history_write_index = (log.length + 1) % 100 ∧
    (write_data_to_shared_memory g frame now).history_count = min (log.length + 1) 100 ∧
    ∀ j, j < log.length + 1 → log.length + 1 ≤ j + 100 →
      (log ++ [(write_data_to_shared_memory g frame now).latest_data])[j]? =
        some ((write_data_to_shared_memory g frame now).history (j % 100)) := by
  rcases write_data_switch_cases g frame now with h | ⟨-, -, h⟩ | ⟨-, -, h⟩ | ⟨-, -, h⟩ |
      ⟨-, -, h⟩
  · rw [(write_rejected g frame now h).1] at ha
    exact Bool.noConfusion ha
  all_goals
    obtain ⟨r1, r2, r3⟩ := write_data_switch_ring g _ frame now h
    rw [(write_stored g _ frame now h).2]
    obtain ⟨a1, a2, a3⟩ := append_history_ring _ now
    obtain ⟨-, -, -, a4, -⟩ := append_history_fields _ now
    rw [a1, a2, a3, a4, r1, r2, r3, hw, hc]
    refine ⟨?_, ?_, ?_⟩
    · simp only [MAX_HISTORY_COUNT]; omega
    · simp only [MAX_HISTORY_COUNT, incr32]
      split_ifs <;> omega
    · intro j hj1 hj2
      by_cases hjn : j = log.length
      · subst hjn
        simp
      · have hlt : j < log.length := by omega
        rw [List.getElem?_append_left hlt, hs j hlt (by omega),
          Function.update_noteq (by omega)]

theorem ring_invariant_run (calls : List (List uint8_t × Int)) :
    ∀ (g : shared_weather_data) (log : List weather_frame),
      g.history_write_index = log.length % 100 →
      g.history_count = min log.length 100 →
      (∀ j, j < log.length → log.length ≤ j + 100 →
        log[j]? = some (g.history (j % 100))) →
      (run_writes g log calls).1.history_write_index = (run_writes g log calls).2.length % 100 ∧
      (run_writes g log calls).1.history_count = min (run_writes g log calls).2.length 100 ∧
      ∀ j, j < (run_writes g log calls).2.length →
        (run_writes g log calls).2.length ≤ j + 100 →
        (run_writes g log calls).2[j]? = some ((run_writes g log calls).1.history (j % 100)) := by
  induction calls with
  | nil => intro g log hw hc hs; exact ⟨hw, hc, hs⟩
  | cons c cs ih =>
    intro g log hw hc hs
    unfold run_writes
    by_cases ha : write_accepts g c.1 c.2 = true
    · simp only [ha, if_true]
      obtain ⟨s1, s2, s3⟩ := ring_invariant_step g log c.1 c.2 hw hc hs ha
      apply ih
      · rw [s1]; simp
      · rw [s2]; simp
      · intro j hj1 hj2
        apply s3 j (by simpa using hj1) (by simpa using hj2)
    · have hf : write_accepts g c.1 c.2 = false := by simpa using ha
      simp only [hf]
      rcases write_data_switch_cases g c.1 c.2 with h | ⟨-, -, h⟩ | ⟨-, -, h⟩ | ⟨-, -, h⟩ |
          ⟨-, -, h⟩
      · rw [(write_rejected g c.1 c.2 h).2]
        exact ih _ log hw hc hs
      all_goals
        rw [(write_stored g _ c.1 c.2 h).1] at hf
        exact Bool.noConfusion hf

/-! ## Reading from a stream socket -/

theorem blit_zero (buf bytes : List uint8_t) :
    blit buf 0 bytes = bytes ++ buf.drop bytes.length := by
  simp [blit]

/-- The header read of `LORA_ReadAndRarse` when at least two bytes arrive. -/
theorem read_n_header (fd : sock) (header : List uint8_t) (a b : uint8_t)
    (rest : List uint8_t) (h : fd.data = a :: b :: rest) :
    read_n fd header 0 2 =
      { r := 2, fd := { fd with data := rest }, buf := a :: b :: header.drop 2 } := by
  unfold read_n
  rw [if_pos (by rw [h]; simp), blit_zero, h]
  simp

/-- With an unknown `cmd` byte `LORA_ReadAndRarse` returns -1 after the header read. -/
theorem read_unknown_cmd (fd : sock) (buf header : List uint8_t) (a b : uint8_t)
    (rest : List uint8_t) (h : fd.data = a :: b :: rest)
    (hc : expected_len_of b.val = none) :
    LORA_ReadAndRarse fd buf header =
      { ret := some (-1), fd := { fd with data := rest }, buf := buf } := by
  unfold LORA_ReadAndRarse
  simp only [read_n_header fd header a b rest h]
  simp [hc]

/-- The second read of `LORA_ReadAndRarse` when the 30 bytes `body` arrive: the 32-byte
frame buffer then holds the header bytes and `body`. -/
theorem read_n_body (fd : sock) (buf body rest : List uint8_t) (a b : uint8_t)
    (hb : buf.length = 32) (hl : body.length = 30) (h : fd.data = body ++ rest) :
    read_n fd ((buf.set 0 a).set 1 b) 2 30 =
      { r := 30, fd := { fd with data := rest }, buf := a :: b :: body } := by
  unfold read_n
  have h1 : fd.data.take 30 = body := by rw [h, ← hl]; exact List.take_left' rfl
  have h2 : fd.data.drop 30 = rest := by rw [h, ← hl]; exact List.drop_left' rfl
  rw [if_pos (by rw [h]; simp; omega), h1, h2]
  obtain ⟨x0, x1, xs, rfl⟩ : ∃ x0 x1 xs, buf = x0 :: x1 :: xs := by
    rcases buf with _ | ⟨x0, _ | ⟨x1, xs⟩⟩
    · simp at hb
    · simp at hb
    · exact ⟨x0, x1, xs, rfl⟩
  have h3 : (x0 :: x1 :: xs).length ≤ 2 + body.length := by rw [hb, hl]
  simp only [blit, List.set_cons_zero, List.set_cons_succ, List.take_succ_cons, List.take_zero,
    List.cons_append, List.nil_append]
  rw [List.drop_eq_nil_of_le (by simpa using h3)]
  simp

/-- A call of `LORA_ReadAndRarse` on a stream that starts with a 32-byte block whose `cmd`
byte is known: the block is consumed and stored in the frame buffer, and the result is -1
when the terminator is not at its place and the value of `LORA_ParseResponse` otherwise. -/
theorem read_known_cmd (fd : sock) (buf header body rest : List uint8_t) (a b : uint8_t)
    (len : Nat) (hb : buf.length = 32) (hl : body.length = 30)
    (h : fd.data = a :: b :: (body ++ rest)) (hc : expected_len_of b.val = some len) :
    LORA_ReadAndRarse fd buf header =
      { ret := if rd (a :: b :: body) (len - 1) ≠ END_SYMBOL 0 then some (-1)
          else LORA_ParseResponse (a :: b :: body) len,
        fd := { fd with data := rest }, buf := a :: b :: body } := by
  unfold LORA_ReadAndRarse
  simp only [read_n_header fd header a b (body ++ rest) h]
  have e := read_n_body { fd with data := body ++ rest } buf body rest a b hb hl rfl
  simp only [List.getD_cons_zero, List.getD_cons_succ, hc] at e ⊢
  simp only [e]
  simp
  split_ifs <;> rfl

theorem expected_len_of_invariant (blk : List uint8_t) (len : Nat)
    (h : frame_invariant blk len) :
    expected_len_of (rd blk 1) = some len ∧ rd blk (len - 1) = END_SYMBOL 0 := by
  rcases h with ⟨hl, h1, ht, _⟩ | ⟨hl, h1, ht, _⟩ | ⟨hl, h1, ht, _⟩ | ⟨hl, h1, ht, _⟩ <;>
    subst hl <;> rw [h1] <;> exact ⟨rfl, ht⟩

/-- A stream that starts with a 32-byte block satisfying the frame invariant: the call
consumes exactly the block, stores it in the frame buffer and returns the positive code of
`LORA_ParseResponse`. -/
theorem read_valid_block (fd : sock) (buf header blk rest : List uint8_t) (len : Nat)
    (hb : buf.length = 32) (hl : blk.length = 32) (hi : frame_invariant blk len)
    (h : fd.data = blk ++ rest) :
    ∃ c, 0 < c ∧ LORA_ParseResponse blk len = some c ∧
      LORA_ReadAndRarse fd buf header =
        { ret := some c, fd := { fd with data := rest }, buf := blk } := by
  obtain ⟨a, b, body, rfl⟩ : ∃ a b body, blk = a :: b :: body := by
    rcases blk with _ | ⟨a, _ | ⟨b, body⟩⟩
    · simp at hl
    · simp at hl
    · exact ⟨a, b, body, rfl⟩
  obtain ⟨he, ht⟩ := expected_len_of_invariant _ len hi
  have hbody : body.length = 30 := by simpa using hl
  obtain ⟨c, hc, hne⟩ := (parse_nonzero_iff _ len).2 hi
  have hpos : 0 < c := by
    obtain ⟨p1, p2, p3, p4⟩ := parse_code_of_invariant (a :: b :: body)
    rcases hi with ⟨hl, _⟩ | ⟨hl, _⟩ | ⟨hl, _⟩ | ⟨hl, _⟩ <;> subst hl
    · rw [p1 ((parse_nonzero_iff _ 11).1 ⟨c, hc, hne⟩)] at hc
      rw [← Option.some.inj hc]; decide
    · rw [p2 ((parse_nonzero_iff _ 8).1 ⟨c, hc, hne⟩)] at hc
      rw [← Option.some.inj hc]; decide
    · rw [p3 ((parse_nonzero_iff _ 15).1 ⟨c, hc, hne⟩)] at hc
      rw [← Option.some.inj hc]; decide
    · rw [p4 ((parse_nonzero_iff _ 25).1 ⟨c, hc, hne⟩)] at hc
      rw [← Option.some.inj hc]; decide
  refine ⟨c, hpos, hc, ?_⟩
  rw [read_known_cmd fd buf header body rest a b len hb hbody (by simpa using h) he,
    if_neg (by rw [ht]; simp), hc]

/-! ## The receiver set and the broadcast loop -/

theorem pending_part_cons (s : recvr_set_t) (i : Int) (h : i < s.count) :
    pending_part s i = s.fds i :: pending_part s (i + 1) := by
  unfold pending_part
  have e : (s.count - i).toNat = (s.count - (i + 1)).toNat + 1 := by omega
  rw [e, List.range_succ_eq_map, List.map_cons, List.map_map]
  simp only [Nat.cast_zero, add_zero]
  congr 1
  apply List.map_congr_left
  intro j _
  simp only [Function.comp, Nat.cast_succ]
  congr 1
  omega

theorem pending_part_nil (s : recvr_set_t) (i : Int) (h : ¬ i < s.count) :
    pending_part s i = [] := by
  unfold pending_part
  have e : (s.count - i).toNat = 0 := by omega
  rw [e]
  rfl

theorem done_part_succ (s : recvr_set_t) (i : Int) (h : 0 ≤ i) :
    done_part s (i + 1) = done_part s i ++ [s.fds i] := by
  unfold done_part
  have e : (i + 1).toNat = i.toNat + 1 := by omega
  rw [e, List.range_succ, List.map_append, List.map_singleton, Int.toNat_of_nonneg h]

theorem registered_eq_done_part (s : recvr_set_t) : registered s = done_part s s.count := rfl

theorem done_part_update (s : recvr_set_t) (i : Int) (v c : Int) (h : 0 ≤ i) :
    done_part ({ fds := Function.update s.fds i v, count := c } : recvr_set_t) i = done_part s i := by
  unfold done_part
  apply List.map_congr_left
  intro j hj
  rw [List.mem_range] at hj
  simp only []
  rw [Function.update_noteq (by omega)]

/-- After `remove_receiver_nolock(i)` the entries from `i` on are the former entries after
`i`, with the last one moved to the front. -/
theorem pending_part_remove (s : recvr_set_t) (i : Int) (h : i < s.count) :
    List.Perm
      (pending_part
        ({ fds := Function.update s.fds i (s.fds (s.count - 1)), count := s.count - 1 } :
          recvr_set_t) i)
      (pending_part s (i + 1)) := by
  unfold pending_part
  dsimp only
  have e : (s.count - 1 - i).toNat = (s.count - (i + 1)).toNat := by omega
  rw [e]
  rcases Nat.eq_zero_or_pos (s.count - (i + 1)).toNat with h0 | hpos
  · rw [h0]; exact List.Perm.refl _
  · obtain ⟨m, hm⟩ : ∃ m, (s.count - (i + 1)).toNat = m + 1 := ⟨_, (Nat.succ_pred_eq_of_pos hpos).symm⟩
    rw [hm]
    have hl : (List.range (m + 1)).map
        (fun (j : Nat) => Function.update s.fds i (s.fds (s.count - 1)) (i + (j : Int))) =
        s.fds (s.count - 1) :: (List.range m).map (fun (j : Nat) => s.fds (i + 1 + (j : Int))) := by
      rw [List.range_succ_eq_map, List.map_cons, List.map_map]
      congr 1
      · have e0 : i + ((0 : Nat) : Int) = i := by omega
        rw [e0, Function.update_same]
      · apply List.map_congr_left
        intro j _
        simp only [Function.comp, Nat.cast_succ]
        rw [Function.update_noteq (by omega)]
        congr 1
        omega
    have hr : (List.range (m + 1)).map (fun (j : Nat) => s.fds (i + 1 + (j : Int))) =
        (List.range m).map (fun (j : Nat) => s.fds (i + 1 + (j : Int))) ++
          [s.fds (s.count - 1)] := by
      rw [List.range_succ, List.map_append, List.map_singleton]
      congr 2
      congr 1
      omega
    rw [hl, hr]
    exact (List.perm_append_singleton _ _).symm

theorem pending_part_zero (s : recvr_set_t) : pending_part s 0 = registered s := by
  unfold pending_part registered
  rw [Int.sub_zero]
  apply List.map_congr_left
  intro j _
  rw [Int.zero_add]

/-- The loop of `broadcast_frame` ends within `count - i` passes of its body. -/
theorem broadcast_loop_terminates (send_ok : Int → Bool) (frame : List uint8_t) :
    ∀ (fuel : Nat) (st : server_state) (i : Int),
      (st.recvers.count - i).toNat ≤ fuel →
      ∃ st', broadcast_loop send_ok frame fuel st i = some st' := by
  intro fuel
  induction fuel with
  | zero =>
    intro st i hf
    unfold broadcast_loop
    rw [if_neg (by omega)]
    exact ⟨st, rfl⟩
  | succ fuel ih =>
    intro st i hf
    unfold broadcast_loop
    by_cases hlt : i < st.recvers.count
    · rw [if_pos hlt]
      dsimp only
      split_ifs
      · apply ih
        unfold remove_receiver_nolock
        dsimp only
        omega
      · apply ih
        dsimp only
        omega
    · rw [if_neg hlt]
      exact ⟨st, rfl⟩

/-- The loop of `broadcast_frame` from index `i` on: `att` are the descriptors written to,
in the order of the `send_all` calls. -/
theorem broadcast_loop_spec (send_ok : Int → Bool) (frame : List uint8_t) :
    ∀ (fuel : Nat) (st : server_state) (i : Int),
      0 ≤ i → i ≤ st.recvers.count → (st.recvers.count - i).toNat ≤ fuel →
      ∃ st' att, broadcast_loop send_ok frame fuel st i = some st' ∧
        List.Perm att (pending_part st.recvers i) ∧
        st'.sent = st.sent ++ att.map (fun fd => (fd, bytes_of frame 0 FRAME_LEN)) ∧
        st'.closed = st.closed ++ att.filter (fun fd => !send_ok fd && decide (0 ≤ fd)) ∧
        List.Perm (registered st'.recvers) (done_part st.recvers i ++ att.filter send_ok) ∧
        st'.recvers.count = i + ((att.filter send_ok).length : Int) ∧
        st'.threads = st.threads := by
  intro fuel
  induction fuel with
  | zero =>
    intro st i h0 hi hf
    have e : i = st.recvers.count := by omega
    refine ⟨st, [], ?_, ?_, by simp, by simp, ?_, by simp [e], rfl⟩
    · unfold broadcast_loop
      rw [if_neg (by omega)]
    · rw [pending_part_nil _ _ (by omega)]
    · rw [e, registered_eq_done_part]; simp
  | succ fuel ih =>
    intro st i h0 hi hf
    by_cases hlt : i < st.recvers.count
    · unfold broadcast_loop
      rw [if_pos hlt]
      dsimp only
      by_cases hok : send_ok (st.recvers.fds i) = false
      · rw [if_pos hok]
        obtain ⟨st', att, h1, h2, h3, h4, h5, h6, h7⟩ := ih
          (remove_receiver_nolock
            { st with sent := st.sent ++ [(st.recvers.fds i, bytes_of frame 0 FRAME_LEN)] } i)
          i h0 (by unfold remove_receiver_nolock; dsimp only; omega)
          (by unfold remove_receiver_nolock; dsimp only; omega)
        refine ⟨st', st.recvers.fds i :: att, h1, ?_, ?_, ?_, ?_, ?_, ?_⟩
        · rw [pending_part_cons _ _ hlt]
          exact List.Perm.cons _ (h2.trans (pending_part_remove st.recvers i hlt))
        · rw [h3]
          simp [remove_receiver_nolock]
        · rw [h4]
          unfold remove_receiver_nolock
          dsimp only
          by_cases hn : 0 ≤ st.recvers.fds i
          · simp [hok, hn]
          · simp [hok, hn]
        · have hd : done_part (remove_receiver_nolock
              { st with sent := st.sent ++ [(st.recvers.fds i, bytes_of frame 0 FRAME_LEN)] }
              i).recvers i = done_part st.recvers i :=
            done_part_update st.recvers i _ _ h0
          rw [hd] at h5
          simpa [hok] using h5
        · rw [h6]
          simp [hok]
        · rw [h7]
          rfl
      · have hok2 : send_ok (st.recvers.fds i) = true := by simpa using hok
        rw [if_neg hok]
        obtain ⟨st', att, h1, h2, h3, h4, h5, h6, h7⟩ := ih
          { st with sent := st.sent ++ [(st.recvers.fds i, bytes_of frame 0 FRAME_LEN)] }
          (i + 1) (by omega) (by dsimp only; omega) (by dsimp only; omega)
        refine ⟨st', st.recvers.fds i :: att, h1, ?_, ?_, ?_, ?_, ?_, ?_⟩
        · rw [pending_part_cons _ _ hlt]
          exact List.Perm.cons _ h2
        · rw [h3]
          simp
        · rw [h4]
          simp [hok2]
        · dsimp only at h5
          rw [done_part_succ _ _ h0] at h5
          simpa [hok2] using h5
        · rw [h6]
          simp [hok2]
          omega
        · rw [h7]
    · have e : i = st.recvers.count := by omega
      refine ⟨st, [], ?_, ?_, by simp, by simp, ?_, by simp [e], rfl⟩
      · unfold broadcast_loop
        rw [if_neg hlt]
      · rw [pending_part_nil _ _ hlt]
      · rw [e, registered_eq_done_part]; simp

/-- More passes than needed do not change the result of the loop of `broadcast_frame`. -/
theorem broadcast_loop_fuel (send_ok : Int → Bool) (frame : List uint8_t) :
    ∀ (fuel : Nat) (st r : server_state) (i : Int) (k : Nat),
      broadcast_loop send_ok frame fuel st i = some r →
      broadcast_loop send_ok frame (fuel + k) st i = some r := by
  intro fuel
  induction fuel with
  | zero =>
    intro st r i k h
    unfold broadcast_loop at h
    by_cases hlt : i < st.recvers.count
    · rw [if_pos hlt] at h
      exact Option.noConfusion h
    · rw [if_neg hlt] at h
      cases k with
      | zero => unfold broadcast_loop; rw [if_neg hlt]; exact h
      | succ k => rw [Nat.zero_add]; unfold broadcast_loop; rw [if_neg hlt]; exact h
  | succ fuel ih =>
    intro st r i k h
    have e : fuel + 1 + k = (fuel + k) + 1 := by omega
    rw [e]
    unfold broadcast_loop at h ⊢
    by_cases hlt : i < st.recvers.count
    · rw [if_pos hlt] at h ⊢
      dsimp only at h ⊢
      split_ifs at h ⊢
      · exact ih _ _ _ _ h
      · exact ih _ _ _ _ h
    · rw [if_neg hlt] at h ⊢
      exact h

/-! ## The loops of the sender task and of the receiver process -/

/-- Successive calls of `LORA_ReadAndRarse` on a stream made of 32-byte blocks that each
satisfy the frame invariant: call `j` returns a positive code with the frame buffer equal to
block `j`, and leaves the blocks after it on the stream. -/
theorem read_calls_blocks (hdr : Nat → List uint8_t) :
    ∀ (blocks : List (List uint8_t)) (i : Nat) (fd : sock) (buf tail : List uint8_t),
      buf.length = 32 →
      (∀ b ∈ blocks, b.length = 32 ∧ ∃ len, frame_invariant b len) →
      fd.data = blocks.flatten ++ tail →
      (read_calls hdr i blocks.length fd buf).map (fun r => r.buf) = blocks ∧
      (read_calls hdr i blocks.length fd buf).map (fun r => r.fd.data) =
        blocks.tails.tail.map (fun t => t.flatten ++ tail) ∧
      ∀ r ∈ read_calls hdr i blocks.length fd buf, ∃ c, r.ret = some c ∧ 0 < c := by
  intro blocks
  induction blocks with
  | nil =>
    intro i fd buf tail _ _ _
    simp [read_calls]
  | cons b bs ih =>
    intro i fd buf tail hb hv hd
    obtain ⟨hbl, len, hinv⟩ := hv b (List.mem_cons_self _ _)
    obtain ⟨c, hpos, -, hr⟩ := read_valid_block fd buf (hdr i) b (bs.flatten ++ tail) len hb hbl
      hinv (by rw [hd, List.flatten_cons, List.append_assoc])
    obtain ⟨i1, i2, i3⟩ := ih (i + 1) { fd with data := bs.flatten ++ tail } b tail hbl
      (fun x hx => hv x (List.mem_cons_of_mem _ hx)) rfl
    simp only [List.length_cons, read_calls, hr, List.map_cons, List.tails, List.tail_cons]
    refine ⟨by rw [i1], ?_, ?_⟩
    · rw [i2]
      cases bs <;> rfl
    · intro r hr2
      rcases List.mem_cons.1 hr2 with h | h
      · exact ⟨c, by rw [h], hpos⟩
      · exact i3 r h

/-- A pass of the loop of `sender_thread` in which `LORA_ReadAndRarse` returns 0: `break`,
then `close(conn_fd)`. -/
theorem sender_thread_zero (send_ok : Nat → Int → Bool) (hdr : Nat → List uint8_t)
    (fuel : Nat) (s : sender_state)
    (hr : (LORA_ReadAndRarse s.conn s.frame (hdr s.iter)).ret = some 0) :
    sender_thread send_ok hdr (fuel + 1) s =
      some { s with conn := (LORA_ReadAndRarse s.conn s.frame (hdr s.iter)).fd,
                    frame := (LORA_ReadAndRarse s.conn s.frame (hdr s.iter)).buf,
                    iter := s.iter + 1,
                    srv := { s.srv with closed := s.srv.closed ++ [s.conn_fd] } } := by
  rw [sender_thread]
  simp only [hr]
  rw [if_neg (by decide), if_pos trivial]

/-- A pass of the loop of `sender_thread` in which `LORA_ReadAndRarse` returns a positive
code: the frame buffer is handed to `broadcast_frame`. -/
theorem sender_thread_positive (send_ok : Nat → Int → Bool) (hdr : Nat → List uint8_t)
    (fuel : Nat) (s : sender_state) (c : Int) (srv : server_state)
    (hr : (LORA_ReadAndRarse s.conn s.frame (hdr s.iter)).ret = some c) (hc : 0 < c)
    (hb : broadcast_frame (send_ok s.iter) s.srv
      (LORA_ReadAndRarse s.conn s.frame (hdr s.iter)).buf = some srv) :
    sender_thread send_ok hdr (fuel + 1) s =
      sender_thread send_ok hdr fuel
        { s with conn := (LORA_ReadAndRarse s.conn s.frame (hdr s.iter)).fd,
                 frame := (LORA_ReadAndRarse s.conn s.frame (hdr s.iter)).buf,
                 iter := s.iter + 1,
                 srv := srv,
                 broadcasts := s.broadcasts ++
                   [(LORA_ReadAndRarse s.conn s.frame (hdr s.iter)).buf] } := by
  rw [sender_thread]
  simp only [hr]
  rw [if_neg (by omega), if_neg (by omega)]
  simp only [hb]

/-- A read on a stream with nothing left: 0 when the peer has closed, -1 on an error, and
no error is pending afterwards. -/
theorem read_end_of_stream (buf header : List uint8_t) (e : Bool) :
    LORA_ReadAndRarse { data := [], err := e } buf header =
      { ret := some (if e then -1 else 0), fd := { data := [], err := false }, buf := buf } := by
  cases e <;> rfl

/-- The sender task on a stream of 32-byte blocks that each satisfy the frame invariant,
closed by the peer after the last one: the task ends, and it has handed the blocks to
`broadcast_frame` in their order of arrival. -/
theorem sender_thread_blocks (send_ok : Nat → Int → Bool) (hdr : Nat → List uint8_t) :
    ∀ (blocks : List (List uint8_t)) (s : sender_state),
      s.frame.length = 32 →
      (∀ b ∈ blocks, b.length = 32 ∧ ∃ len, frame_invariant b len) →
      s.conn = { data := blocks.flatten, err := false } →
      ∃ s', (∀ k, sender_thread send_ok hdr (blocks.length + 1 + k) s = some s') ∧
        s'.broadcasts = s.broadcasts ++ blocks ∧ s'.conn.data = [] := by
  intro blocks
  induction blocks with
  | nil =>
    intro s _ _ hc
    have hr := read_end_of_stream s.frame (hdr s.iter) false
    simp only [List.flatten_nil] at hc
    rw [← hc] at hr
    have h0 : (LORA_ReadAndRarse s.conn s.frame (hdr s.iter)).ret = some 0 := by rw [hr]; rfl
    have h := fun k => sender_thread_zero send_ok hdr k s h0
    refine ⟨{ s with conn := (LORA_ReadAndRarse s.conn s.frame (hdr s.iter)).fd,
                     frame := (LORA_ReadAndRarse s.conn s.frame (hdr s.iter)).buf,
                     iter := s.iter + 1,
                     srv := { s.srv with closed := s.srv.closed ++ [s.conn_fd] } },
      fun k => ?_, ?_, ?_⟩
    · have e : ([] : List (List uint8_t)).length + 1 + k = k + 1 := by
        simp only [List.length_nil]; omega
      rw [e]
      exact h k
    · simp
    · show (LORA_ReadAndRarse s.conn s.frame (hdr s.iter)).fd.data = []
      rw [hr, hc]
  | cons b bs ih =>
    intro s hf hv hc
    obtain ⟨hbl, len, hinv⟩ := hv b (List.mem_cons_self _ _)
    obtain ⟨c, hpos, -, hr⟩ := read_valid_block s.conn s.frame (hdr s.iter) b bs.flatten len hf
      hbl hinv (by rw [hc, List.flatten_cons])
    obtain ⟨srv, hsrv⟩ := broadcast_loop_terminates (send_ok s.iter) b
      s.srv.recvers.count.toNat s.srv 0 (by omega)
    obtain ⟨s', h1, h2, h3⟩ := ih
      { s with conn := { s.conn with data := bs.flatten }, frame := b, iter := s.iter + 1,
               srv := srv, broadcasts := s.broadcasts ++ [b] }
      hbl (fun x hx => hv x (List.mem_cons_of_mem _ hx)) (by rw [hc])
    refine ⟨s', fun k => ?_, ?_, h3⟩
    · have e : (b :: bs).length + 1 + k = (bs.length + 1 + k) + 1 := by simp; omega
      rw [e, sender_thread_positive send_ok hdr _ s c srv (by rw [hr]) hpos
        (by rw [hr]; exact hsrv), ← h1 k]
      simp only [hr]
    · rw [h2]; simp

theorem expected_len_of_shape (blk : List uint8_t) (len : Nat) (h : frame_shape blk len) :
    expected_len_of (rd blk 1) = some len ∧ rd blk (len - 1) = END_SYMBOL 0 := by
  rcases h with ⟨hl, h1, ht⟩ | ⟨hl, h1, ht⟩ | ⟨hl, h1, ht⟩ | ⟨hl, h1, ht⟩ <;>
    subst hl <;> rw [h1] <;> exact ⟨rfl, ht⟩

/-- A stream that starts with a 32-byte block holding a complete frame of one of the four
shapes whose checksum or CRC4 is wrong: the call consumes the block and returns 0, the value
of `LORA_ParseResponse`. -/
theorem read_bad_checksum_block (fd : sock) (buf header blk rest : List uint8_t) (len : Nat)
    (hb : buf.length = 32) (hl : blk.length = 32) (hs : frame_shape blk len)
    (hi : ¬ frame_invariant blk len) (h : fd.data = blk ++ rest) :
    LORA_ReadAndRarse fd buf header =
      { ret := some 0, fd := { fd with data := rest }, buf := blk } := by
  obtain ⟨a, b, body, rfl⟩ : ∃ a b body, blk = a :: b :: body := by
    rcases blk with _ | ⟨a, _ | ⟨b, body⟩⟩
    · simp at hl
    · simp at hl
    · exact ⟨a, b, body, rfl⟩
  obtain ⟨he, ht⟩ := expected_len_of_shape _ len hs
  have hbody : body.length = 30 := by simpa using hl
  rw [read_known_cmd fd buf header body rest a b len hb hbody (by simpa using h) he,
    if_neg (by rw [ht]; simp), (parse_shape _ len hs).2 hi]

/-- A pass of `receive_loop` in which `LORA_ReadAndRarse` returns a negative code:
`continue` (after `sleep(5)`), with nothing stored. -/
theorem receive_loop_negative (hdr : Nat → List uint8_t) (now : Nat → Int)
    (fuel : Nat) (s : receiver_state) (c : Int)
    (hr : (LORA_ReadAndRarse s.conn s.frame (hdr s.iter)).ret = some c) (hc : c < 0) :
    receive_loop hdr now (fuel + 1) s =
      receive_loop hdr now fuel
        { s with conn := (LORA_ReadAndRarse s.conn s.frame (hdr s.iter)).fd,
                 frame := (LORA_ReadAndRarse s.conn s.frame (hdr s.iter)).buf,
                 iter := s.iter + 1 } := by
  rw [receive_loop]
  simp only [hr]
  rw [if_pos hc]

/-- A pass of `receive_loop` in which `LORA_ReadAndRarse` returns 0: `break`, and the
function returns to `main` with nothing stored. -/
theorem receive_loop_zero (hdr : Nat → List uint8_t) (now : Nat → Int)
    (fuel : Nat) (s : receiver_state)
    (hr : (LORA_ReadAndRarse s.conn s.frame (hdr s.iter)).ret = some 0) :
    receive_loop hdr now (fuel + 1) s =
      some { s with conn := (LORA_ReadAndRarse s.conn s.frame (hdr s.iter)).fd,
                    frame := (LORA_ReadAndRarse s.conn s.frame (hdr s.iter)).buf,
                    iter := s.iter + 1 } := by
  rw [receive_loop]
  simp only [hr]
  rw [if_neg (by decide), if_pos trivial]

/-! ## A failed socket read in the sender task -/

theorem crc4_table_lt (i : Nat) : crc4_table i < 16 := by
  unfold crc4_table
  by_cases h : i < 16
  · interval_cases i <;> decide
  · rw [List.getD_eq_default _ _ (by simpa using h)]
    decide

/-- The low nibble of the byte cancels in one iteration of `Calculate_CRC4`: the state
after the byte is `crc4_table[crc4_table[(crc ^ (d >> 4)) & 0x0F]]`. -/
theorem crc4_step_eq (crc d : Nat) :
    crc4_step crc d = crc4_table (crc4_table ((crc ^^^ (d >>> 4)) &&& 0x0F)) := by
  unfold crc4_step
  dsimp only
  rw [Nat.xor_assoc, Nat.xor_self, Nat.xor_zero]
  congr 1
  have e : (0x0F : Nat) = 2 ^ 4 - 1 := by norm_num
  rw [e, Nat.and_pow_two_sub_one_eq_mod]
  exact Nat.mod_eq_of_lt (crc4_table_lt _)

/-- The state of the loop of `Calculate_CRC4` after `len` bytes. -/
theorem crc4_fold_succ (data : List uint8_t) (len : Nat) :
    (List.range (len + 1)).foldl (fun crc i => crc4_step crc (rd data i)) 0x0F =
      crc4_step ((List.range len).foldl (fun crc i => crc4_step crc (rd data i)) 0x0F)
        (rd data len) := by
  rw [List.range_succ, List.foldl_append, List.foldl_cons, List.foldl_nil]

theorem crc4_fold_lt (data : List uint8_t) (len : Nat) :
    (List.range len).foldl (fun crc i => crc4_step crc (rd data i)) 0x0F < 16 := by
  cases len with
  | zero => show 15 < 16; decide
  | succ n =>
    rw [crc4_fold_succ, crc4_step_eq]
    exact crc4_table_lt _

/-- The state of the loop depends on the high nibbles of the bytes read only. -/
theorem crc4_fold_congr (a b : List uint8_t) (len : Nat)
    (h : ∀ j, j < len → rd a j >>> 4 = rd b j >>> 4) :
    (List.range len).foldl (fun crc i => crc4_step crc (rd a i)) 0x0F =
      (List.range len).foldl (fun crc i => crc4_step crc (rd b i)) 0x0F := by
  induction len with
  | zero => rw [List.range_zero, List.foldl_nil, List.foldl_nil]
  | succ n ih =>
    rw [crc4_fold_succ, crc4_fold_succ, ih (fun j hj => h j (by omega)), crc4_step_eq,
      crc4_step_eq, h n (by omega)]

theorem Calculate_CRC4_congr (a b : List uint8_t) (len : Nat)
    (h : ∀ j, j < len → rd a j >>> 4 = rd b j >>> 4) :
    Calculate_CRC4 a len = Calculate_CRC4 b len := by
  unfold Calculate_CRC4
  rw [crc4_fold_congr a b len h]

theorem uint8_high_nibble (b : uint8_t) : (b &&& 0xF0).val >>> 4 = b.val >>> 4 := by
  show ((b.val &&& 240) % 256) >>> 4 = b.val >>> 4
  have hb := b.isLt
  have h1 : b.val &&& 240 ≤ b.val := Nat.and_le_left
  rw [Nat.mod_eq_of_lt (by omega)]
  apply Nat.eq_of_testBit_eq
  intro k
  rw [Nat.testBit_shiftRight, Nat.testBit_shiftRight, Nat.testBit_and]
  by_cases hk : k < 4
  · have e : Nat.testBit 240 (4 + k) = true := by interval_cases k <;> rfl
    rw [e, Bool.and_true]
  · have e : Nat.testBit b.val (4 + k) = false :=
      Nat.testBit_lt_two_pow (lt_of_lt_of_le hb (by
        calc 256 = 2 ^ 8 := by norm_num
          _ ≤ 2 ^ (4 + k) := Nat.pow_le_pow_right (by norm_num) (by omega)))
    rw [e, Bool.false_and]

theorem rd_map_high (data : List uint8_t) (i : Nat) :
    rd (data.map (fun b => b &&& 0xF0)) i >>> 4 = rd data i >>> 4 := by
  unfold rd
  by_cases h : i < data.length
  · rw [List.getD_eq_getElem _ _ (by simpa using h), List.getD_eq_getElem _ _ h,
      List.getElem_map]
    exact uint8_high_nibble _
  · rw [List.getD_eq_default _ _ (by simpa using h), List.getD_eq_default _ _ (by omega)]

theorem crc4_table_injective (i j : Nat) (hi : i < 16) (hj : j < 16)
    (h : crc4_table i = crc4_table j) : i = j := by
  have key : ∀ k, k < 16 →
      [0, 14, 15, 1, 13, 3, 2, 12, 9, 7, 6, 8, 4, 10, 11, 5].getD (crc4_table k) 0 = k := by
    intro k hk
    interval_cases k <;> rfl
  rw [← key i hi, ← key j hj, h]

/-- One iteration of `Calculate_CRC4` is injective in the pair of the state and the high
nibble of the byte, through their XOR. -/
theorem crc4_step_ne (c c' d d' : Nat) (hc : c < 16) (hc' : c' < 16) (hd : d < 256)
    (hd' : d' < 256) (h : c ^^^ (d >>> 4) ≠ c' ^^^ (d' >>> 4)) :
    crc4_step c d ≠ crc4_step c' d' := by
  rw [crc4_step_eq, crc4_step_eq]
  have e : (0x0F : Nat) = 2 ^ 4 - 1 := by norm_num
  have h1 : d >>> 4 < 16 := by rw [Nat.shiftRight_eq_div_pow]; omega
  have h2 : d' >>> 4 < 16 := by rw [Nat.shiftRight_eq_div_pow]; omega
  have x1 : c ^^^ (d >>> 4) < 2 ^ 4 := Nat.xor_lt_two_pow hc h1
  have x2 : c' ^^^ (d' >>> 4) < 2 ^ 4 := Nat.xor_lt_two_pow hc' h2
  rw [e, Nat.and_pow_two_sub_one_eq_mod, Nat.and_pow_two_sub_one_eq_mod,
    Nat.mod_eq_of_lt x1, Nat.mod_eq_of_lt x2]
  intro hh
  exact h (crc4_table_injective _ _ x1 x2
    (crc4_table_injective _ _ (crc4_table_lt _) (crc4_table_lt _) hh))

theorem rd_lt (buf : List uint8_t) (i : Nat) : rd buf i < 256 := (buf.getD i 0).isLt

/-- A change of the high nibble of one byte changes the state of the loop of
`Calculate_CRC4` at every later point. -/
theorem crc4_fold_high_change (a b : List uint8_t) (i : Nat)
    (hne : rd a i >>> 4 ≠ rd b i >>> 4)
    (hsame : ∀ j, j ≠ i → rd a j = rd b j) :
    ∀ len, i < len →
      (List.range len).foldl (fun crc k => crc4_step crc (rd a k)) 0x0F ≠
        (List.range len).foldl (fun crc k => crc4_step crc (rd b k)) 0x0F := by
  intro len
  induction len with
  | zero => intro h; omega
  | succ n ih =>
    intro h
    rw [crc4_fold_succ, crc4_fold_succ]
    apply crc4_step_ne _ _ _ _ (crc4_fold_lt _ _) (crc4_fold_lt _ _) (rd_lt _ _) (rd_lt _ _)
    by_cases hn : i = n
    · subst hn
      rw [crc4_fold_congr a b i (fun j hj => by rw [hsame j (by omega)])]
      intro hx
      exact hne (Nat.xor_right_injective hx)
    · rw [hsame n (fun e => hn e.symm)]
      intro hx
      exact ih (by omega) (Nat.xor_left_injective hx)

/-! ## The counters of the store -/

/-- What one call of `write_data_to_shared_memory` does to the counters: an accepted frame
adds 1 (modulo 2^32) to `update_counter`, to `total_received` and to exactly one of the four
per-variant counters; a rejected frame changes none of them. -/
theorem write_counters_step (g : shared_weather_data) (frame : List uint8_t) (now : Int) :
    (write_accepts g frame now = true →
      (write_data_to_shared_memory g frame now).update_counter = incr32 g.update_counter ∧
      (write_data_to_shared_memory g frame now).total_received = incr32 g.total_received ∧
      (((write_data_to_shared_memory g frame now).bme280_count = incr32 g.bme280_count ∧
        (write_data_to_shared_memory g frame now).lightrain_count = g.lightrain_count ∧
        (write_data_to_shared_memory g frame now).system_status_count =
          g.system_status_count ∧
        (write_data_to_shared_memory g frame now).gps_count = g.gps_count) ∨
       ((write_data_to_shared_memory g frame now).bme280_count = g.bme280_count ∧
        (write_data_to_shared_memory g frame now).lightrain_count =
          incr32 g.lightrain_count ∧
        (write_data_to_shared_memory g frame now).system_status_count =
          g.system_status_count ∧
        (write_data_to_shared_memory g frame now).gps_count = g.gps_count) ∨
       ((write_data_to_shared_memory g frame now).bme280_count = g.bme280_count ∧
        (write_data_to_shared_memory g frame now).lightrain_count = g.lightrain_count ∧
        (write_data_to_shared_memory g frame now).system_status_count =
          incr32 g.system_status_count ∧
        (write_data_to_shared_memory g frame now).gps_count = g.gps_count) ∨
       ((write_data_to_shared_memory g frame now).bme280_count = g.bme280_count ∧
        (write_data_to_shared_memory g frame now).lightrain_count = g.lightrain_count ∧
        (write_data_to_shared_memory g frame now).system_status_count =
          g.system_status_count ∧
        (write_data_to_shared_memory g frame now).gps_count = incr32 g.gps_count))) ∧
    (write_accepts g frame now = false →
      (write_data_to_shared_memory g frame now).update_counter = g.update_counter ∧
      (write_data_to_shared_memory g frame now).total_received = g.total_received ∧
      (write_data_to_shared_memory g frame now).bme280_count = g.bme280_count ∧
      (write_data_to_shared_memory g frame now).lightrain_count = g.lightrain_count ∧
      (write_data_to_shared_memory g frame now).system_status_count =
        g.system_status_count ∧
      (write_data_to_shared_memory g frame now).gps_count = g.gps_count ∧
      (write_data_to_shared_memory g frame now).total_errors = incr32 g.total_errors) := by
  rcases write_data_switch_cases g frame now with hs | ⟨-, -, hs⟩ | ⟨-, -, hs⟩ |
      ⟨-, -, hs⟩ | ⟨-, -, hs⟩
  · obtain ⟨ha, hw⟩ := write_rejected g frame now hs
    rw [ha, hw]
    exact ⟨fun h => Bool.noConfusion h, fun _ => ⟨rfl, rfl, rfl, rfl, rfl, rfl, rfl⟩⟩
  · obtain ⟨ha, hw⟩ := write_stored g _ frame now hs
    obtain ⟨f1, f2, -, -, -, -, -, -, f9, f10, f11, f12, -⟩ := append_history_fields
      (update_bme280 g frame now) now
    rw [ha, hw, f1, f2, f9, f10, f11, f12]
    exact ⟨fun _ => ⟨rfl, rfl, Or.inl ⟨rfl, rfl, rfl, rfl⟩⟩, fun h => Bool.noConfusion h⟩
  · obtain ⟨ha, hw⟩ := write_stored g _ frame now hs
    obtain ⟨f1, f2, -, -, -, -, -, -, f9, f10, f11, f12, -⟩ := append_history_fields
      (update_lightrain g frame now) now
    rw [ha, hw, f1, f2, f9, f10, f11, f12]
    exact ⟨fun _ => ⟨rfl, rfl, Or.inr (Or.inl ⟨rfl, rfl, rfl, rfl⟩)⟩,
      fun h => Bool.noConfusion h⟩
  · obtain ⟨ha, hw⟩ := write_stored g _ frame now hs
    obtain ⟨f1, f2, -, -, -, -, -, -, f9, f10, f11, f12, -⟩ := append_history_fields
      (update_system_status g frame now) now
    rw [ha, hw, f1, f2, f9, f10, f11, f12]
    exact ⟨fun _ => ⟨rfl, rfl, Or.inr (Or.inr (Or.inl ⟨rfl, rfl, rfl, rfl⟩))⟩,
      fun h => Bool.noConfusion h⟩
  · obtain ⟨ha, hw⟩ := write_stored g _ frame now hs
    obtain ⟨f1, f2, -, -, -, -, -, -, f9, f10, f11, f12, -⟩ := append_history_fields
      (update_gps g frame now) now
    rw [ha, hw, f1, f2, f9, f10, f11, f12]
    exact ⟨fun _ => ⟨rfl, rfl, Or.inr (Or.inr (Or.inr ⟨rfl, rfl, rfl, rfl⟩))⟩,
      fun h => Bool.noConfusion h⟩

/-- The counters along a sequence of calls, relative to the log of the accepted ones: as long
as fewer than 2^32 frames have been accepted, `update_counter` and `total_received` are their
number and so is the sum of the per-variant counters. -/
theorem counters_run (calls : List (List uint8_t × Int)) :
    ∀ (g : shared_weather_data) (log : List weather_frame),
      (log.length < 4294967296 →
        g.update_counter = log.length ∧ g.total_received = log.length ∧
        g.bme280_count + g.lightrain_count + g.system_status_count + g.gps_count =
          log.length) →
      (run_writes g log calls).2.length < 4294967296 →
      (run_writes g log calls).1.update_counter = (run_writes g log calls).2.length ∧
      (run_writes g log calls).1.total_received = (run_writes g log calls).2.length ∧
      (run_writes g log calls).1.bme280_count + (run_writes g log calls).1.lightrain_count +
        (run_writes g log calls).1.system_status_count + (run_writes g log calls).1.gps_count =
          (run_writes g log calls).2.length := by
  induction calls with
  | nil => intro g log h hn; exact h hn
  | cons c cs ih =>
    intro g log h
    obtain ⟨hacc, hrej⟩ := write_counters_step g c.1 c.2
    unfold run_writes
    dsimp only
    cases ha : write_accepts g c.1 c.2 with
    | true =>
      rw [if_pos rfl]
      apply ih
      intro hl
      rw [List.length_append, List.length_singleton] at hl ⊢
      obtain ⟨h1, h2, h3⟩ := h (by omega)
      obtain ⟨a1, a2, a3⟩ := hacc ha
      unfold incr32 at a1 a2 a3
      refine ⟨?_, ?_, ?_⟩
      · rw [a1, h1]; exact Nat.mod_eq_of_lt hl
      · rw [a2, h2]; exact Nat.mod_eq_of_lt hl
      · rcases a3 with ⟨b1, b2, b3, b4⟩ | ⟨b1, b2, b3, b4⟩ | ⟨b1, b2, b3, b4⟩ |
          ⟨b1, b2, b3, b4⟩
        · rw [b1, b2, b3, b4, Nat.mod_eq_of_lt (by omega)]; omega
        · rw [b1, b2, b3, b4, Nat.mod_eq_of_lt (by omega)]; omega
        · rw [b1, b2, b3, b4, Nat.mod_eq_of_lt (by omega)]; omega
        · rw [b1, b2, b3, b4, Nat.mod_eq_of_lt (by omega)]; omega
    | false =>
      rw [if_neg (by decide)]
      apply ih
      intro hl
      obtain ⟨h1, h2, h3⟩ := h hl
      obtain ⟨a1, a2, a3, a4, a5, a6, -⟩ := hrej ha
      rw [a1, a2, a3, a4, a5, a6]
      exact ⟨h1, h2, h3⟩

/-- The store that `init_shared_memory` leaves on a segment without the magic number. -/
theorem init_shared_memory_fresh (mem : shared_weather_data) (pid : Nat)
    (hm : mem.magic ≠ SHARED_MEMORY_MAGIC) :
    init_shared_memory mem pid =
      { zeroed_store with
        magic := SHARED_MEMORY_MAGIC
        writer_pid := pid % 4294967296
        connection_status := CONNECTION_DISCONNECTED
        update_counter := 0
        history_write_index := 0
        history_count := 0
        total_received := 0
        total_errors := 0
        last_error := "共享内存已初始化" } := by
  unfold init_shared_memory
  rw [if_pos hm]

/-! ## `LORA_ReadAndRarse` on an arbitrary stream -/

theorem blit_length (buf bytes : List uint8_t) (off : Nat)
    (h : off + bytes.length ≤ buf.length) : (blit buf off bytes).length = buf.length := by
  unfold blit
  simp only [List.length_append, List.length_take, List.length_drop]
  omega

theorem blit_getD_lt (buf bytes : List uint8_t) (off i : Nat) (hi : i < off)
    (ho : off ≤ buf.length) : (blit buf off bytes).getD i 0 = buf.getD i 0 := by
  unfold blit
  rw [List.append_assoc, List.getD_append _ _ _ _ (by rw [List.length_take]; omega)]
  rw [List.getD_eq_getElem?_getD, List.getD_eq_getElem?_getD, List.getElem?_take_of_lt hi]

/-- The return value of `read_n` is -1 or a count of bytes, at most `n` of them stored. -/
theorem read_n_cases (fd : sock) (buf : List uint8_t) (off n : Nat) :
    ((read_n fd buf off n).r = -1 ∨ 0 ≤ (read_n fd buf off n).r) ∧
    ∃ bytes : List uint8_t, bytes.length ≤ n ∧ (read_n fd buf off n).buf = blit buf off bytes := by
  unfold read_n
  by_cases h : n ≤ fd.data.length
  · rw [if_pos h]
    exact ⟨Or.inr (Int.natCast_nonneg n), fd.data.take n,
      by rw [List.length_take]; omega, rfl⟩
  · rw [if_neg h]
    refine ⟨?_, fd.data, by omega, rfl⟩
    cases fd.err
    · exact Or.inr (Int.natCast_nonneg _)
    · exact Or.inl rfl

theorem expected_len_of_some (c len : Nat) (h : expected_len_of c = some len) :
    (len = 11 ∧ c = 1) ∨ (len = 8 ∧ c = 2) ∨ (len = 15 ∧ c = 3) ∨ (len = 25 ∧ c = 4) := by
  unfold expected_len_of at h
  split_ifs at h with h1 h2 h3 h4
  · exact Or.inl ⟨(Option.some.inj h).symm, h1⟩
  · exact Or.inr (Or.inl ⟨(Option.some.inj h).symm, h2⟩)
  · exact Or.inr (Or.inr (Or.inl ⟨(Option.some.inj h).symm, h3⟩))
  · exact Or.inr (Or.inr (Or.inr ⟨(Option.some.inj h).symm, h4⟩))

/-- The code of `LORA_ParseResponse` on a buffer of one of the four shapes: 0 when a check
fails, and the positive code 1, 2 or 4 when the frame invariant holds. -/
theorem parse_shape_code (buf : List uint8_t) (len : Nat) (hs : frame_shape buf len) :
    LORA_ParseResponse buf len = some 0 ∨
    (frame_invariant buf len ∧ ∃ c, LORA_ParseResponse buf len = some c ∧
      (c = 1 ∨ c = 2 ∨ c = 4)) := by
  by_cases hi : frame_invariant buf len
  · right
    refine ⟨hi, ?_⟩
    obtain ⟨p1, p2, p3, p4⟩ := parse_code_of_invariant buf
    have hi2 := hi
    rcases hi with ⟨hl, _⟩ | ⟨hl, _⟩ | ⟨hl, _⟩ | ⟨hl, _⟩ <;> subst hl
    · exact ⟨1, p1 hi2, Or.inl rfl⟩
    · exact ⟨2, p2 hi2, Or.inr (Or.inl rfl)⟩
    · exact ⟨4, p3 hi2, Or.inr (Or.inr rfl)⟩
    · exact ⟨4, p4 hi2, Or.inr (Or.inr rfl)⟩
  · exact Or.inl ((parse_shape buf len hs).2 hi)

/-- Every call of `LORA_ReadAndRarse` with a 32-byte frame buffer, whatever the stream
delivers: the buffer keeps its 32 bytes, the call has a return value, and the value is -1, 0
or the positive code (1, 2 or 4) that `LORA_ParseResponse` gives for the content of the
buffer, which then satisfies the frame invariant. -/
theorem read_result_cases (fd : sock) (buf header : List uint8_t) (hb : buf.length = 32) :
    (LORA_ReadAndRarse fd buf header).buf.length = 32 ∧
    ∃ c, (LORA_ReadAndRarse fd buf header).ret = some c ∧
      (c = -1 ∨ c = 0 ∨
        ((c = 1 ∨ c = 2 ∨ c = 4) ∧ ∃ len,
          frame_invariant (LORA_ReadAndRarse fd buf header).buf len ∧
          LORA_ParseResponse (LORA_ReadAndRarse fd buf header).buf len = some c)) := by
  unfold LORA_ReadAndRarse
  dsimp only
  obtain ⟨hr, -⟩ := read_n_cases fd header 0 2
  by_cases h1 : (read_n fd header 0 2).r < 0
  · rw [if_pos h1]
    refine ⟨hb, (read_n fd header 0 2).r, rfl, Or.inl ?_⟩
    rcases hr with h | h
    · exact h
    · omega
  rw [if_neg h1]
  by_cases h2 : (read_n fd header 0 2).r = 0
  · rw [if_pos h2]
    exact ⟨hb, 0, by rw [h2], Or.inr (Or.inl rfl)⟩
  rw [if_neg h2]
  cases he : expected_len_of ((read_n fd header 0 2).buf.getD 1 0).val with
  | none => exact ⟨hb, -1, rfl, Or.inl rfl⟩
  | some len =>
    dsimp only
    obtain ⟨-, bytes, hbl, hbuf⟩ := read_n_cases (read_n fd header 0 2).fd
      ((buf.set 0 ((read_n fd header 0 2).buf.getD 0 0)).set 1
        ((read_n fd header 0 2).buf.getD 1 0)) 2 30
    have hlen0 : ((buf.set 0 ((read_n fd header 0 2).buf.getD 0 0)).set 1
        ((read_n fd header 0 2).buf.getD 1 0)).length = 32 := by
      rw [List.length_set, List.length_set, hb]
    have hlen : (read_n (read_n fd header 0 2).fd
        ((buf.set 0 ((read_n fd header 0 2).buf.getD 0 0)).set 1
          ((read_n fd header 0 2).buf.getD 1 0)) 2 30).buf.length = 32 := by
      rw [hbuf, blit_length _ _ _ (by rw [hlen0]; omega), hlen0]
    have hcmd : rd (read_n (read_n fd header 0 2).fd
        ((buf.set 0 ((read_n fd header 0 2).buf.getD 0 0)).set 1
          ((read_n fd header 0 2).buf.getD 1 0)) 2 30).buf 1 =
        ((read_n fd header 0 2).buf.getD 1 0).val := by
      unfold rd
      rw [hbuf, blit_getD_lt _ _ 2 1 (by omega) (by rw [hlen0]; omega),
        getD_set_self _ 1 _ (by rw [List.length_set, hb]; omega)]
    by_cases h3 : (read_n (read_n fd header 0 2).fd
        ((buf.set 0 ((read_n fd header 0 2).buf.getD 0 0)).set 1
          ((read_n fd header 0 2).buf.getD 1 0)) 2 30).r = 0
    · rw [if_pos h3]
      exact ⟨hlen, 0, rfl, Or.inr (Or.inl rfl)⟩
    rw [if_neg h3]
    by_cases h4 : (read_n (read_n fd header 0 2).fd
        ((buf.set 0 ((read_n fd header 0 2).buf.getD 0 0)).set 1
          ((read_n fd header 0 2).buf.getD 1 0)) 2 30).r < 0
    · rw [if_pos h4]
      exact ⟨hlen, -1, rfl, Or.inl rfl⟩
    rw [if_neg h4]
    by_cases h5 : rd (read_n (read_n fd header 0 2).fd
        ((buf.set 0 ((read_n fd header 0 2).buf.getD 0 0)).set 1
          ((read_n fd header 0 2).buf.getD 1 0)) 2 30).buf (len - 1) ≠ END_SYMBOL 0
    · rw [if_pos h5]
      exact ⟨hlen, -1, rfl, Or.inl rfl⟩
    rw [if_neg h5]
    have h5' := not_not.1 h5
    have hE : END_SYMBOL 0 = 0xFF := rfl
    rw [hE] at h5'
    have hs : frame_shape (read_n (read_n fd header 0 2).fd
        ((buf.set 0 ((read_n fd header 0 2).buf.getD 0 0)).set 1
          ((read_n fd header 0 2).buf.getD 1 0)) 2 30).buf len := by
      unfold frame_shape
      rcases expected_len_of_some _ _ he with ⟨e, c⟩ | ⟨e, c⟩ | ⟨e, c⟩ | ⟨e, c⟩ <;> subst e
      · exact Or.inl ⟨rfl, by rw [hcmd, c], h5'⟩
      · exact Or.inr (Or.inl ⟨rfl, by rw [hcmd, c], h5'⟩)
      · exact Or.inr (Or.inr (Or.inl ⟨rfl, by rw [hcmd, c], h5'⟩))
      · exact Or.inr (Or.inr (Or.inr ⟨rfl, by rw [hcmd, c], h5'⟩))
    refine ⟨hlen, ?_⟩
    rcases parse_shape_code _ len hs with h0 | ⟨hi, c, hc, hv⟩
    · exact ⟨0, h0, Or.inr (Or.inl rfl)⟩
    · exact ⟨c, hc, Or.inr (Or.inr ⟨hv, len, hi, hc⟩)⟩

/-! ## The passes of the receive loop -/

/-- An accepted frame leaves `total_errors` as it is. -/
theorem write_accepted_total_errors (g : shared_weather_data) (frame : List uint8_t)
    (now : Int) (ha : write_accepts g frame now = true) :
    (write_data_to_shared_memory g frame now).total_errors = g.total_errors := by
  rcases write_data_switch_cases g frame now with hs | ⟨-, -, hs⟩ | ⟨-, -, hs⟩ |
      ⟨-, -, hs⟩ | ⟨-, -, hs⟩
  · rw [(write_rejected g frame now hs).1] at ha
    exact Bool.noConfusion ha
  all_goals
    rw [(write_stored g _ frame now hs).2, (append_history_fields _ now).2.2.2.2.2.2.2.2.2.2.2.2]
    rfl

/-- One pass of the receive loop from a state with a 32-byte frame buffer: the call of
`LORA_ReadAndRarse` has a return value `c`; the pass ends in `continue` without touching the
store when `c < 0`, in `break` when `c = 0`, and when `c > 0` the frame buffer is handed to
`write_data_to_shared_memory`, which accepts it and leaves `total_errors` as it is. -/
theorem receive_pass_cases (hdr : Nat → List uint8_t) (now : Nat → Int) (t : receiver_state)
    (hf : t.frame.length = 32) :
    (LORA_ReadAndRarse t.conn t.frame (hdr t.iter)).buf.length = 32 ∧
    ∃ c, (LORA_ReadAndRarse t.conn t.frame (hdr t.iter)).ret = some c ∧
      (c < 0 → receive_pass hdr now t =
        pass_exit.next { t with conn := (LORA_ReadAndRarse t.conn t.frame (hdr t.iter)).fd,
                                frame := (LORA_ReadAndRarse t.conn t.frame (hdr t.iter)).buf,
                                iter := t.iter + 1 }) ∧
      (c = 0 → receive_pass hdr now t =
        pass_exit.brk { t with conn := (LORA_ReadAndRarse t.conn t.frame (hdr t.iter)).fd,
                               frame := (LORA_ReadAndRarse t.conn t.frame (hdr t.iter)).buf,
                               iter := t.iter + 1 }) ∧
      (0 < c →
        write_accepts t.store (LORA_ReadAndRarse t.conn t.frame (hdr t.iter)).buf
          (now t.iter) = true ∧
        (write_data_to_shared_memory t.store
          (LORA_ReadAndRarse t.conn t.frame (hdr t.iter)).buf (now t.iter)).total_errors =
            t.store.total_errors ∧
        receive_pass hdr now t =
          pass_exit.next
            { t with conn := (LORA_ReadAndRarse t.conn t.frame (hdr t.iter)).fd,
                     frame := (LORA_ReadAndRarse t.conn t.frame (hdr t.iter)).buf,
                     iter := t.iter + 1,
                     store := write_data_to_shared_memory t.store
                       (LORA_ReadAndRarse t.conn t.frame (hdr t.iter)).buf (now t.iter) }) := by
  obtain ⟨hl, c, hc, hv⟩ := read_result_cases t.conn t.frame (hdr t.iter) hf
  refine ⟨hl, c, hc, ?_, ?_, ?_⟩
  · intro h
    unfold receive_pass
    simp only [hc]
    rw [if_pos h]
  · intro h
    subst h
    unfold receive_pass
    simp only [hc]
    rw [if_neg (by decide), if_pos trivial]
  · intro h
    have hacc : write_accepts t.store (LORA_ReadAndRarse t.conn t.frame (hdr t.iter)).buf
        (now t.iter) = true := by
      rcases hv with h1 | h1 | ⟨-, len, hi, -⟩
      · omega
      · omega
      · rw [write_accepts_iff]
        have hi2 := hi
        rcases hi with ⟨e, _⟩ | ⟨e, _⟩ | ⟨e, _⟩ | ⟨e, _⟩ <;> subst e
        · exact Or.inl hi2
        · exact Or.inr (Or.inl hi2)
        · exact Or.inr (Or.inr (Or.inl hi2))
        · exact Or.inr (Or.inr (Or.inr hi2))
    refine ⟨hacc, write_accepted_total_errors _ _ _ hacc, ?_⟩
    unfold receive_pass
    simp only [hc]
    rw [if_neg (by omega), if_neg (by omega)]

/-- The function `receive_loop` in terms of the passes of its loop. -/
theorem receive_loop_succ (hdr : Nat → List uint8_t) (now : Nat → Int) (fuel : Nat)
    (s : receiver_state) :
    receive_loop hdr now (fuel + 1) s =
      match receive_pass hdr now s with
      | pass_exit.next s1 => receive_loop hdr now fuel s1
      | pass_exit.brk s1 => some s1
      | pass_exit.no_value => none := by
  rw [receive_loop]
  unfold receive_pass
  dsimp only
  cases (LORA_ReadAndRarse s.conn s.frame (hdr s.iter)).ret with
  | none => rfl
  | some c =>
    dsimp only
    split_ifs <;> rfl

/-- When `receive_loop` returns within `fuel` passes, it returns the state that
`receive_passes` gives for that many passes. -/
theorem receive_loop_passes (hdr : Nat → List uint8_t) (now : Nat → Int) :
    ∀ (fuel : Nat) (s s' : receiver_state),
      receive_loop hdr now fuel s = some s' → receive_passes hdr now fuel s = s' := by
  intro fuel
  induction fuel with
  | zero =>
    intro s s' h
    rw [receive_loop] at h
    exact Option.noConfusion h
  | succ n ih =>
    intro s s' h
    rw [receive_loop_succ] at h
    rw [receive_passes]
    cases hp : receive_pass hdr now s with
    | next s1 =>
      rw [hp] at h
      exact ih s1 s' h
    | brk s1 =>
      rw [hp] at h
      exact Option.some.inj h
    | no_value =>
      rw [hp] at h
      exact Option.noConfusion h

/-- Along the passes of the receive loop the frame buffer keeps its 32 bytes and
`total_errors` keeps its value. -/
theorem receive_passes_invariant (hdr : Nat → List uint8_t) (now : Nat → Int) :
    ∀ (n : Nat) (s : receiver_state), s.frame.length = 32 →
      (receive_passes hdr now n s).frame.length = 32 ∧
      (receive_passes hdr now n s).store.total_errors = s.store.total_errors := by
  intro n
  induction n with
  | zero => intro s hf; exact ⟨hf, rfl⟩
  | succ n ih =>
    intro s hf
    obtain ⟨hl, c, -, h1, h2, h3⟩ := receive_pass_cases hdr now s hf
    rw [receive_passes]
    rcases lt_trichotomy c 0 with h | h | h
    · rw [h1 h]
      exact ih _ hl
    · rw [h2 h]
      exact ⟨hl, rfl⟩
    · obtain ⟨-, he, hp⟩ := h3 h
      rw [hp]
      obtain ⟨i1, i2⟩ := ih { s with
        conn := (LORA_ReadAndRarse s.conn s.frame (hdr s.iter)).fd,
        frame := (LORA_ReadAndRarse s.conn s.frame (hdr s.iter)).buf,
        iter := s.iter + 1,
        store := write_data_to_shared_memory s.store
          (LORA_ReadAndRarse s.conn s.frame (hdr s.iter)).buf (now s.iter) } hl
      exact ⟨i1, i2.trans he⟩

/-! ## What the server sends to the receivers -/

theorem bytes_of_full (frame : List uint8_t) (h : frame.length = 32) :
    bytes_of frame 0 FRAME_LEN = frame := by
  apply List.ext_getElem
  · simp [bytes_of, FRAME_LEN, h]
  · intro i h1 h2
    simp [bytes_of, List.getD_eq_getElem?_getD, List.getElem?_eq_getElem h2]

/-- A call of `broadcast_frame` with a 32-byte frame buffer ends, and what it has sent is
the content of the buffer, byte for byte, to each descriptor it wrote to. -/
theorem broadcast_frame_sent (send_ok : Int → Bool) (st : server_state)
    (frame : List uint8_t) (h : frame.length = 32) :
    ∃ (st' : server_state) (att : List Int), broadcast_frame send_ok st frame = some st' ∧
      st'.sent = st.sent ++ att.map (fun fd => (fd, frame)) := by
  unfold broadcast_frame
  by_cases hc : 0 ≤ st.recvers.count
  · obtain ⟨st', att, h1, -, h3, -⟩ := broadcast_loop_spec send_ok frame
      st.recvers.count.toNat st 0 (le_refl 0) hc (by omega)
    rw [bytes_of_full frame h] at h3
    exact ⟨st', att, h1, h3⟩
  · refine ⟨st, [], ?_, by simp⟩
    have e : st.recvers.count.toNat = 0 := by omega
    rw [e]
    unfold broadcast_loop
    rw [if_neg (by omega)]

/-! ## C `float` arithmetic: rounding error and exact cases -/

/-- Rounding to the nearest integer is off by at most one half. -/
theorem round_half_even_error (num den : Nat) (hd : 0 < den) :
    |((round_half_even num den : Nat) : ℚ) - (num : ℚ) / den| ≤ 1 / 2 := by
  have hdq : (0 : ℚ) < den := by exact_mod_cast hd
  have hdm := Nat.div_add_mod num den
  have hr := Nat.mod_lt num hd
  have key : ∀ m : Nat, (2 * (m * den) ≤ 2 * num + den) → (2 * num ≤ 2 * (m * den) + den) →
      |((m : Nat) : ℚ) - (num : ℚ) / den| ≤ 1 / 2 := by
    intro m h1 h2
    have h1q : (2 : ℚ) * (m * den) ≤ 2 * num + den := by exact_mod_cast h1
    have h2q : (2 : ℚ) * num ≤ 2 * (m * den) + den := by exact_mod_cast h2
    have hq : (num : ℚ) / den * den = num := div_mul_cancel₀ _ (ne_of_gt hdq)
    rw [abs_le]
    constructor
    · by_contra hc
      have hc1 : 0 < -(1 / 2) - ((m : ℚ) - (num : ℚ) / den) := by linarith [not_le.1 hc]
      have := mul_pos hc1 hdq
      nlinarith
    · by_contra hc
      have hc1 : 0 < ((m : ℚ) - (num : ℚ) / den) - 1 / 2 := by linarith [not_le.1 hc]
      have := mul_pos hc1 hdq
      nlinarith
  unfold round_half_even
  dsimp only
  have e1 : num / den * den = den * (num / den) := Nat.mul_comm _ _
  have e2 : (num / den + 1) * den = den * (num / den) + den := by ring
  split_ifs with h1 h2 h3
  · exact key _ (by rw [e1]; omega) (by rw [e1]; omega)
  · exact key _ (by rw [e2]; omega) (by rw [e2]; omega)
  · exact key _ (by rw [e1]; omega) (by rw [e1]; omega)
  · exact key _ (by rw [e2]; omega) (by rw [e2]; omega)

theorem bit_length_aux_zero (fuel : Nat) : bit_length_aux fuel 0 = 0 := by
  cases fuel <;> rfl

theorem bit_length_aux_spec : ∀ (fuel n : Nat), n ≤ fuel → 0 < n →
    0 < bit_length_aux fuel n ∧ 2 ^ (bit_length_aux fuel n - 1) ≤ n ∧
      n < 2 ^ bit_length_aux fuel n := by
  intro fuel
  induction fuel with
  | zero => intro n h1 h2; omega
  | succ fuel ih =>
    intro n h1 h2
    rw [bit_length_aux, if_neg (by omega)]
    by_cases h : n / 2 = 0
    · rw [h, bit_length_aux_zero]
      have : n = 1 := by omega
      subst this
      decide
    · obtain ⟨i1, i2, i3⟩ := ih (n / 2) (by omega) (by omega)
      refine ⟨by omega, ?_, ?_⟩
      · have e : bit_length_aux fuel (n / 2) + 1 - 1 =
            (bit_length_aux fuel (n / 2) - 1) + 1 := by omega
        rw [e, pow_succ]
        omega
      · rw [pow_succ]
        omega

/-- The binary digits of a positive number: `2 ^ (k - 1) ≤ n < 2 ^ k` for `k` its
`bit_length`. -/
theorem bit_length_spec (n : Nat) (hn : 0 < n) :
    0 < bit_length n ∧ 2 ^ (bit_length n - 1) ≤ n ∧ n < 2 ^ bit_length n :=
  bit_length_aux_spec n n (le_refl n) hn

theorem bit_length_rat (n : Nat) (hn : 0 < n) :
    (2 : ℚ) ^ ((bit_length n : Int) - 1) ≤ n ∧ (n : ℚ) < (2 : ℚ) ^ (bit_length n : Int) := by
  obtain ⟨h0, h1, h2⟩ := bit_length_spec n hn
  constructor
  · have e : ((bit_length n : Int) - 1) = ((bit_length n - 1 : Nat) : Int) := by omega
    rw [e, zpow_natCast]
    exact_mod_cast h1
  · rw [zpow_natCast]
    exact_mod_cast h2

theorem two_zpow_split (z : Int) :
    (2 : ℚ) ^ z = (2 : ℚ) ^ z.toNat / (2 : ℚ) ^ (-z).toNat := by
  rcases le_total 0 z with h | h
  · have e1 : (-z).toNat = 0 := by omega
    have e2 : (z.toNat : Int) = z := Int.toNat_of_nonneg h
    rw [e1, pow_zero, div_one, ← zpow_natCast, e2]
  · have e1 : z.toNat = 0 := by omega
    have e2 : ((-z).toNat : Int) = -z := Int.toNat_of_nonneg (by omega)
    rw [e1, pow_zero, one_div, ← zpow_natCast, e2, zpow_neg, inv_inv]

/-- The value of `floor_log2` is the integer part of the binary logarithm of `n / d`. -/
theorem floor_log2_spec (n d : Nat) (hn : 0 < n) (hd : 0 < d) :
    (2 : ℚ) ^ floor_log2 n d ≤ (n : ℚ) / d ∧ (n : ℚ) / d < (2 : ℚ) ^ (floor_log2 n d + 1) := by
  obtain ⟨n1, n2⟩ := bit_length_rat n hn
  obtain ⟨d1, d2⟩ := bit_length_rat d hd
  have hdq : (0 : ℚ) < d := by exact_mod_cast hd
  have hnq : (0 : ℚ) < n := by exact_mod_cast hn
  have two_pos : ∀ z : Int, (0 : ℚ) < (2 : ℚ) ^ z := fun z => zpow_pos (by norm_num) z
  have htest : (d * 2 ^ ((bit_length n : Int) - (bit_length d : Int)).toNat ≤
      n * 2 ^ (-((bit_length n : Int) - (bit_length d : Int))).toNat) ↔
      (2 : ℚ) ^ ((bit_length n : Int) - (bit_length d : Int)) ≤ (n : ℚ) / d := by
    rw [two_zpow_split, le_div_iff₀ hdq, div_mul_eq_mul_div,
      div_le_iff₀ (pow_pos (by norm_num) _)]
    constructor
    · intro h
      have : ((d * 2 ^ ((bit_length n : Int) - (bit_length d : Int)).toNat : Nat) : ℚ) ≤
          ((n * 2 ^ (-((bit_length n : Int) - (bit_length d : Int))).toNat : Nat) : ℚ) := by
        exact_mod_cast h
      push_cast at this
      linarith
    · intro h
      have : ((d * 2 ^ ((bit_length n : Int) - (bit_length d : Int)).toNat : Nat) : ℚ) ≤
          ((n * 2 ^ (-((bit_length n : Int) - (bit_length d : Int))).toNat : Nat) : ℚ) := by
        push_cast
        linarith
      exact_mod_cast this
  unfold floor_log2
  dsimp only
  by_cases ht : d * 2 ^ ((bit_length n : Int) - (bit_length d : Int)).toNat ≤
      n * 2 ^ (-((bit_length n : Int) - (bit_length d : Int))).toNat
  · rw [if_pos ht]
    refine ⟨htest.1 ht, ?_⟩
    rw [div_lt_iff₀ hdq]
    calc (n : ℚ) < (2 : ℚ) ^ (bit_length n : Int) := n2
      _ = (2 : ℚ) ^ ((bit_length n : Int) - (bit_length d : Int) + 1) *
            (2 : ℚ) ^ ((bit_length d : Int) - 1) := by
          rw [← zpow_add₀ (by norm_num : (2 : ℚ) ≠ 0)]
          congr 1
          ring
      _ ≤ (2 : ℚ) ^ ((bit_length n : Int) - (bit_length d : Int) + 1) * d :=
          mul_le_mul_of_nonneg_left d1 (le_of_lt (two_pos _))
  · rw [if_neg ht]
    have hlt : (n : ℚ) / d < (2 : ℚ) ^ ((bit_length n : Int) - (bit_length d : Int)) := by
      by_contra hc
      exact ht (htest.2 (not_lt.1 hc))
    refine ⟨?_, by rw [sub_add_cancel]; exact hlt⟩
    rw [le_div_iff₀ hdq]
    calc (2 : ℚ) ^ ((bit_length n : Int) - (bit_length d : Int) - 1) * d
        ≤ (2 : ℚ) ^ ((bit_length n : Int) - (bit_length d : Int) - 1) *
            (2 : ℚ) ^ (bit_length d : Int) :=
          mul_le_mul_of_nonneg_left (le_of_lt d2) (le_of_lt (two_pos _))
      _ = (2 : ℚ) ^ ((bit_length n : Int) - 1) := by
          rw [← zpow_add₀ (by norm_num : (2 : ℚ) ≠ 0)]
          congr 1
          ring
      _ ≤ n := n1

theorem floor_log2_lt (n d : Nat) (B : Int) (hn : 0 < n) (hd : 0 < d)
    (h : (n : ℚ) / d < (2 : ℚ) ^ B) : floor_log2 n d < B := by
  obtain ⟨h1, -⟩ := floor_log2_spec n d hn hd
  by_contra hc
  have h2 : (2 : ℚ) ^ B ≤ (2 : ℚ) ^ floor_log2 n d :=
    zpow_le_zpow_right₀ (by norm_num) (not_lt.1 hc)
  linarith

theorem floor_log2_ge (n d : Nat) (B : Int) (hn : 0 < n) (hd : 0 < d)
    (h : (2 : ℚ) ^ B ≤ (n : ℚ) / d) : B ≤ floor_log2 n d := by
  obtain ⟨-, h1⟩ := floor_log2_spec n d hn hd
  by_contra hc
  have h2 : (2 : ℚ) ^ (floor_log2 n d + 1) ≤ (2 : ℚ) ^ B :=
    zpow_le_zpow_right₀ (by norm_num) (by omega)
  linarith

/-- The value of `f32_nearest` as sign, significand and power of two. -/
theorem f32_nearest_eq (a : Int) (b : Nat) (k : Int) (m : Nat) (hn : a.natAbs ≠ 0)
    (hk : max (floor_log2 a.natAbs b) (-126) - 23 = k)
    (hm : round_half_even (a.natAbs * 2 ^ (-k).toNat) (b * 2 ^ k.toNat) = m) :
    f32_nearest a b = (if a < 0 then -1 else 1) * (m : ℚ) * (2 : ℚ) ^ k := by
  unfold f32_nearest
  dsimp only
  rw [if_neg hn, hk, hm]

theorem int_cast_sign (a : Int) : (a : ℚ) = (if a < 0 then -1 else 1) * (a.natAbs : ℚ) := by
  split_ifs with h
  · have e : a = -(a.natAbs : Int) := by omega
    have e2 : (a : ℚ) = -((a.natAbs : Int) : ℚ) := by
      rw [← Int.cast_neg, ← e]
    rw [e2, Int.cast_natCast]
    ring
  · have e : a = (a.natAbs : Int) := by omega
    have e2 : (a : ℚ) = ((a.natAbs : Int) : ℚ) := by rw [← e]
    rw [e2, Int.cast_natCast]
    ring

/-- The rounding error of `f32_nearest`: when `|a / b| < 2 ^ (B + 1)` the result is within
`2 ^ (B - 24)`, half a unit in the last place, of `a / b`. -/
theorem f32_nearest_error (a : Int) (b : Nat) (B : Int) (hb : 0 < b) (hB : -126 ≤ B)
    (h : (a.natAbs : ℚ) / b < (2 : ℚ) ^ (B + 1)) :
    |f32_nearest a b - (a : ℚ) / b| ≤ (2 : ℚ) ^ (B - 24) := by
  have two_pos : ∀ z : Int, (0 : ℚ) < (2 : ℚ) ^ z := fun z => zpow_pos (by norm_num) z
  by_cases hn : a.natAbs = 0
  · have ha : a = 0 := Int.natAbs_eq_zero.1 hn
    subst ha
    unfold f32_nearest
    simp only [Int.natAbs_zero, if_true, Int.cast_zero, zero_div, sub_zero, abs_zero]
    exact le_of_lt (two_pos _)
  · have hnpos : 0 < a.natAbs := Nat.pos_of_ne_zero hn
    have hfl : floor_log2 a.natAbs b < B + 1 := floor_log2_lt _ _ _ hnpos hb h
    have hk : max (floor_log2 a.natAbs b) (-126) - 23 ≤ B - 23 := by
      have := max_le (by omega : floor_log2 a.natAbs b ≤ B) hB
      omega
    rw [f32_nearest_eq a b _ _ hn rfl rfl]
    generalize max (floor_log2 a.natAbs b) (-126) - 23 = k at hk
    have hbq : (0 : ℚ) < b := by exact_mod_cast hb
    have hden : 0 < b * 2 ^ k.toNat := Nat.mul_pos hb (pow_pos (by norm_num) _)
    have herr := round_half_even_error (a.natAbs * 2 ^ (-k).toNat) (b * 2 ^ k.toNat) hden
    generalize round_half_even (a.natAbs * 2 ^ (-k).toNat) (b * 2 ^ k.toNat) = m at herr
    have hq : ((a.natAbs * 2 ^ (-k).toNat : Nat) : ℚ) / ((b * 2 ^ k.toNat : Nat) : ℚ) =
        (a.natAbs : ℚ) / b / (2 : ℚ) ^ k := by
      rw [two_zpow_split k]
      push_cast
      have p1 : (0 : ℚ) < (2 : ℚ) ^ k.toNat := pow_pos (by norm_num) _
      have p2 : (0 : ℚ) < (2 : ℚ) ^ (-k).toNat := pow_pos (by norm_num) _
      field_simp
    rw [hq] at herr
    have hval : (if a < 0 then -1 else 1) * (m : ℚ) * (2 : ℚ) ^ k - (a : ℚ) / b =
        (if a < 0 then -1 else 1) * (((m : ℚ) - (a.natAbs : ℚ) / b / (2 : ℚ) ^ k) *
          (2 : ℚ) ^ k) := by
      rw [int_cast_sign a]
      have p := ne_of_gt (two_pos k)
      split_ifs
      · field_simp
        ring
      · field_simp
        ring
    have hsign : |(if a < 0 then (-1 : ℚ) else 1)| = 1 := by
      split_ifs <;> simp
    rw [hval, abs_mul, hsign, one_mul, abs_mul, abs_of_pos (two_pos k)]
    calc |(m : ℚ) - (a.natAbs : ℚ) / b / (2 : ℚ) ^ k| * (2 : ℚ) ^ k
        ≤ 1 / 2 * (2 : ℚ) ^ k := mul_le_mul_of_nonneg_right herr (le_of_lt (two_pos k))
      _ = (2 : ℚ) ^ (k - 1) := by
          rw [zpow_sub₀ (by norm_num : (2 : ℚ) ≠ 0), zpow_one]
          ring
      _ ≤ (2 : ℚ) ^ (B - 24) := zpow_le_zpow_right₀ (by norm_num) (by omega)

theorem round_half_even_one (x : Nat) : round_half_even x 1 = x := by
  unfold round_half_even
  simp [Nat.mod_one]

/-- An integer of at most 24 bits is a binary32 value: its conversion to `float` is
exact. -/
theorem float_of_int_exact (i : Int) (h : i.natAbs < 2 ^ 24) : float_of_int i = (i : ℚ) := by
  unfold float_of_int
  by_cases hn : i.natAbs = 0
  · have ha : i = 0 := Int.natAbs_eq_zero.1 hn
    subst ha
    unfold f32_nearest
    simp
  · have hnpos : 0 < i.natAbs := Nat.pos_of_ne_zero hn
    have hlt : floor_log2 i.natAbs 1 < 24 := by
      apply floor_log2_lt _ _ _ hnpos (by norm_num)
      rw [Nat.cast_one, div_one]
      norm_num
      exact h
    have hge : 0 ≤ floor_log2 i.natAbs 1 := by
      apply floor_log2_ge _ _ _ hnpos (by norm_num)
      have h1 : (1 : ℚ) ≤ (i.natAbs : ℚ) := by exact_mod_cast hnpos
      rw [Nat.cast_one, div_one, zpow_zero]
      exact h1
    have hmax : max (floor_log2 i.natAbs 1) (-126) = floor_log2 i.natAbs 1 :=
      max_eq_left (by omega)
    rw [f32_nearest_eq i 1 _ _ hn rfl rfl, hmax]
    generalize floor_log2 i.natAbs 1 = e at hlt hge
    have e1 : (e - 23).toNat = 0 := by omega
    rw [e1, pow_zero, Nat.mul_one, round_half_even_one]
    have e2 : (((-(e - 23)).toNat : Nat) : Int) = -(e - 23) := Int.toNat_of_nonneg (by omega)
    push_cast
    rw [← zpow_natCast, e2, mul_assoc, mul_assoc, ← zpow_add₀ (by norm_num : (2 : ℚ) ≠ 0)]
    have e3 : -(e - 23) + (e - 23) = 0 := by ring
    rw [e3, zpow_zero, mul_one]
    exact (int_cast_sign i).symm

/-- The division of a converted integer of at most 24 bits by a constant. -/
theorem float_div_int (i : Int) (c : Nat) (h : i.natAbs < 2 ^ 24) :
    float_div (float_of_int i) c = f32_nearest i c := by
  rw [float_of_int_exact i h]
  unfold float_div
  rw [Rat.num_intCast, Rat.den_intCast, Nat.one_mul]

theorem f32_nearest_sign (a : Int) (b : Nat) :
    (0 ≤ a → 0 ≤ f32_nearest a b) ∧ (a ≤ 0 → f32_nearest a b ≤ 0) := by
  unfold f32_nearest
  dsimp only
  by_cases hn : a.natAbs = 0
  · rw [if_pos hn]
    exact ⟨fun _ => le_refl _, fun _ => le_refl _⟩
  · rw [if_neg hn]
    have p : (0 : ℚ) < (2 : ℚ) ^ (max (floor_log2 a.natAbs b) (-126) - 23) :=
      zpow_pos (by norm_num) _
    constructor
    · intro h
      rw [if_neg (by omega), one_mul]
      exact mul_nonneg (Nat.cast_nonneg _) (le_of_lt p)
    · intro h
      have ha : a < 0 := by
        rcases lt_or_eq_of_le h with h1 | h1
        · exact h1
        · exact absurd (by rw [h1]; rfl) hn
      rw [if_pos ha]
      have hm : (0 : ℚ) ≤ ((round_half_even
          (a.natAbs * 2 ^ (-(max (floor_log2 a.natAbs b) (-126) - 23)).toNat)
          (b * 2 ^ (max (floor_log2 a.natAbs b) (-126) - 23).toNat) : Nat) : ℚ) :=
        Nat.cast_nonneg _
      have := mul_nonneg hm (le_of_lt p)
      linarith

/-- The quotient of a converted 16-bit integer by a constant `c`, when `32768 / c` is below
`2 ^ (B + 1)`: it is the binary32 value nearest to `t / c`, within `2 ^ (B - 24)` of it, and
of the same sign. -/
theorem float_div_small (t : Int) (c : Nat) (B : Int) (ht : t.natAbs ≤ 32768) (hc : 0 < c)
    (hB : -126 ≤ B) (hb : (32768 : ℚ) / c < (2 : ℚ) ^ (B + 1)) :
    float_div (float_of_int t) c = f32_nearest t c ∧
    |float_div (float_of_int t) c - (t : ℚ) / c| ≤ (2 : ℚ) ^ (B - 24) ∧
    (0 ≤ t → 0 ≤ float_div (float_of_int t) c) ∧
    (t ≤ 0 → float_div (float_of_int t) c ≤ 0) := by
  have e := float_div_int t c (by omega)
  have hcq : (0 : ℚ) < c := by exact_mod_cast hc
  have hn : (t.natAbs : ℚ) / c < (2 : ℚ) ^ (B + 1) := by
    have h1 : (t.natAbs : ℚ) ≤ 32768 := by exact_mod_cast ht
    exact lt_of_le_of_lt (div_le_div_of_nonneg_right h1 (le_of_lt hcq)) hb
  rw [e]
  exact ⟨rfl, f32_nearest_error t c B hc hB hn, (f32_nearest_sign t c).1,
    (f32_nearest_sign t c).2⟩

/-- The frame of `build_bme280_frame` on its way into the store: it is answered with code 1,
accepted, and the slot holds the node id and the three `float` quotients. -/
theorem bme280_frame_stored (g : shared_weather_data) (node_id : uint8_t)
    (t100 p10 h100 : Int) (now : Int)
    (ht : -32768 ≤ t100 ∧ t100 < 32768) (hp : -32768 ≤ p10 ∧ p10 < 32768)
    (hh : -32768 ≤ h100 ∧ h100 < 32768) :
    LORA_ParseResponse (build_bme280_frame node_id t100 p10 h100) 11 = some 1 ∧
    write_accepts g (build_bme280_frame node_id t100 p10 h100) now = true ∧
    (write_data_to_shared_memory g (build_bme280_frame node_id t100 p10 h100)
        now).latest_bme280 =
      { node_id := node_id
        temperature := float_div (float_of_int t100) 100
        pressure := float_div (float_of_int p10) 10
        humidity := float_div (float_of_int h100) 100
        timestamp := now
        valid := 1 } := by
  have hinv := build_bme280_frame_invariant node_id t100 p10 h100
  have hsw := (write_data_switch_of_invariant g _ now).1 hinv
  obtain ⟨ha, hw⟩ := write_stored g _ _ now hsw
  refine ⟨(parse_code_of_invariant _).1 hinv, ha, ?_⟩
  obtain ⟨-, -, -, -, f5, -⟩ := append_history_fields
    (update_bme280 g (build_bme280_frame node_id t100 p10 h100) now) now
  rw [hw, f5]
  have e0 : (build_bme280_frame node_id t100 p10 h100).getD 0 0 = node_id := by
    rw [build_bme280_frame_eq]; rfl
  have e1 : to_int16 ((rd (build_bme280_frame node_id t100 p10 h100) 2 <<< 8) |||
      rd (build_bme280_frame node_id t100 p10 h100) 3) = t100 := by
    rw [build_bme280_frame_eq]; exact int16_roundtrip t100 ht.1 ht.2
  have e2 : to_int16 ((rd (build_bme280_frame node_id t100 p10 h100) 4 <<< 8) |||
      rd (build_bme280_frame node_id t100 p10 h100) 5) = p10 := by
    rw [build_bme280_frame_eq]; exact int16_roundtrip p10 hp.1 hp.2
  have e3 : to_int16 ((rd (build_bme280_frame node_id t100 p10 h100) 6 <<< 8) |||
      rd (build_bme280_frame node_id t100 p10 h100) 7) = h100 := by
    rw [build_bme280_frame_eq]; exact int16_roundtrip h100 hh.1 hh.2
  simp only [update_bme280, e0, e1, e2, e3]

/-- The `float` quotient `2345 / 100.0f`: the binary32 value 12294554 / 2^19, which is not
23.45. -/
theorem float_div_2345 :
    float_div (float_of_int 2345) 100 = 12294554 / 524288 ∧
    (12294554 / 524288 : ℚ) ≠ 2345 / 100 := by
  rw [float_div_int 2345 100 (by decide),
    f32_nearest_eq 2345 100 (-19) 12294554 (by decide) (by decide) (by decide)]
  norm_num

/-- The `float` quotients of 13969000 and 13969001 by `1e5f` are the same binary32 value. -/
theorem float_div_collision :
    float_div (float_of_int 13969001) 100000 = float_div (float_of_int 13969000) 100000 := by
  rw [float_div_int 13969001 100000 (by decide), float_div_int 13969000 100000 (by decide),
    f32_nearest_eq 13969001 100000 (-16) 9154724 (by decide) (by decide) (by decide),
    f32_nearest_eq 13969000 100000 (-16) 9154724 (by decide) (by decide) (by decide)]
  norm_num

/-! ## Claims on the frame protocol -/

/-- C1. For every byte buffer and length, `LORA_ParseResponse` returns a non-zero code
exactly when the frame invariant holds (Environmental: length 11, `buf[1] = 0x01`,
`buf[10] = 0xFF`, `buf[9]` the XOR of `buf[0..8]`, low nibble of `buf[8]` the CRC4 of
`buf[2..7]`; LightRain, GPS likewise; SystemStatus with the XOR check only), and on a buffer
of one of the four shapes a failed check returns 0. -/
theorem LORA_ParseResponse_accepts_iff_frame_invariant (buf : List uint8_t) (len : Nat) :
    ((∃ c, LORA_ParseResponse buf len = some c ∧ c ≠ 0) ↔ frame_invariant buf len) ∧
    (frame_shape buf len → ¬ frame_invariant buf len →
      LORA_ParseResponse buf len = some 0) := by
  exact ⟨parse_nonzero_iff buf len, fun hs hi => (parse_shape buf len hs).2 hi⟩

/-- Witness for C1: a well-formed Environmental frame of node 5 is accepted, and the same
frame with its checksum byte changed returns 0. -/
theorem LORA_ParseResponse_accepts_iff_frame_invariant_witness :
    (∃ c, LORA_ParseResponse [5, 1, 9, 41, 39, 148, 236, 120, 5, 6, 255] 11 = some c ∧ c ≠ 0) ∧
    LORA_ParseResponse [5, 1, 9, 41, 39, 148, 236, 120, 5, 7, 255] 11 = some 0 :=
  ⟨(LORA_ParseResponse_accepts_iff_frame_invariant
      [5, 1, 9, 41, 39, 148, 236, 120, 5, 6, 255] 11).1.2 (by decide),
   (LORA_ParseResponse_accepts_iff_frame_invariant
      [5, 1, 9, 41, 39, 148, 236, 120, 5, 7, 255] 11).2
      (by decide) (by decide)⟩

/-- C2, evaluated on the one-byte sequence `{0x01}`: `Calculate_CRC4` returns 6 where the
reference CRC of the specification gives 5; the code returns the same value for `{0x00}`,
the low nibble of the byte having no effect. -/
theorem Calculate_CRC4_differs_from_spec_crc4 :
    Calculate_CRC4 [0x01] 1 = 6 ∧ spec_crc4 [0x01] = 5 ∧ Calculate_CRC4 [0x00] 1 = 6 := by
  decide

/-- C3. Error detection: for an accepted Environmental (length 11), LightRain (length 8)
or GPS (length 25) frame, replacing one payload byte (index 2..7, 2..4, 2..21) by a
different value, all other bytes unchanged, yields a frame that `LORA_ParseResponse`
answers with 0; the check that fails is the XOR checksum. -/
theorem single_payload_byte_error_detected (buf : List uint8_t) (len i : Nat) (v : uint8_t)
    (hacc : ∃ c, LORA_ParseResponse buf len = some c ∧ c ≠ 0)
    (hlen : len ≤ buf.length)
    (hi : (len = 11 ∧ 2 ≤ i ∧ i ≤ 7) ∨ (len = 8 ∧ 2 ≤ i ∧ i ≤ 4) ∨
      (len = 25 ∧ 2 ≤ i ∧ i ≤ 21))
    (hv : v ≠ buf.getD i 0) :
    LORA_ParseResponse (buf.set i v) len = some 0 ∧
    calc_cs (buf.set i v) (len - 2) ≠ rd (buf.set i v) (len - 2) := by
  have hinv := (parse_nonzero_iff buf len).1 hacc
  have hshape := frame_invariant_shape buf len hinv
  have hcs : calc_cs buf (len - 2) = rd buf (len - 2) := by
    rcases hinv with ⟨hl, _, _, h, _⟩ | ⟨hl, _, _, h, _⟩ | ⟨hl, _, _, h⟩ | ⟨hl, _, _, h, _⟩ <;>
      subst hl <;> rw [calc_cs_eq_xor_all] <;> exact h.symm
  have hx : calc_cs (buf.set i v) (len - 2) ≠ rd (buf.set i v) (len - 2) :=
    calc_cs_set_ne buf i (len - 2) v (by omega) (by omega) hv hcs
  have hshape2 : frame_shape (buf.set i v) len := by
    rcases hshape with ⟨hl, h1, ht⟩ | ⟨hl, h1, ht⟩ | ⟨hl, h1, ht⟩ | ⟨hl, h1, ht⟩
    · refine Or.inl ⟨hl, ?_, ?_⟩
      · rw [rd_set_ne _ _ 1 _ (by omega)]; exact h1
      · rw [rd_set_ne _ _ 10 _ (by omega)]; exact ht
    · refine Or.inr (Or.inl ⟨hl, ?_, ?_⟩)
      · rw [rd_set_ne _ _ 1 _ (by omega)]; exact h1
      · rw [rd_set_ne _ _ 7 _ (by omega)]; exact ht
    · omega
    · refine Or.inr (Or.inr (Or.inr ⟨hl, ?_, ?_⟩))
      · rw [rd_set_ne _ _ 1 _ (by omega)]; exact h1
      · rw [rd_set_ne _ _ 24 _ (by omega)]; exact ht
  exact ⟨parse_xor_mismatch _ _ hshape2 hx, hx⟩

/-- Witness for C3: in the accepted Environmental frame of node 5, byte 3 changed from 41
to 40. -/
theorem single_payload_byte_error_detected_witness :
    LORA_ParseResponse ([5, 1, 9, 41, 39, 148, 236, 120, 5, 6, 255].set 3 40) 11 = some 0 ∧
    calc_cs ([5, 1, 9, 41, 39, 148, 236, 120, 5, 6, 255].set 3 40) (11 - 2) ≠
      rd ([5, 1, 9, 41, 39, 148, 236, 120, 5, 6, 255].set 3 40) (11 - 2) :=
  single_payload_byte_error_detected [5, 1, 9, 41, 39, 148, 236, 120, 5, 6, 255] 11 3 40
    ⟨1, by decide, by decide⟩ (by decide) (by decide) (by decide)

/-! ## Claims on the round trip from the test sender to the store -/

/-- C4 (counterexample to the claim as worded). The frame that `build_bme280_frame` lays out
for node 5 with `t100 = 2345` is accepted, and the temperature stored in the slot is the
`float` result of `2345 / 100.0f`, the binary32 value 12294554 / 2^19 =
23.450000762939453125, which is not 2345/100. -/
theorem bme280_round_trip_counterexample :
    write_accepts zeroed_store (build_bme280_frame 5 2345 10132 (-5000)) 77 = true ∧
    (write_data_to_shared_memory zeroed_store (build_bme280_frame 5 2345 10132 (-5000))
        77).latest_bme280.temperature = 12294554 / 524288 ∧
    (write_data_to_shared_memory zeroed_store (build_bme280_frame 5 2345 10132 (-5000))
        77).latest_bme280.temperature ≠ 2345 / 100 := by
  obtain ⟨-, h2, h3⟩ := bme280_frame_stored zeroed_store 5 2345 10132 (-5000) 77
    (by decide) (by decide) (by decide)
  obtain ⟨f1, f2⟩ := float_div_2345
  rw [h3]
  dsimp only
  exact ⟨h2, f1, by rw [f1]; exact f2⟩

/-- C4 (amended). Environmental round trip: for every node id and every signed 16-bit triple
`(t100, p10, h100)` the frame that `build_bme280_frame` lays out is answered by
`LORA_ParseResponse` with code 1, is accepted by `write_data_to_shared_memory` on every
store, and the slot `latest_bme280` then holds the node id, the timestamp, `valid = 1` and,
as temperature, pressure and humidity, the `float` results of `t100 / 100.0f`,
`p10 / 10.0f` and `h100 / 100.0f`: the binary32 values nearest to `t100/100`, `p10/10` and
`h100/100`, within `2^-16`, `2^-13` and `2^-16` of them, with the original signs (negative
values included). -/
theorem bme280_round_trip (g : shared_weather_data) (node_id : uint8_t)
    (t100 p10 h100 : Int) (now : Int)
    (ht : -32768 ≤ t100 ∧ t100 < 32768) (hp : -32768 ≤ p10 ∧ p10 < 32768)
    (hh : -32768 ≤ h100 ∧ h100 < 32768) :
    LORA_ParseResponse (build_bme280_frame node_id t100 p10 h100) 11 = some 1 ∧
    write_accepts g (build_bme280_frame node_id t100 p10 h100) now = true ∧
    (write_data_to_shared_memory g (build_bme280_frame node_id t100 p10 h100)
        now).latest_bme280 =
      { node_id := node_id
        temperature := float_div (float_of_int t100) 100
        pressure := float_div (float_of_int p10) 10
        humidity := float_div (float_of_int h100) 100
        timestamp := now
        valid := 1 } ∧
    (float_div (float_of_int t100) 100 = f32_nearest t100 100 ∧
      |float_div (float_of_int t100) 100 - (t100 : ℚ) / 100| ≤ 1 / 65536 ∧
      (t100 < 0 → float_div (float_of_int t100) 100 < 0) ∧
      (t100 = 0 → float_div (float_of_int t100) 100 = 0) ∧
      (0 < t100 → 0 < float_div (float_of_int t100) 100)) ∧
    (float_div (float_of_int p10) 10 = f32_nearest p10 10 ∧
      |float_div (float_of_int p10) 10 - (p10 : ℚ) / 10| ≤ 1 / 8192 ∧
      (p10 < 0 → float_div (float_of_int p10) 10 < 0) ∧
      (p10 = 0 → float_div (float_of_int p10) 10 = 0) ∧
      (0 < p10 → 0 < float_div (float_of_int p10) 10)) ∧
    (float_div (float_of_int h100) 100 = f32_nearest h100 100 ∧
      |float_div (float_of_int h100) 100 - (h100 : ℚ) / 100| ≤ 1 / 65536 ∧
      (h100 < 0 → float_div (float_of_int h100) 100 < 0) ∧
      (h100 = 0 → float_div (float_of_int h100) 100 = 0) ∧
      (0 < h100 → 0 < float_div (float_of_int h100) 100)) := by
  have key : ∀ (t : Int) (c : Nat) (B : Int) (bound : ℚ), -32768 ≤ t ∧ t < 32768 → 0 < c →
      c ≤ 100 → -126 ≤ B → (32768 : ℚ) / c < (2 : ℚ) ^ (B + 1) →
      (2 : ℚ) ^ (B - 24) = bound → bound < 1 / 100 →
      (float_div (float_of_int t) c = f32_nearest t c ∧
        |float_div (float_of_int t) c - (t : ℚ) / c| ≤ bound ∧
        (t < 0 → float_div (float_of_int t) c < 0) ∧
        (t = 0 → float_div (float_of_int t) c = 0) ∧
        (0 < t → 0 < float_div (float_of_int t) c)) := by
    intro t c B bound hr hc hc100 hB hb hbd hsmall
    obtain ⟨k1, k2, k3, k4⟩ := float_div_small t c B (by omega) hc hB hb
    rw [hbd] at k2
    have hcq : (0 : ℚ) < c := by exact_mod_cast hc
    have hcq100 : (c : ℚ) ≤ 100 := by exact_mod_cast hc100
    obtain ⟨l1, l2⟩ := abs_le.1 k2
    refine ⟨k1, k2, ?_, ?_, ?_⟩
    · intro hneg
      have h1 : (t : ℚ) ≤ -1 := by exact_mod_cast (by omega : t ≤ -1)
      have h2 : (t : ℚ) / c ≤ -1 / 100 := by
        rw [div_le_iff₀ hcq]
        nlinarith
      linarith
    · intro h0
      exact le_antisymm (k4 (by omega)) (k3 (by omega))
    · intro hpos
      have h1 : (1 : ℚ) ≤ (t : ℚ) := by exact_mod_cast (by omega : 1 ≤ t)
      have h2 : (1 : ℚ) / 100 ≤ (t : ℚ) / c := by
        rw [le_div_iff₀ hcq]
        nlinarith
      linarith
  obtain ⟨s1, s2, s3⟩ := bme280_frame_stored g node_id t100 p10 h100 now ht hp hh
  refine ⟨s1, s2, s3, ?_, ?_, ?_⟩
  · exact key t100 100 8 (1 / 65536) ht (by decide) (by decide) (by decide) (by norm_num)
      (by norm_num) (by norm_num)
  · exact key p10 10 11 (1 / 8192) hp (by decide) (by decide) (by decide) (by norm_num)
      (by norm_num) (by norm_num)
  · exact key h100 100 8 (1 / 65536) hh (by decide) (by decide) (by decide) (by norm_num)
      (by norm_num) (by norm_num)

/-- Witness for C4: the frame with header `{0x05, 0x01}` built from 23.45 °C, 1013.2 hPa
and the raw humidity value -5000 parses with code 1 and is stored for node 5; the stored
humidity is negative and within `2^-16` of -50. -/
theorem bme280_round_trip_witness :
    (build_bme280_frame 5 2345 10132 (-5000)).take 2 = [5, 1] ∧
    LORA_ParseResponse (build_bme280_frame 5 2345 10132 (-5000)) 11 = some 1 ∧
    write_accepts zeroed_store (build_bme280_frame 5 2345 10132 (-5000)) 77 = true ∧
    (write_data_to_shared_memory zeroed_store (build_bme280_frame 5 2345 10132 (-5000))
        77).latest_bme280 =
      { node_id := 5
        temperature := float_div (float_of_int 2345) 100
        pressure := float_div (float_of_int 10132) 10
        humidity := float_div (float_of_int (-5000)) 100
        timestamp := 77
        valid := 1 } ∧
    |float_div (float_of_int 2345) 100 - ((2345 : Int) : ℚ) / 100| ≤ 1 / 65536 ∧
    float_div (float_of_int (-5000)) 100 < 0 := by
  obtain ⟨h1, h2, h3, ⟨-, h4, -⟩, -, ⟨-, -, h5, -⟩⟩ :=
    bme280_round_trip zeroed_store 5 2345 10132 (-5000) 77 (by decide) (by decide) (by decide)
  exact ⟨by decide, h1, h2, h3, h4, h5 (by decide)⟩

/-- C5. Round trip of the other three variants: for every node id and every field tuple
in range, the frame that `build_lightrain_frame`, `build_system_status_frame` or
`build_gps_frame` lays out is accepted by `write_data_to_shared_memory` on every store, and
the integers decoded from its big-endian bytes equal the originals (light as `int16_t`;
uptime as `uint32_t`, total errors as `uint16_t`; latitude and longitude as `int32_t`, hdop
and altitude as `int16_t`, negative values included). The slot holds the bytes (rainfall,
the four status bytes, fix mode, satellites), the unsigned integers and the six UTC digits
unchanged, and for light, latitude, longitude, hdop and altitude the `float` quotient of the
decoded integer by `10.0f` or `1e5f`. -/
theorem other_variants_round_trip (g : shared_weather_data) (node_id : uint8_t) (now : Int) :
    (∀ (lux10 : Int) (rain : uint8_t), -32768 ≤ lux10 → lux10 < 32768 →
      write_accepts g (build_lightrain_frame node_id lux10 rain) now = true ∧
      to_int16 ((rd (build_lightrain_frame node_id lux10 rain) 2 <<< 8) |||
        rd (build_lightrain_frame node_id lux10 rain) 3) = lux10 ∧
      (write_data_to_shared_memory g (build_lightrain_frame node_id lux10 rain)
          now).latest_lightrain =
        { node_id := node_id
          light_intensity := float_div (float_of_int lux10) 10
          rainfall := rain
          timestamp := now
          valid := 1 }) ∧
    (∀ (uptime : Nat) (s2 s3 s4 s5 : uint8_t) (total_errors : Nat),
      uptime < 4294967296 → total_errors < 65536 →
      write_accepts g (build_system_status_frame node_id uptime s2 s3 s4 s5 total_errors).1
        now = true ∧
      (write_data_to_shared_memory g
          (build_system_status_frame node_id uptime s2 s3 s4 s5 total_errors).1
          now).latest_system_status =
        { node_id := node_id
          bme280_status := s2
          bh1750_status := s3
          rain_sensor_status := s4
          i2c_bus_status := s5
          uptime_seconds := (build_system_status_frame node_id uptime s2 s3 s4 s5 total_errors).2
          total_errors := total_errors
          timestamp := now
          valid := 1 }) ∧
    (∀ (tm_hour tm_min tm_sec : Nat) (lat1e5 lon1e5 : Int) (positioning sats : uint8_t)
      (hdop10 alt10 : Int),
      tm_hour < 24 → tm_min < 60 → tm_sec ≤ 60 →
      -2147483648 ≤ lat1e5 → lat1e5 < 2147483648 →
      -2147483648 ≤ lon1e5 → lon1e5 < 2147483648 →
      -32768 ≤ hdop10 → hdop10 < 32768 → -32768 ≤ alt10 → alt10 < 32768 →
      write_accepts g (build_gps_frame node_id tm_hour tm_min tm_sec lat1e5 lon1e5
        positioning sats hdop10 alt10) now = true ∧
      to_int32 ((rd (build_gps_frame node_id tm_hour tm_min tm_sec lat1e5 lon1e5
          positioning sats hdop10 alt10) 8 <<< 24) |||
        (rd (build_gps_frame node_id tm_hour tm_min tm_sec lat1e5 lon1e5
          positioning sats hdop10 alt10) 9 <<< 16) |||
        (rd (build_gps_frame node_id tm_hour tm_min tm_sec lat1e5 lon1e5
          positioning sats hdop10 alt10) 10 <<< 8) |||
        rd (build_gps_frame node_id tm_hour tm_min tm_sec lat1e5 lon1e5
          positioning sats hdop10 alt10) 11) = lat1e5 ∧
      to_int32 ((rd (build_gps_frame node_id tm_hour tm_min tm_sec lat1e5 lon1e5
          positioning sats hdop10 alt10) 12 <<< 24) |||
        (rd (build_gps_frame node_id tm_hour tm_min tm_sec lat1e5 lon1e5
          positioning sats hdop10 alt10) 13 <<< 16) |||
        (rd (build_gps_frame node_id tm_hour tm_min tm_sec lat1e5 lon1e5
          positioning sats hdop10 alt10) 14 <<< 8) |||
        rd (build_gps_frame node_id tm_hour tm_min tm_sec lat1e5 lon1e5
          positioning sats hdop10 alt10) 15) = lon1e5 ∧
      to_int16 ((rd (build_gps_frame node_id tm_hour tm_min tm_sec lat1e5 lon1e5
          positioning sats hdop10 alt10) 18 <<< 8) |||
        rd (build_gps_frame node_id tm_hour tm_min tm_sec lat1e5 lon1e5
          positioning sats hdop10 alt10) 19) = hdop10 ∧
      to_int16 ((rd (build_gps_frame node_id tm_hour tm_min tm_sec lat1e5 lon1e5
          positioning sats hdop10 alt10) 20 <<< 8) |||
        rd (build_gps_frame node_id tm_hour tm_min tm_sec lat1e5 lon1e5
          positioning sats hdop10 alt10) 21) = alt10 ∧
      (write_data_to_shared_memory g (build_gps_frame node_id tm_hour tm_min tm_sec lat1e5
          lon1e5 positioning sats hdop10 alt10) now).latest_gps =
        { node_id := node_id
          utc := fmt_02d tm_hour ++ fmt_02d tm_min ++ fmt_02d tm_sec ++ g.latest_gps.utc.drop 6
          latitude := float_div (float_of_int lat1e5) 100000
          longitude := float_div (float_of_int lon1e5) 100000
          positioning := positioning
          satellites := sats
          hdop := float_div (float_of_int hdop10) 10
          altitude := float_div (float_of_int alt10) 10
          timestamp := now
          valid := 1 }) := by
  refine ⟨?_, ?_, ?_⟩
  · intro lux10 rain h1 h2
    have hinv := build_lightrain_frame_invariant node_id lux10 rain
    have hsw := (write_data_switch_of_invariant g _ now).2.1 hinv
    obtain ⟨ha, hw⟩ := write_stored g _ _ now hsw
    obtain ⟨-, -, -, -, -, f6, -⟩ := append_history_fields
      (update_lightrain g (build_lightrain_frame node_id lux10 rain) now) now
    have e0 : (build_lightrain_frame node_id lux10 rain).getD 0 0 = node_id := by
      rw [build_lightrain_frame_eq]; rfl
    have e1 : to_int16 ((rd (build_lightrain_frame node_id lux10 rain) 2 <<< 8) |||
        rd (build_lightrain_frame node_id lux10 rain) 3) = lux10 := by
      rw [build_lightrain_frame_eq]; exact int16_roundtrip lux10 h1 h2
    have e2 : (build_lightrain_frame node_id lux10 rain).getD 4 0 = rain := by
      rw [build_lightrain_frame_eq]; rfl
    refine ⟨ha, e1, ?_⟩
    rw [hw, f6]
    simp only [update_lightrain, e0, e1, e2]
  · intro uptime s2 s3 s4 s5 total_errors h1 h2
    have hinv := build_system_status_frame_invariant node_id uptime s2 s3 s4 s5 total_errors
    have hsw := (write_data_switch_of_invariant g _ now).2.2.1 hinv
    obtain ⟨ha, hw⟩ := write_stored g _ _ now hsw
    obtain ⟨-, -, -, -, -, -, f7, -⟩ := append_history_fields
      (update_system_status g
        (build_system_status_frame node_id uptime s2 s3 s4 s5 total_errors).1 now) now
    refine ⟨ha, ?_⟩
    rw [hw, f7]
    rw [build_system_status_frame_eq]
    have eu := uint32_roundtrip ((uptime + SEND_INTERVAL) % 4294967296)
      (Nat.mod_lt _ (by norm_num))
    have ee := uint16_roundtrip total_errors h2
    simp only [update_system_status]
    congr 1
  · intro tm_hour tm_min tm_sec lat1e5 lon1e5 positioning sats hdop10 alt10 hh hm hs hl1 hl2
      hn1 hn2 hd1 hd2 ha1 ha2
    have hinv := build_gps_frame_invariant node_id tm_hour tm_min tm_sec lat1e5 lon1e5
      positioning sats hdop10 alt10
    have hsw := (write_data_switch_of_invariant g _ now).2.2.2 hinv
    obtain ⟨ha, hw⟩ := write_stored g _ _ now hsw
    obtain ⟨-, -, -, -, -, -, -, f8, -⟩ := append_history_fields
      (update_gps g (build_gps_frame node_id tm_hour tm_min tm_sec lat1e5 lon1e5
        positioning sats hdop10 alt10) now) now
    have e0 : (build_gps_frame node_id tm_hour tm_min tm_sec lat1e5 lon1e5 positioning sats
        hdop10 alt10).getD 0 0 = node_id := by
      rw [build_gps_frame_eq]; rfl
    have e16 : (build_gps_frame node_id tm_hour tm_min tm_sec lat1e5 lon1e5 positioning sats
        hdop10 alt10).getD 16 0 = positioning := by
      rw [build_gps_frame_eq]; rfl
    have e17 : (build_gps_frame node_id tm_hour tm_min tm_sec lat1e5 lon1e5 positioning sats
        hdop10 alt10).getD 17 0 = sats := by
      rw [build_gps_frame_eq]; rfl
    have elat : to_int32
        ((rd (build_gps_frame node_id tm_hour tm_min tm_sec lat1e5 lon1e5 positioning sats
            hdop10 alt10) 8 <<< 24) |||
          (rd (build_gps_frame node_id tm_hour tm_min tm_sec lat1e5 lon1e5 positioning sats
            hdop10 alt10) 9 <<< 16) |||
          (rd (build_gps_frame node_id tm_hour tm_min tm_sec lat1e5 lon1e5 positioning sats
            hdop10 alt10) 10 <<< 8) |||
          rd (build_gps_frame node_id tm_hour tm_min tm_sec lat1e5 lon1e5 positioning sats
            hdop10 alt10) 11) = lat1e5 := by
      rw [build_gps_frame_eq]; exact int32_roundtrip lat1e5 hl1 hl2
    have elon : to_int32
        ((rd (build_gps_frame node_id tm_hour tm_min tm_sec lat1e5 lon1e5 positioning sats
            hdop10 alt10) 12 <<< 24) |||
          (rd (build_gps_frame node_id tm_hour tm_min tm_sec lat1e5 lon1e5 positioning sats
            hdop10 alt10) 13 <<< 16) |||
          (rd (build_gps_frame node_id tm_hour tm_min tm_sec lat1e5 lon1e5 positioning sats
            hdop10 alt10) 14 <<< 8) |||
          rd (build_gps_frame node_id tm_hour tm_min tm_sec lat1e5 lon1e5 positioning sats
            hdop10 alt10) 15) = lon1e5 := by
      rw [build_gps_frame_eq]; exact int32_roundtrip lon1e5 hn1 hn2
    have ehd : to_int16
        ((rd (build_gps_frame node_id tm_hour tm_min tm_sec lat1e5 lon1e5 positioning sats
            hdop10 alt10) 18 <<< 8) |||
          rd (build_gps_frame node_id tm_hour tm_min tm_sec lat1e5 lon1e5 positioning sats
            hdop10 alt10) 19) = hdop10 := by
      rw [build_gps_frame_eq]; exact int16_roundtrip hdop10 hd1 hd2
    have eal : to_int16
        ((rd (build_gps_frame node_id tm_hour tm_min tm_sec lat1e5 lon1e5 positioning sats
            hdop10 alt10) 20 <<< 8) |||
          rd (build_gps_frame node_id tm_hour tm_min tm_sec lat1e5 lon1e5 positioning sats
            hdop10 alt10) 21) = alt10 := by
      rw [build_gps_frame_eq]; exact int16_roundtrip alt10 ha1 ha2
    have etx : (List.range 6).map (fun i =>
        (build_gps_frame node_id tm_hour tm_min tm_sec lat1e5 lon1e5 positioning sats
          hdop10 alt10).getD (2 + i) 0) =
        fmt_02d tm_hour ++ fmt_02d tm_min ++ fmt_02d tm_sec := by
      rw [build_gps_frame_eq]; rfl
    have eutc := strncpy_text g.latest_gps.utc
      (fmt_02d tm_hour ++ fmt_02d tm_min ++ fmt_02d tm_sec) rfl (by
        intro c hc
        simp only [fmt_02d, List.cons_append, List.nil_append, List.mem_cons,
          List.mem_singleton, List.not_mem_nil, or_false] at hc
        rcases hc with h | h | h | h | h | h <;> rw [h] <;> apply digit_ne_zero <;> omega)
    refine ⟨ha, elat, elon, ehd, eal, ?_⟩
    rw [hw, f8]
    simp only [update_gps, e0, e16, e17, elat, elon, ehd, eal, etx, eutc]

/-- Witness for C5: a GPS frame of node 5 at 23:59:07 UTC with a negative latitude and a
negative altitude, written to the zeroed store. -/
theorem other_variants_round_trip_witness :
    write_accepts zeroed_store
      (build_gps_frame 5 23 59 7 (-3990420) 11640740 3 9 15 (-20)) 77 = true ∧
    (write_data_to_shared_memory zeroed_store
        (build_gps_frame 5 23 59 7 (-3990420) 11640740 3 9 15 (-20)) 77).latest_gps =
      { node_id := 5
        utc := fmt_02d 23 ++ fmt_02d 59 ++ fmt_02d 7 ++ zeroed_store.latest_gps.utc.drop 6
        latitude := float_div (float_of_int (-3990420)) 100000
        longitude := float_div (float_of_int 11640740) 100000
        positioning := 3
        satellites := 9
        hdop := float_div (float_of_int 15) 10
        altitude := float_div (float_of_int (-20)) 10
        timestamp := 77
        valid := 1 } :=
  ⟨((other_variants_round_trip zeroed_store 5 77).2.2 23 59 7 (-3990420) 11640740 3 9 15
      (-20) (by decide) (by decide) (by decide) (by decide) (by decide) (by decide)
      (by decide) (by decide) (by decide) (by decide) (by decide)).1,
   ((other_variants_round_trip zeroed_store 5 77).2.2 23 59 7 (-3990420) 11640740 3 9 15
      (-20) (by decide) (by decide) (by decide) (by decide) (by decide) (by decide)
      (by decide) (by decide) (by decide) (by decide) (by decide)).2.2.2.2.2⟩

/-! ## Claims on the shared telemetry store -/

/-- C6. For every store state and every frame, if `write_data_to_shared_memory` accepts
the frame then `update_counter` and `total_received` each increase by exactly 1 modulo
2^32, the `cmd` byte is one of 1..4, the counter of that variant increases by exactly 1
modulo 2^32 and the other three per-variant counters are unchanged; if it rejects the
frame then `update_counter` is unchanged. -/
theorem write_data_counters (g : shared_weather_data) (frame : List uint8_t) (now : Int) :
    (write_accepts g frame now = true →
      (write_data_to_shared_memory g frame now).update_counter =
        (g.update_counter + 1) % 4294967296 ∧
      (write_data_to_shared_memory g frame now).total_received =
        (g.total_received + 1) % 4294967296 ∧
      ((rd frame 1 = 0x01 ∧
        (write_data_to_shared_memory g frame now).bme280_count =
          (g.bme280_count + 1) % 4294967296 ∧
        (write_data_to_shared_memory g frame now).lightrain_count = g.lightrain_count ∧
        (write_data_to_shared_memory g frame now).system_status_count =
          g.system_status_count ∧
        (write_data_to_shared_memory g frame now).gps_count = g.gps_count) ∨
       (rd frame 1 = 0x02 ∧
        (write_data_to_shared_memory g frame now).bme280_count = g.bme280_count ∧
        (write_data_to_shared_memory g frame now).lightrain_count =
          (g.lightrain_count + 1) % 4294967296 ∧
        (write_data_to_shared_memory g frame now).system_status_count =
          g.system_status_count ∧
        (write_data_to_shared_memory g frame now).gps_count = g.gps_count) ∨
       (rd frame 1 = 0x03 ∧
        (write_data_to_shared_memory g frame now).bme280_count = g.bme280_count ∧
        (write_data_to_shared_memory g frame now).lightrain_count = g.lightrain_count ∧
        (write_data_to_shared_memory g frame now).system_status_count =
          (g.system_status_count + 1) % 4294967296 ∧
        (write_data_to_shared_memory g frame now).gps_count = g.gps_count) ∨
       (rd frame 1 = 0x04 ∧
        (write_data_to_shared_memory g frame now).bme280_count = g.bme280_count ∧
        (write_data_to_shared_memory g frame now).lightrain_count = g.lightrain_count ∧
        (write_data_to_shared_memory g frame now).system_status_count =
          g.system_status_count ∧
        (write_data_to_shared_memory g frame now).gps_count =
          (g.gps_count + 1) % 4294967296))) ∧
    (write_accepts g frame now = false →
      (write_data_to_shared_memory g frame now).update_counter = g.update_counter) := by
  rcases write_data_switch_cases g frame now with h | ⟨hc, -, h⟩ | ⟨hc, -, h⟩ | ⟨hc, -, h⟩ |
      ⟨hc, -, h⟩
  · obtain ⟨ha, hw⟩ := write_rejected g frame now h
    rw [ha, hw]
    simp
  all_goals
    obtain ⟨ha, hw⟩ := write_stored g _ frame now h
    rw [ha, hw]
    obtain ⟨f1, f2, -, -, -, -, -, -, f9, f10, f11, f12, -⟩ := append_history_fields
      (update_bme280 g frame now) now
    obtain ⟨k1, k2, -, -, -, -, -, -, k9, k10, k11, k12, -⟩ := append_history_fields
      (update_lightrain g frame now) now
    obtain ⟨l1, l2, -, -, -, -, -, -, l9, l10, l11, l12, -⟩ := append_history_fields
      (update_system_status g frame now) now
    obtain ⟨m1, m2, -, -, -, -, -, -, m9, m10, m11, m12, -⟩ := append_history_fields
      (update_gps g frame now) now
    simp only [f1, f2, f9, f10, f11, f12, k1, k2, k9, k10, k11, k12, l1, l2, l9, l10, l11,
      l12, m1, m2, m9, m10, m11, m12, hc]
    simp [update_bme280, update_lightrain, update_system_status, update_gps, incr32]

/-- Witness for C6: on the zeroed store an Environmental frame of node 5 advances
`update_counter`, and the same frame with a wrong checksum byte does not. -/
theorem write_data_counters_witness :
    (write_data_to_shared_memory zeroed_store
        [5, 1, 9, 41, 39, 148, 236, 120, 5, 6, 255] 77).update_counter =
      (zeroed_store.update_counter + 1) % 4294967296 ∧
    (write_data_to_shared_memory zeroed_store
        [5, 1, 9, 41, 39, 148, 236, 120, 5, 7, 255] 77).update_counter =
      zeroed_store.update_counter :=
  ⟨((write_data_counters zeroed_store [5, 1, 9, 41, 39, 148, 236, 120, 5, 6, 255] 77).1
      (by decide)).1,
   (write_data_counters zeroed_store [5, 1, 9, 41, 39, 148, 236, 120, 5, 7, 255] 77).2
      (by decide)⟩

/-- C7. Rejection is atomic: a frame is rejected exactly when it fails the check of its
`cmd` byte, terminator, XOR checksum or CRC4 (it satisfies the frame invariant for none of
the four lengths), and for every store state and every frame that
`write_data_to_shared_memory` rejects, the resulting store is the given store with
`total_errors` increased by exactly 1 modulo 2^32; every other field (the four latest-value
slots, the latest-frame union, the history ring with its index and count, `update_counter`,
`total_received`, the per-variant counters, `last_update_time`) is unchanged. -/
theorem write_data_rejection_atomic (g : shared_weather_data) (frame : List uint8_t)
    (now : Int) :
    (write_accepts g frame now = false ↔
      ¬ (frame_invariant frame 11 ∨ frame_invariant frame 8 ∨ frame_invariant frame 15 ∨
        frame_invariant frame 25)) ∧
    (write_accepts g frame now = false →
      write_data_to_shared_memory g frame now =
        { g with total_errors := (g.total_errors + 1) % 4294967296 }) := by
  refine ⟨?_, ?_⟩
  · rw [← write_accepts_iff g frame now]
    simp
  · intro h
    rcases write_data_switch_cases g frame now with hs | ⟨-, -, hs⟩ | ⟨-, -, hs⟩ |
        ⟨-, -, hs⟩ | ⟨-, -, hs⟩
    · exact (write_rejected g frame now hs).2
    all_goals
      rw [(write_stored g _ frame now hs).1] at h
      exact Bool.noConfusion h

/-- Witness for C7: the Environmental frame of node 5 with its checksum byte changed from
6 to 7, on the zeroed store. -/
theorem write_data_rejection_atomic_witness :
    write_data_to_shared_memory zeroed_store [5, 1, 9, 41, 39, 148, 236, 120, 5, 7, 255] 77 =
      { zeroed_store with total_errors := (zeroed_store.total_errors + 1) % 4294967296 } :=
  (write_data_rejection_atomic zeroed_store [5, 1, 9, 41, 39, 148, 236, 120, 5, 7, 255] 77).2
    (by decide)

/-- C8. History ring bound: starting from a freshly initialised store, after any sequence
of `write_data_to_shared_memory` calls `history_count` is at most 100; and when exactly 101
frames of the sequence were accepted, `history_count` is 100, slot 0 holds the 101st
accepted frame (the first one is gone) and slots 1 to 99 still hold the 2nd to the 100th. -/
theorem history_ring_bound (mem : shared_weather_data) (pid : Nat)
    (hm : mem.magic ≠ SHARED_MEMORY_MAGIC) (calls : List (List uint8_t × Int)) :
    (run_writes (init_shared_memory mem pid) [] calls).1.history_count ≤ MAX_HISTORY_COUNT ∧
    ((run_writes (init_shared_memory mem pid) [] calls).2.length = 101 →
      (run_writes (init_shared_memory mem pid) [] calls).1.history_count = 100 ∧
      (run_writes (init_shared_memory mem pid) [] calls).2[100]? =
        some ((run_writes (init_shared_memory mem pid) [] calls).1.history 0) ∧
      ∀ k, 1 ≤ k → k < 100 →
        (run_writes (init_shared_memory mem pid) [] calls).2[k]? =
          some ((run_writes (init_shared_memory mem pid) [] calls).1.history k)) := by
  have h0 : (init_shared_memory mem pid).history_write_index = 0 ∧
      (init_shared_memory mem pid).history_count = 0 := by
    unfold init_shared_memory
    rw [if_pos hm]
    exact ⟨rfl, rfl⟩
  obtain ⟨-, i2, i3⟩ := ring_invariant_run calls (init_shared_memory mem pid) []
    (by rw [h0.1]; rfl) (by rw [h0.2]; rfl) (by intro j hj; simp at hj)
  refine ⟨?_, ?_⟩
  · rw [i2]; simp only [MAX_HISTORY_COUNT]; omega
  · intro hl
    refine ⟨?_, ?_, ?_⟩
    · rw [i2, hl]; rfl
    · have := i3 100 (by omega) (by omega)
      simpa using this
    · intro k hk1 hk2
      have := i3 k (by omega) (by omega)
      rw [Nat.mod_eq_of_lt hk2] at this
      exact this

/-- Witness for C8: 101 copies of an accepted Environmental frame written to the store
initialised from a zeroed segment. -/
theorem history_ring_bound_witness :
    (run_writes (init_shared_memory zeroed_store 1234) []
      (List.replicate 101 ([5, 1, 9, 41, 39, 148, 236, 120, 5, 6, 255], 77))).1.history_count
      = 100 :=
  ((history_ring_bound zeroed_store 1234 (by decide)
    (List.replicate 101 ([5, 1, 9, 41, 39, 148, 236, 120, 5, 6, 255], 77))).2 (by decide)).1

/-- C9. For every accepted frame, `latest_data.data_type` is the variant of the frame's
`cmd` byte (1 Environmental, 2 LightRain, 3 SystemStatus, 4 GPS), the union payload is the
latest-value slot of that variant as just written, and that slot has `valid = 1`; for
SystemStatus and GPS frames the tags are 3 and 4 although `LORA_ParseResponse` returns 4
for both. -/
theorem write_data_latest_tag (g : shared_weather_data) (frame : List uint8_t) (now : Int)
    (h : write_accepts g frame now = true) :
    (write_data_to_shared_memory g frame now).latest_data.data_type = rd frame 1 ∧
    ((rd frame 1 = 0x01 ∧
      (write_data_to_shared_memory g frame now).latest_data =
        { data_type := SENSOR_BME280,
          data := .bme280 (write_data_to_shared_memory g frame now).latest_bme280 } ∧
      (write_data_to_shared_memory g frame now).latest_bme280.valid = 1) ∨
     (rd frame 1 = 0x02 ∧
      (write_data_to_shared_memory g frame now).latest_data =
        { data_type := SENSOR_LIGHTRAIN,
          data := .lightrain (write_data_to_shared_memory g frame now).latest_lightrain } ∧
      (write_data_to_shared_memory g frame now).latest_lightrain.valid = 1) ∨
     (rd frame 1 = 0x03 ∧
      (write_data_to_shared_memory g frame now).latest_data =
        { data_type := SENSOR_SYSTEM_STATUS,
          data := .system_status
            (write_data_to_shared_memory g frame now).latest_system_status } ∧
      (write_data_to_shared_memory g frame now).latest_system_status.valid = 1 ∧
      LORA_ParseResponse frame 15 = some 4) ∨
     (rd frame 1 = 0x04 ∧
      (write_data_to_shared_memory g frame now).latest_data =
        { data_type := SENSOR_GPS,
          data := .gps (write_data_to_shared_memory g frame now).latest_gps } ∧
      (write_data_to_shared_memory g frame now).latest_gps.valid = 1 ∧
      LORA_ParseResponse frame 25 = some 4)) := by
  rcases write_data_switch_cases g frame now with hs | ⟨hc, hi, hs⟩ | ⟨hc, hi, hs⟩ |
      ⟨hc, hi, hs⟩ | ⟨hc, hi, hs⟩
  · rw [(write_rejected g frame now hs).1] at h
    exact Bool.noConfusion h
  · rw [(write_stored g _ frame now hs).2]
    obtain ⟨-, -, -, f4, f5, -⟩ := append_history_fields (update_bme280 g frame now) now
    rw [f4, f5, hc]
    exact ⟨rfl, Or.inl ⟨rfl, rfl, rfl⟩⟩
  · rw [(write_stored g _ frame now hs).2]
    obtain ⟨-, -, -, f4, -, f6, -⟩ := append_history_fields (update_lightrain g frame now) now
    rw [f4, f6, hc]
    exact ⟨rfl, Or.inr (Or.inl ⟨rfl, rfl, rfl⟩)⟩
  · rw [(write_stored g _ frame now hs).2]
    obtain ⟨-, -, -, f4, -, -, f7, -⟩ :=
      append_history_fields (update_system_status g frame now) now
    rw [f4, f7, hc]
    refine ⟨rfl, Or.inr (Or.inr (Or.inl ⟨rfl, rfl, rfl, ?_⟩))⟩
    obtain ⟨c, hp, hne⟩ := (parse_nonzero_iff frame 15).2 hi
    rw [parse_system_status frame hc (by
      rcases hi with ⟨hl, _⟩ | ⟨hl, _⟩ | ⟨_, _, ht, _⟩ | ⟨hl, _⟩
      · omega
      · omega
      · exact ht
      · omega)] at hp ⊢
    split_ifs at hp ⊢ with hx
    · rfl
    · exact absurd (Option.some.inj hp).symm hne
  · rw [(write_stored g _ frame now hs).2]
    obtain ⟨-, -, -, f4, -, -, -, f8, -⟩ := append_history_fields (update_gps g frame now) now
    rw [f4, f8, hc]
    refine ⟨rfl, Or.inr (Or.inr (Or.inr ⟨rfl, rfl, rfl, ?_⟩))⟩
    obtain ⟨c, hp, hne⟩ := (parse_nonzero_iff frame 25).2 hi
    rw [parse_gps frame hc (by
      rcases hi with ⟨hl, _⟩ | ⟨hl, _⟩ | ⟨hl, _⟩ | ⟨_, _, ht, _⟩
      · omega
      · omega
      · omega
      · exact ht)] at hp ⊢
    split_ifs at hp ⊢ with hx
    · rfl
    · exact absurd (Option.some.inj hp).symm hne

/-- Witness for C9: a SystemStatus frame of node 5 on the zeroed store gets the tag 3. -/
theorem write_data_latest_tag_witness :
    (write_data_to_shared_memory zeroed_store
      [5, 3, 0, 1, 0, 0, 0, 0, 0, 2, 0, 99, 0, 102, 255] 77).latest_data.data_type =
      rd [5, 3, 0, 1, 0, 0, 0, 0, 0, 2, 0, 99, 0, 102, 255] 1 :=
  (write_data_latest_tag zeroed_store [5, 3, 0, 1, 0, 0, 0, 0, 0, 2, 0, 99, 0, 102, 255] 77
    (by decide)).1

/-- C10. A latest-value slot changes only on an accepted frame of its own variant: for
every store state and every frame, a slot that differs after the call implies that the
frame was accepted and carries the `cmd` byte of that slot; so on an accepted frame of one
variant the three slots of the other variants are unchanged, valid flags and timestamps
included. -/
theorem write_data_slot_frame (g : shared_weather_data) (frame : List uint8_t) (now : Int) :
    ((write_data_to_shared_memory g frame now).latest_bme280 ≠ g.latest_bme280 →
      write_accepts g frame now = true ∧ rd frame 1 = 0x01) ∧
    ((write_data_to_shared_memory g frame now).latest_lightrain ≠ g.latest_lightrain →
      write_accepts g frame now = true ∧ rd frame 1 = 0x02) ∧
    ((write_data_to_shared_memory g frame now).latest_system_status ≠
        g.latest_system_status →
      write_accepts g frame now = true ∧ rd frame 1 = 0x03) ∧
    ((write_data_to_shared_memory g frame now).latest_gps ≠ g.latest_gps →
      write_accepts g frame now = true ∧ rd frame 1 = 0x04) ∧
    (write_accepts g frame now = true →
      (rd frame 1 = 0x01 ∧
        (write_data_to_shared_memory g frame now).latest_lightrain = g.latest_lightrain ∧
        (write_data_to_shared_memory g frame now).latest_system_status =
          g.latest_system_status ∧
        (write_data_to_shared_memory g frame now).latest_gps = g.latest_gps) ∨
      (rd frame 1 = 0x02 ∧
        (write_data_to_shared_memory g frame now).latest_bme280 = g.latest_bme280 ∧
        (write_data_to_shared_memory g frame now).latest_system_status =
          g.latest_system_status ∧
        (write_data_to_shared_memory g frame now).latest_gps = g.latest_gps) ∨
      (rd frame 1 = 0x03 ∧
        (write_data_to_shared_memory g frame now).latest_bme280 = g.latest_bme280 ∧
        (write_data_to_shared_memory g frame now).latest_lightrain = g.latest_lightrain ∧
        (write_data_to_shared_memory g frame now).latest_gps = g.latest_gps) ∨
      (rd frame 1 = 0x04 ∧
        (write_data_to_shared_memory g frame now).latest_bme280 = g.latest_bme280 ∧
        (write_data_to_shared_memory g frame now).latest_lightrain = g.latest_lightrain ∧
        (write_data_to_shared_memory g frame now).latest_system_status =
          g.latest_system_status)) := by
  rcases write_data_switch_cases g frame now with hs | ⟨hc, -, hs⟩ | ⟨hc, -, hs⟩ |
      ⟨hc, -, hs⟩ | ⟨hc, -, hs⟩
  · obtain ⟨ha, hw⟩ := write_rejected g frame now hs
    rw [ha, hw]
    simp
  · obtain ⟨ha, hw⟩ := write_stored g _ frame now hs
    obtain ⟨-, -, -, -, f5, f6, f7, f8, -⟩ := append_history_fields (update_bme280 g frame now) now
    rw [ha, hw, f5, f6, f7, f8, hc]
    simp [update_bme280]
  · obtain ⟨ha, hw⟩ := write_stored g _ frame now hs
    obtain ⟨-, -, -, -, f5, f6, f7, f8, -⟩ :=
      append_history_fields (update_lightrain g frame now) now
    rw [ha, hw, f5, f6, f7, f8, hc]
    simp [update_lightrain]
  · obtain ⟨ha, hw⟩ := write_stored g _ frame now hs
    obtain ⟨-, -, -, -, f5, f6, f7, f8, -⟩ :=
      append_history_fields (update_system_status g frame now) now
    rw [ha, hw, f5, f6, f7, f8, hc]
    simp [update_system_status]
  · obtain ⟨ha, hw⟩ := write_stored g _ frame now hs
    obtain ⟨-, -, -, -, f5, f6, f7, f8, -⟩ := append_history_fields (update_gps g frame now) now
    rw [ha, hw, f5, f6, f7, f8, hc]
    simp [update_gps]

/-- Witness for C10: the Environmental frame of node 5 changes `latest_bme280` of the
zeroed store, and the frame is accepted with `cmd = 0x01`. -/
theorem write_data_slot_frame_witness :
    write_accepts zeroed_store [5, 1, 9, 41, 39, 148, 236, 120, 5, 6, 255] 77 = true ∧
    rd [5, 1, 9, 41, 39, 148, 236, 120, 5, 6, 255] 1 = 0x01 :=
  (write_data_slot_frame zeroed_store [5, 1, 9, 41, 39, 148, 236, 120, 5, 6, 255] 77).1
    (by
      intro e
      have hv := congrArg bme280_data.valid e
      revert hv
      decide)

/-! ## Claims on the relay server and on reading from a stream -/

/-- C11. Broadcast fan-out: for every receiver set holding `count ≥ 0` distinct
descriptors (all valid, that is non-negative) and every assignment `send_ok` of write
success or failure to descriptors, the loop of `broadcast_frame` ends within `count` passes
(more passes give the same result); the `send_all` calls it makes, each with the 32 bytes
of the frame, go to the registered descriptors, each exactly once; afterwards the set
contains exactly the descriptors whose write succeeded and `count` is their number; the
descriptors closed are exactly those whose write failed. -/
theorem broadcast_fan_out (send_ok : Int → Bool) (st : server_state) (frame : List uint8_t)
    (fuel : Nat) (hc : 0 ≤ st.recvers.count) (hd : (registered st.recvers).Nodup)
    (hn : ∀ fd ∈ registered st.recvers, 0 ≤ fd) (hf : st.recvers.count.toNat ≤ fuel) :
    ∃ st' att,
      broadcast_loop send_ok frame fuel st 0 = some st' ∧
      broadcast_frame send_ok st frame = some st' ∧
      List.Perm att (registered st.recvers) ∧ att.Nodup ∧
      st'.sent = st.sent ++ att.map (fun fd => (fd, bytes_of frame 0 FRAME_LEN)) ∧
      (bytes_of frame 0 FRAME_LEN).length = 32 ∧
      (∀ fd, fd ∈ registered st'.recvers ↔ (fd ∈ registered st.recvers ∧ send_ok fd = true)) ∧
      (registered st'.recvers).Nodup ∧
      st'.recvers.count = (((registered st.recvers).filter send_ok).length : Int) ∧
      st'.closed = st.closed ++ att.filter (fun fd => !send_ok fd) ∧
      (∀ fd, fd ∈ att.filter (fun fd => !send_ok fd) ↔
        (fd ∈ registered st.recvers ∧ send_ok fd = false)) := by
  obtain ⟨st', att, h1, h2, h3, h4, h5, h6, -⟩ := broadcast_loop_spec send_ok frame
    st.recvers.count.toNat st 0 (le_refl _) hc (by omega)
  rw [pending_part_zero] at h2
  have hdone : done_part st.recvers 0 = [] := rfl
  rw [hdone, List.nil_append] at h5
  have hperm : List.Perm (registered st'.recvers) ((registered st.recvers).filter send_ok) :=
    h5.trans (h2.filter _)
  have hfuel : broadcast_loop send_ok frame fuel st 0 = some st' := by
    obtain ⟨k, hk⟩ : ∃ k, fuel = st.recvers.count.toNat + k := ⟨_, (Nat.add_sub_cancel' hf).symm⟩
    rw [hk]
    exact broadcast_loop_fuel send_ok frame _ _ _ _ k h1
  have hcl : att.filter (fun fd => !send_ok fd && decide (0 ≤ fd)) =
      att.filter (fun fd => !send_ok fd) := by
    apply List.filter_congr
    intro fd hfd
    have := hn fd (h2.mem_iff.1 hfd)
    simp [this]
  refine ⟨st', att, hfuel, h1, h2, (h2.nodup_iff).2 hd, h3, by simp [bytes_of, FRAME_LEN], ?_,
    (hperm.nodup_iff).2 (hd.filter _), ?_, by rw [h4, hcl], ?_⟩
  · intro fd
    rw [hperm.mem_iff, List.mem_filter]
  · rw [h6, (h2.filter _).length_eq]
    simp
  · intro fd
    rw [List.mem_filter, h2.mem_iff]
    simp

/-- Witness for C11: the set holds the descriptors 4 and 5, the write to 4 fails. -/
theorem broadcast_fan_out_witness :
    ∃ st', broadcast_frame (fun fd => decide (fd ≠ 4))
        (add_receiver (add_receiver server_init 4) 5) [5, 1, 9] = some st' ∧
      (∀ fd, fd ∈ registered st'.recvers ↔
        (fd ∈ registered (add_receiver (add_receiver server_init 4) 5).recvers ∧
          decide (fd ≠ 4) = true)) := by
  obtain ⟨st', att, -, h2, -, -, -, -, h7, -⟩ := broadcast_fan_out (fun fd => decide (fd ≠ 4))
    (add_receiver (add_receiver server_init 4) 5) [5, 1, 9] 2 (by decide) (by decide)
    (by decide) (by decide)
  exact ⟨st', h2, h7⟩

/-- C12 (code bug). A complete frame with a wrong checksum ends both loops instead of being
dropped. Let a connection deliver a 32-byte block that holds a complete frame of one of the
four shapes whose XOR checksum or CRC4 is wrong, followed by `rest`. `LORA_ReadAndRarse`
consumes the block and returns 0, the value of `LORA_ParseResponse`, and both loops read 0
as "peer closed": `sender_thread` leaves its loop in that very pass and closes the
connection with `rest` unread and nothing broadcast, and `receive_loop` returns to `main`
(which closes the socket and reconnects) with `rest` unread and the store untouched. -/
theorem checksum_failure_ends_loops (send_ok : Nat → Int → Bool) (hdr : Nat → List uint8_t)
    (now : Nat → Int) (blk rest : List uint8_t) (len : Nat) (s : sender_state)
    (r : receiver_state) (fuel : Nat)
    (hl : blk.length = 32) (hs : frame_shape blk len) (hi : ¬ frame_invariant blk len)
    (hsf : s.frame.length = 32) (hsc : s.conn.data = blk ++ rest)
    (hrf : r.frame.length = 32) (hrc : r.conn.data = blk ++ rest) :
    (LORA_ReadAndRarse s.conn s.frame (hdr s.iter)).ret = some 0 ∧
    sender_thread send_ok hdr (fuel + 1) s =
      some { s with conn := { s.conn with data := rest }, frame := blk, iter := s.iter + 1,
                    srv := { s.srv with closed := s.srv.closed ++ [s.conn_fd] } } ∧
    receive_loop hdr now (fuel + 1) r =
      some { r with conn := { r.conn with data := rest }, frame := blk,
                    iter := r.iter + 1 } := by
  have h1 := read_bad_checksum_block s.conn s.frame (hdr s.iter) blk rest len hsf hl hs hi hsc
  have h2 := read_bad_checksum_block r.conn r.frame (hdr r.iter) blk rest len hrf hl hs hi hrc
  refine ⟨by rw [h1], ?_, ?_⟩
  · rw [sender_thread_zero send_ok hdr fuel s (by rw [h1]), h1]
  · rw [receive_loop_zero hdr now fuel r (by rw [h2]), h2]

/-- A BME280 frame with a wrong XOR byte, followed by a valid BME280 frame: the sender task
ends with its connection closed, nothing broadcast and the 32 bytes of the valid frame
unread; the receive loop returns with `update_counter` still 0 and the same bytes unread. -/
theorem checksum_failure_ends_loops_witness :
    (∃ s', sender_thread (fun _ _ => true) (fun _ => [0, 0]) 5
        { srv := add_receiver server_init 4, conn_fd := 7,
          conn := { data := ([5, 1, 9, 41, 39, 148, 236, 120, 5, 7, 255] ++
                      List.replicate 21 0) ++
                    ([5, 1, 9, 41, 39, 148, 236, 120, 5, 6, 255] ++
                      List.replicate 21 0), err := false },
          frame := List.replicate 32 0, iter := 0, broadcasts := [] } = some s' ∧
      s'.broadcasts = [] ∧ s'.srv.closed = [7] ∧ s'.srv.sent = [] ∧
      s'.conn.data = [5, 1, 9, 41, 39, 148, 236, 120, 5, 6, 255] ++ List.replicate 21 0) ∧
    (∃ r', receive_loop (fun _ => [0, 0]) (fun _ => 1700000000) 5
        { store := zeroed_store,
          conn := { data := ([5, 1, 9, 41, 39, 148, 236, 120, 5, 7, 255] ++
                      List.replicate 21 0) ++
                    ([5, 1, 9, 41, 39, 148, 236, 120, 5, 6, 255] ++
                      List.replicate 21 0), err := false },
          frame := List.replicate 32 0, iter := 0 } = some r' ∧
      r'.store.update_counter = 0 ∧ r'.store.total_received = 0 ∧
      r'.conn.data = [5, 1, 9, 41, 39, 148, 236, 120, 5, 6, 255] ++ List.replicate 21 0) := by
  obtain ⟨-, h1, h2⟩ := checksum_failure_ends_loops (fun _ _ => true) (fun _ => [0, 0])
    (fun _ => 1700000000)
    ([5, 1, 9, 41, 39, 148, 236, 120, 5, 7, 255] ++ List.replicate 21 0)
    ([5, 1, 9, 41, 39, 148, 236, 120, 5, 6, 255] ++ List.replicate 21 0) 11
    { srv := add_receiver server_init 4, conn_fd := 7,
      conn := { data := ([5, 1, 9, 41, 39, 148, 236, 120, 5, 7, 255] ++
                  List.replicate 21 0) ++
                ([5, 1, 9, 41, 39, 148, 236, 120, 5, 6, 255] ++
                  List.replicate 21 0), err := false },
      frame := List.replicate 32 0, iter := 0, broadcasts := [] }
    { store := zeroed_store,
      conn := { data := ([5, 1, 9, 41, 39, 148, 236, 120, 5, 7, 255] ++
                  List.replicate 21 0) ++
                ([5, 1, 9, 41, 39, 148, 236, 120, 5, 6, 255] ++
                  List.replicate 21 0), err := false },
      frame := List.replicate 32 0, iter := 0 }
    4 (by decide) (by decide) (by decide) (by decide) rfl (by decide) rfl
  exact ⟨⟨_, h1, rfl, rfl, rfl, rfl⟩, ⟨_, h2, rfl, rfl, rfl⟩⟩

/-- C13 (code bug). An unknown command leaves the stream mis-framed. Let the stream start
with a 32-byte block `a :: b :: body` whose `cmd` byte `b` is none of 0x01..0x04, followed by
a 32-byte block `blk2` that satisfies the frame invariant. The first call of
`LORA_ReadAndRarse` returns -1 with the frame buffer unchanged, but it has consumed only the
two header bytes: the stream is left at `body`, 30 bytes before the second block. The second
call therefore reads the bytes of `body` as its header, and when their `cmd` byte is again
unknown (as with zero padding) it returns -1 as well; a call that started at the second
block would have returned a positive code with `blk2` in the buffer. -/
theorem unknown_cmd_misframes_stream (hdr : Nat → List uint8_t) (i : Nat) (fd : sock)
    (buf body blk2 rest : List uint8_t) (a b : uint8_t)
    (hbuf : buf.length = 32) (hcmd : expected_len_of b.val = none)
    (hbody : body.length = 30) (hl2 : blk2.length = 32)
    (hi : ∃ len, frame_invariant blk2 len)
    (hdata : fd.data = a :: b :: (body ++ (blk2 ++ rest))) :
    read_calls hdr i 2 fd buf =
      [{ ret := some (-1), fd := { fd with data := body ++ (blk2 ++ rest) }, buf := buf },
       LORA_ReadAndRarse { fd with data := body ++ (blk2 ++ rest) } buf (hdr (i + 1))] ∧
    (body ++ (blk2 ++ rest)).length = (blk2 ++ rest).length + 30 ∧
    (expected_len_of (rd body 1) = none →
      LORA_ReadAndRarse { fd with data := body ++ (blk2 ++ rest) } buf (hdr (i + 1)) =
        { ret := some (-1), fd := { fd with data := body.drop 2 ++ (blk2 ++ rest) },
          buf := buf }) ∧
    ∃ c, 0 < c ∧
      LORA_ReadAndRarse { fd with data := blk2 ++ rest } buf (hdr (i + 1)) =
        { ret := some c, fd := { fd with data := rest }, buf := blk2 } := by
  have h1 := read_unknown_cmd fd buf (hdr i) a b (body ++ (blk2 ++ rest)) hdata hcmd
  refine ⟨?_, ?_, ?_, ?_⟩
  · simp only [read_calls, h1]
  · simp only [List.length_append, hbody]; omega
  · intro hz
    obtain ⟨x, y, tl, rfl⟩ : ∃ x y tl, body = x :: y :: tl := by
      rcases body with _ | ⟨x, _ | ⟨y, tl⟩⟩
      · simp at hbody
      · simp at hbody
      · exact ⟨x, y, tl, rfl⟩
    exact read_unknown_cmd { fd with data := (x :: y :: tl) ++ (blk2 ++ rest) } buf
      (hdr (i + 1)) x y (tl ++ (blk2 ++ rest)) rfl hz
  · obtain ⟨len, hinv⟩ := hi
    obtain ⟨c, hc, -, hr⟩ := read_valid_block { fd with data := blk2 ++ rest } buf
      (hdr (i + 1)) blk2 rest len hbuf hl2 hinv rfl
    exact ⟨c, hc, hr⟩

/-- A block with `cmd` = 0x09 and zero padding, followed by a valid BME280 block: both calls
return -1, and after them 60 bytes are still unread. -/
theorem unknown_cmd_misframes_stream_witness :
    (read_calls (fun _ => [0, 0]) 0 2
      { data := [5, 9] ++ (List.replicate 30 0 ++
          ([5, 1, 9, 41, 39, 148, 236, 120, 5, 6, 255] ++ List.replicate 21 0)),
        err := false }
      (List.replicate 32 0)).map (fun r => (r.ret, r.fd.data.length, r.buf)) =
      [(some (-1), 62, List.replicate 32 0), (some (-1), 60, List.replicate 32 0)] := by
  obtain ⟨h1, -, h2, -⟩ := unknown_cmd_misframes_stream (fun _ => [0, 0]) 0
    { data := [5, 9] ++ (List.replicate 30 0 ++
        ([5, 1, 9, 41, 39, 148, 236, 120, 5, 6, 255] ++ List.replicate 21 0)),
      err := false }
    (List.replicate 32 0) (List.replicate 30 0)
    ([5, 1, 9, 41, 39, 148, 236, 120, 5, 6, 255] ++ List.replicate 21 0) [] 5 9
    (by decide) (by decide) (by decide) (by decide) ⟨11, by decide⟩ (by simp)
  rw [h1, h2 (by decide)]
  decide

/-- C14. Arrival order is kept. Let the stream be the concatenation of the 32-byte blocks
`blocks`, each beginning with a frame that satisfies the frame invariant for some length
(any variant). Then `blocks.length` successive calls of `LORA_ReadAndRarse` leave, call after
call, the buffer equal to the i-th block and the stream at the blocks that follow it (each
call consumes exactly 32 bytes), and every call returns a positive code. Consequently
`sender_thread`, run on that stream until the peer closes it, ends having handed to
`broadcast_frame` exactly the blocks, in their order of arrival. -/
theorem arrival_order_kept (send_ok : Nat → Int → Bool) (hdr : Nat → List uint8_t)
    (blocks : List (List uint8_t)) (s : sender_state)
    (hbuf : s.frame.length = 32)
    (hblocks : ∀ b ∈ blocks, b.length = 32 ∧ ∃ len, frame_invariant b len)
    (hconn : s.conn = { data := blocks.flatten, err := false }) :
    (read_calls hdr s.iter blocks.length s.conn s.frame).length = blocks.length ∧
    (read_calls hdr s.iter blocks.length s.conn s.frame).map (fun r => r.buf) = blocks ∧
    (read_calls hdr s.iter blocks.length s.conn s.frame).map (fun r => r.fd.data) =
      blocks.tails.tail.map (fun t => t.flatten) ∧
    (∀ r ∈ read_calls hdr s.iter blocks.length s.conn s.frame, ∃ c, r.ret = some c ∧ 0 < c) ∧
    ∃ s', (∀ k, sender_thread send_ok hdr (blocks.length + 1 + k) s = some s') ∧
      s'.broadcasts = s.broadcasts ++ blocks := by
  obtain ⟨h1, h2, h3⟩ := read_calls_blocks hdr blocks s.iter s.conn s.frame [] hbuf hblocks
    (by rw [hconn, List.append_nil])
  obtain ⟨s', h4, h5, -⟩ := sender_thread_blocks send_ok hdr blocks s hbuf hblocks hconn
  refine ⟨?_, h1, ?_, h3, s', h4, h5⟩
  · have h := congrArg List.length h1
    rw [List.length_map] at h
    exact h
  · rw [h2]
    exact List.map_congr_left (fun t _ => List.append_nil _)

/-- The sender task on a BME280 block followed by a system-status block. -/
theorem arrival_order_kept_witness :
    ∃ s', sender_thread (fun _ _ => true) (fun _ => [0, 0]) 3
        { srv := add_receiver server_init 4, conn_fd := 7,
          conn := { data := ([5, 1, 9, 41, 39, 148, 236, 120, 5, 6, 255] ++
                      List.replicate 21 0) ++
                    ([5, 3, 0, 1, 0, 0, 0, 0, 0, 2, 0, 99, 0, 102, 255] ++
                      List.replicate 17 0), err := false },
          frame := List.replicate 32 0, iter := 0, broadcasts := [] } = some s' ∧
      s'.broadcasts =
        [[5, 1, 9, 41, 39, 148, 236, 120, 5, 6, 255] ++ List.replicate 21 0,
         [5, 3, 0, 1, 0, 0, 0, 0, 0, 2, 0, 99, 0, 102, 255] ++ List.replicate 17 0] := by
  obtain ⟨-, -, -, -, s', h1, h2⟩ := arrival_order_kept (fun _ _ => true) (fun _ => [0, 0])
    [[5, 1, 9, 41, 39, 148, 236, 120, 5, 6, 255] ++ List.replicate 21 0,
     [5, 3, 0, 1, 0, 0, 0, 0, 0, 2, 0, 99, 0, 102, 255] ++ List.replicate 17 0]
    { srv := add_receiver server_init 4, conn_fd := 7,
      conn := { data := ([5, 1, 9, 41, 39, 148, 236, 120, 5, 6, 255] ++
                  List.replicate 21 0) ++
                ([5, 3, 0, 1, 0, 0, 0, 0, 0, 2, 0, 99, 0, 102, 255] ++
                  List.replicate 17 0), err := false },
      frame := List.replicate 32 0, iter := 0, broadcasts := [] }
    (by decide)
    (by
      intro b hb
      rcases List.mem_cons.1 hb with rfl | hb
      · exact ⟨by decide, 11, by decide⟩
      · rcases List.mem_cons.1 hb with rfl | hb
        · exact ⟨by decide, 15, by decide⟩
        · cases hb)
    (by simp only [List.flatten_cons, List.flatten_nil, List.append_nil])
  exact ⟨s', h1 0, h2⟩

/-- C15 (code bug). The keep-alive task removes the wrong entry. On closure or reset
`receiver_thread` calls `remove_receiver_nolock(conn_fd)`, which takes an index into
`g_recvers.fds`, with the descriptor itself. With descriptors 4 and 5 registered (at indices
0 and 1), the exit of the task of descriptor 4 overwrites slot 4, closes the descriptor found
there (0) and decrements `count`: afterwards descriptor 4 is still in the receiver set and
descriptor 5, whose connection is alive, is no longer in it. -/
theorem receiver_thread_removes_by_descriptor :
    (∀ (st : server_state) (conn_fd : Int),
      receiver_thread st conn_fd [recv_event.closed] =
        some { remove_receiver_nolock st conn_fd with
               closed := (remove_receiver_nolock st conn_fd).closed ++ [conn_fd] }) ∧
    registered (add_receiver (add_receiver server_init 4) 5).recvers = [4, 5] ∧
    ∃ st', receiver_thread (add_receiver (add_receiver server_init 4) 5) 4
        [recv_event.data, recv_event.closed] = some st' ∧
      registered st'.recvers = [4] ∧ (5 : Int) ∉ registered st'.recvers ∧
      st'.recvers.count = 1 ∧ st'.closed = [0, 4] := by
  refine ⟨fun _ _ => rfl, by decide, _, rfl, by decide, by decide, by decide, by decide⟩

/-- C16. The receiver set is bounded: when `count < 128`, `add_receiver` stores the
descriptor at index `count`, leaves the other entries, increases `count` by 1 and closes
nothing; when `count = 128` the set (descriptors and count) is unchanged and the new
descriptor is closed. -/
theorem add_receiver_bounded (st : server_state) (fd : Int) :
    (st.recvers.count < 128 →
      (add_receiver st fd).recvers.count = st.recvers.count + 1 ∧
      (add_receiver st fd).recvers.fds st.recvers.count = fd ∧
      (∀ i, i ≠ st.recvers.count → (add_receiver st fd).recvers.fds i = st.recvers.fds i) ∧
      (0 ≤ st.recvers.count →
        registered (add_receiver st fd).recvers = registered st.recvers ++ [fd]) ∧
      (add_receiver st fd).closed = st.closed) ∧
    (st.recvers.count = 128 →
      (add_receiver st fd).recvers = st.recvers ∧
      (add_receiver st fd).closed = st.closed ++ [fd]) ∧
    (add_receiver st fd).sent = st.sent ∧ (add_receiver st fd).threads = st.threads := by
  unfold add_receiver
  simp only [MAX_RECV_CLIENTS]
  refine ⟨?_, ?_, ?_⟩
  · intro h
    rw [if_pos h]
    refine ⟨rfl, by simp, fun i hi => by simp [Function.update_noteq hi], ?_, rfl⟩
    intro h0
    unfold registered
    simp only []
    have e : (st.recvers.count + 1).toNat = st.recvers.count.toNat + 1 := by omega
    rw [e, List.range_succ, List.map_append]
    congr 1
    · apply List.map_congr_left
      intro j hj
      rw [List.mem_range] at hj
      rw [Function.update_noteq (by omega)]
    · rw [List.map_singleton, Int.toNat_of_nonneg h0, Function.update_same]
  · intro h
    rw [if_neg (by omega)]
    exact ⟨rfl, rfl⟩
  · split_ifs <;> exact ⟨rfl, rfl⟩

/-- Witness for C16: two descriptors added to the initial, empty set. -/
theorem add_receiver_bounded_witness :
    registered (add_receiver (add_receiver server_init 4) 5).recvers =
      registered (add_receiver server_init 4).recvers ++ [5] :=
  ((add_receiver_bounded (add_receiver server_init 4) 5).1 (by decide)).2.2.2.1 (by decide)

/-- C18. Role handshake. When the two bytes `a`, `b` of a role tag arrive on an accepted
connection, `main` sends nothing on any socket; it starts a sender task for the connection
(and neither registers nor closes it) exactly when the tag is `ROLE_SENDER` = {0xAA, 0x00};
it hands the connection to `add_receiver` and starts a keep-alive task for it exactly when
the tag is `ROLE_RECVR` = {0xBB, 0x00}; and for every other tag it closes the connection,
starts no task and leaves the receiver set as it was. -/
theorem role_handshake (st : server_state) (conn_fd : Int) (conn : sock)
    (role : List uint8_t) (a b : uint8_t) (rest : List uint8_t)
    (hdata : conn.data = a :: b :: rest) :
    (main_accept st conn_fd conn role).sent = st.sent ∧
    ((main_accept st conn_fd conn role).threads = st.threads ++ [(thread_start.sender, conn_fd)]
      ↔ [a, b] = ROLE_SENDER) ∧
    ((main_accept st conn_fd conn role).threads =
        st.threads ++ [(thread_start.receiver, conn_fd)] ↔ [a, b] = ROLE_RECVR) ∧
    ([a, b] = ROLE_SENDER →
      main_accept st conn_fd conn role =
        { st with threads := st.threads ++ [(thread_start.sender, conn_fd)] }) ∧
    ([a, b] = ROLE_RECVR →
      main_accept st conn_fd conn role =
        { add_receiver st conn_fd with
          threads := st.threads ++ [(thread_start.receiver, conn_fd)] }) ∧
    ([a, b] ≠ ROLE_SENDER → [a, b] ≠ ROLE_RECVR →
      main_accept st conn_fd conn role = { st with closed := st.closed ++ [conn_fd] }) := by
  have hne : ROLE_SENDER ≠ ROLE_RECVR := by decide
  have hadd_sent : (add_receiver st conn_fd).sent = st.sent := by
    unfold add_receiver; split <;> rfl
  have hadd_threads : (add_receiver st conn_fd).threads = st.threads := by
    unfold add_receiver; split <;> rfl
  have hmain : main_accept st conn_fd conn role =
      if [a, b] = ROLE_SENDER then
        { st with threads := st.threads ++ [(thread_start.sender, conn_fd)] }
      else if [a, b] = ROLE_RECVR then
        { add_receiver st conn_fd with
          threads := st.threads ++ [(thread_start.receiver, conn_fd)] }
      else { st with closed := st.closed ++ [conn_fd] } := by
    have e1 : ROLE_ACK ≠ ROLE_ERRORB := by decide
    unfold main_accept
    simp only [show ROLE_LEN = 2 from rfl, read_n_header conn role a b rest hdata]
    rw [if_neg (by simp)]
    simp only [show (a :: b :: role.drop 2).take 2 = [a, b] from rfl]
    by_cases h1 : [a, b] = ROLE_SENDER
    · simp [h1, e1]
    · by_cases h2 : [a, b] = ROLE_RECVR
      · have e2 : ROLE_RECVR ≠ ROLE_SENDER := by decide
        simp [h2, e1, e2, hadd_threads]
      · simp [h1, h2]
  have hs : (thread_start.sender, conn_fd) ≠ (thread_start.receiver, conn_fd) := by
    intro h
    have h0 : thread_start.sender = thread_start.receiver := congrArg Prod.fst h
    exact absurd h0 (by decide)
  by_cases h1 : [a, b] = ROLE_SENDER
  · have h2 : [a, b] ≠ ROLE_RECVR := fun h => hne (h1.symm.trans h)
    rw [if_pos h1] at hmain
    refine ⟨by rw [hmain], ⟨fun _ => h1, fun _ => by rw [hmain]⟩,
      ⟨fun h => ?_, fun h => absurd h h2⟩, fun _ => hmain, fun h => absurd h h2, fun h => absurd h1 h⟩
    rw [hmain] at h
    exact absurd (List.singleton_inj.1 (List.append_cancel_left h)) hs
  · by_cases h2 : [a, b] = ROLE_RECVR
    · rw [if_neg h1, if_pos h2] at hmain
      refine ⟨by rw [hmain]; exact hadd_sent, ⟨fun h => ?_, fun h => absurd h h1⟩,
        ⟨fun _ => h2, fun _ => by rw [hmain]⟩, fun h => absurd h h1, fun _ => hmain,
        fun _ h => absurd h2 h⟩
      rw [hmain] at h
      exact absurd (List.singleton_inj.1 (List.append_cancel_left h)).symm hs
    · rw [if_neg h1, if_neg h2] at hmain
      refine ⟨by rw [hmain], ⟨fun h => ?_, fun h => absurd h h1⟩,
        ⟨fun h => ?_, fun h => absurd h h2⟩, fun h => absurd h h1, fun h => absurd h h2,
        fun _ _ => hmain⟩
      · rw [hmain] at h
        have := congrArg List.length h
        simp at this
      · rw [hmain] at h
        have := congrArg List.length h
        simp at this

/-- An unknown tag {0x12, 0x34}: the connection is closed, nothing else changes. -/
theorem role_handshake_witness :
    (main_accept server_init 7 { data := [0x12, 0x34, 5], err := false } [0, 0]).closed = [7] ∧
    (main_accept server_init 7 { data := [0x12, 0x34, 5], err := false } [0, 0]).threads = [] ∧
    (main_accept server_init 7 { data := [0x12, 0x34, 5], err := false } [0, 0]).sent = [] := by
  have h := (role_handshake server_init 7 { data := [0x12, 0x34, 5], err := false } [0, 0]
    0x12 0x34 [5] rfl).2.2.2.2.2 (by decide) (by decide)
  rw [h]
  exact ⟨rfl, rfl, rfl⟩

/-- C19. For every buffer and length, the codes that `LORA_ParseResponse` returns are 0,
1, 2 and 4 (never 3); a non-zero code is 1 for an Environmental frame, 2 for a LightRain
frame and 4 for both a SystemStatus and a GPS frame; every frame that satisfies the frame
invariant gets the code of its variant, and a frame of one of the four shapes that fails a
check gets 0. -/
theorem LORA_ParseResponse_codes (buf : List uint8_t) (len : Nat) :
    (∀ c, LORA_ParseResponse buf len = some c → c = 0 ∨ c = 1 ∨ c = 2 ∨ c = 4) ∧
    (∀ c, LORA_ParseResponse buf len = some c → c ≠ 0 →
      (c = 1 ∧ len = 11 ∧ rd buf 1 = 0x01) ∨ (c = 2 ∧ len = 8 ∧ rd buf 1 = 0x02) ∨
      (c = 4 ∧ len = 15 ∧ rd buf 1 = 0x03) ∨ (c = 4 ∧ len = 25 ∧ rd buf 1 = 0x04)) ∧
    (frame_invariant buf 11 → LORA_ParseResponse buf 11 = some 1) ∧
    (frame_invariant buf 8 → LORA_ParseResponse buf 8 = some 2) ∧
    (frame_invariant buf 15 → LORA_ParseResponse buf 15 = some 4) ∧
    (frame_invariant buf 25 → LORA_ParseResponse buf 25 = some 4) ∧
    (frame_shape buf len → ¬ frame_invariant buf len →
      LORA_ParseResponse buf len = some 0) := by
  obtain ⟨p1, p2, p3, p4⟩ := parse_code_of_invariant buf
  have key : ∀ c, LORA_ParseResponse buf len = some c → c ≠ 0 →
      (c = 1 ∧ len = 11 ∧ rd buf 1 = 0x01) ∨ (c = 2 ∧ len = 8 ∧ rd buf 1 = 0x02) ∨
      (c = 4 ∧ len = 15 ∧ rd buf 1 = 0x03) ∨ (c = 4 ∧ len = 25 ∧ rd buf 1 = 0x04) := by
    intro c hc hne
    have hi := (parse_nonzero_iff buf len).1 ⟨c, hc, hne⟩
    have hi2 := hi
    rcases hi with ⟨hl, h1, _⟩ | ⟨hl, h1, _⟩ | ⟨hl, h1, _⟩ | ⟨hl, h1, _⟩ <;> subst hl
    · rw [p1 hi2] at hc
      exact Or.inl ⟨(Option.some.inj hc).symm, rfl, h1⟩
    · rw [p2 hi2] at hc
      exact Or.inr (Or.inl ⟨(Option.some.inj hc).symm, rfl, h1⟩)
    · rw [p3 hi2] at hc
      exact Or.inr (Or.inr (Or.inl ⟨(Option.some.inj hc).symm, rfl, h1⟩))
    · rw [p4 hi2] at hc
      exact Or.inr (Or.inr (Or.inr ⟨(Option.some.inj hc).symm, rfl, h1⟩))
  refine ⟨?_, key, p1, p2, p3, p4, fun hs hi => (parse_shape buf len hs).2 hi⟩
  intro c hc
  by_cases h0 : c = 0
  · exact Or.inl h0
  · rcases key c hc h0 with ⟨h, _⟩ | ⟨h, _⟩ | ⟨h, _⟩ | ⟨h, _⟩
    · exact Or.inr (Or.inl h)
    · exact Or.inr (Or.inr (Or.inl h))
    · exact Or.inr (Or.inr (Or.inr h))
    · exact Or.inr (Or.inr (Or.inr h))

/-- Witness for C19: codes of a valid SystemStatus frame and of an Environmental frame with
a wrong checksum byte. -/
theorem LORA_ParseResponse_codes_witness :
    LORA_ParseResponse [5, 3, 0, 1, 0, 0, 0, 0, 0, 2, 0, 99, 0, 102, 255] 15 = some 4 ∧
    LORA_ParseResponse [5, 1, 9, 41, 39, 148, 236, 120, 5, 7, 255] 11 = some 0 :=
  ⟨(LORA_ParseResponse_codes [5, 3, 0, 1, 0, 0, 0, 0, 0, 2, 0, 99, 0, 102, 255] 15).2.2.2.2.1
      (by decide),
   (LORA_ParseResponse_codes [5, 1, 9, 41, 39, 148, 236, 120, 5, 7, 255] 11).2.2.2.2.2.2
      (by decide) (by decide)⟩

/-- C20. Frame length lookup: the `switch` of `LORA_ReadAndRarse` gives the expected total
lengths 11, 8, 15, 25 for `cmd` 0x01, 0x02, 0x03, 0x04 and takes the `default` branch for
every other value; in that case, on a stream that delivers the two header bytes, the call
returns -1, has consumed exactly these two bytes and leaves the caller's frame buffer as it
was. -/
theorem frame_length_lookup :
    expected_len_of 0x01 = some 11 ∧ expected_len_of 0x02 = some 8 ∧
    expected_len_of 0x03 = some 15 ∧ expected_len_of 0x04 = some 25 ∧
    (∀ cmd, cmd ≠ 0x01 → cmd ≠ 0x02 → cmd ≠ 0x03 → cmd ≠ 0x04 →
      expected_len_of cmd = none) ∧
    (∀ (fd : sock) (buf header : List uint8_t) (a b : uint8_t) (rest : List uint8_t),
      fd.data = a :: b :: rest →
      b.val ≠ 0x01 → b.val ≠ 0x02 → b.val ≠ 0x03 → b.val ≠ 0x04 →
      LORA_ReadAndRarse fd buf header =
        { ret := some (-1), fd := { fd with data := rest }, buf := buf }) := by
  have hd : ∀ cmd, cmd ≠ 0x01 → cmd ≠ 0x02 → cmd ≠ 0x03 → cmd ≠ 0x04 →
      expected_len_of cmd = none := by
    intro cmd h1 h2 h3 h4
    unfold expected_len_of
    simp only [CMD_BME280, CMD_LIGHTRAIN, CMD_SYSTEM_STATUS, CMD_GPS]
    rw [if_neg h1, if_neg h2, if_neg h3, if_neg h4]
  refine ⟨rfl, rfl, rfl, rfl, hd, ?_⟩
  intro fd buf header a b rest h h1 h2 h3 h4
  exact read_unknown_cmd fd buf header a b rest h (hd b.val h1 h2 h3 h4)

/-- Witness for C20: a block with `cmd = 0x09`, followed by further bytes. -/
theorem frame_length_lookup_witness :
    LORA_ReadAndRarse { data := [5, 9, 0, 0, 7], err := false } [1, 2, 3] [0, 0] =
      { ret := some (-1), fd := { data := [0, 0, 7], err := false }, buf := [1, 2, 3] } :=
  frame_length_lookup.2.2.2.2.2 { data := [5, 9, 0, 0, 7], err := false } [1, 2, 3] [0, 0]
    5 9 [0, 0, 7] rfl (by decide) (by decide) (by decide) (by decide)

/-! ## Claims on the store, the CRC and the bounds of the relay server -/

/-- C21 (counterexample to the claim as worded). A sender delivers a 32-byte block that
begins with a valid BME280 frame and carries the byte 7 in the 21 positions after it. The
sender task reads the block and the server sends it to the registered receiver as it is:
the frame sent is 32 bytes long and its byte 11, after the variant's true length, is 7. -/
theorem broadcast_padding_counterexample :
    frame_invariant
      ([5, 1, 9, 41, 39, 148, 236, 120, 5, 6, 255] ++ List.replicate 21 7) 11 ∧
    ∃ s', sender_thread (fun _ _ => true) (fun _ => [0, 0]) 2
        { srv := add_receiver server_init 4, conn_fd := 7,
          conn := { data := [5, 1, 9, 41, 39, 148, 236, 120, 5, 6, 255] ++
                      List.replicate 21 7, err := false },
          frame := List.replicate 32 0, iter := 0, broadcasts := [] } = some s' ∧
      s'.srv.sent =
        [(4, [5, 1, 9, 41, 39, 148, 236, 120, 5, 6, 255] ++ List.replicate 21 7)] ∧
      (s'.srv.sent.map (fun e => (e.2.length, e.2.getD 11 0))) = [(32, 7)] :=
  ⟨by decide, _, rfl, rfl, rfl⟩

/-- C21 (amended). Every frame the server broadcasts is exactly 32 bytes long and is, byte
for byte, the 32-byte block the sender delivered, for every 32-byte block that begins with a
valid frame: `LORA_ReadAndRarse` stores the block in the frame buffer, `broadcast_frame`
sends the buffer to each receiver it writes to, and so the bytes after the variant's true
length are zero in the frame sent exactly when they are zero in the block delivered. -/
theorem broadcast_relays_block (send_ok : Nat → Int → Bool) (hdr : Nat → List uint8_t)
    (fuel : Nat) (s : sender_state) (blk rest : List uint8_t) (len : Nat)
    (hsf : s.frame.length = 32) (hl : blk.length = 32) (hi : frame_invariant blk len)
    (hsc : s.conn.data = blk ++ rest) :
    (LORA_ReadAndRarse s.conn s.frame (hdr s.iter)).buf = blk ∧
    ∃ (srv : server_state) (att : List Int),
      broadcast_frame (send_ok s.iter) s.srv blk = some srv ∧
      sender_thread send_ok hdr (fuel + 1) s =
        sender_thread send_ok hdr fuel
          { s with conn := { s.conn with data := rest }, frame := blk, iter := s.iter + 1,
                   srv := srv, broadcasts := s.broadcasts ++ [blk] } ∧
      srv.sent = s.srv.sent ++ att.map (fun fd => (fd, blk)) ∧
      ∀ e ∈ att.map (fun fd => (fd, blk)),
        e.2 = blk ∧ e.2.length = 32 ∧
        ((∀ j, len ≤ j → j < 32 → e.2.getD j 0 = 0) ↔
          (∀ j, len ≤ j → j < 32 → blk.getD j 0 = 0)) := by
  obtain ⟨c, hc, -, hr⟩ := read_valid_block s.conn s.frame (hdr s.iter) blk rest len hsf hl
    hi hsc
  obtain ⟨srv, att, hb, hs⟩ := broadcast_frame_sent (send_ok s.iter) s.srv blk hl
  refine ⟨by rw [hr], srv, att, hb, ?_, hs, ?_⟩
  · rw [sender_thread_positive send_ok hdr fuel s c srv (by rw [hr]) hc
      (by rw [hr]; exact hb)]
    simp only [hr]
  · intro e he
    obtain ⟨fd, -, rfl⟩ := List.mem_map.1 he
    exact ⟨rfl, hl, Iff.rfl⟩

/-- The block of a BME280 frame with zero padding, sent on to the receivers of descriptors
4 and 5. -/
theorem broadcast_relays_block_witness :
    ∃ (srv : server_state) (att : List Int),
      broadcast_frame (fun _ => true) (add_receiver (add_receiver server_init 4) 5)
        ([5, 1, 9, 41, 39, 148, 236, 120, 5, 6, 255] ++ List.replicate 21 0) = some srv ∧
      srv.sent = att.map (fun fd =>
        (fd, [5, 1, 9, 41, 39, 148, 236, 120, 5, 6, 255] ++ List.replicate 21 0)) := by
  obtain ⟨-, srv, att, h1, -, h3, -⟩ := broadcast_relays_block (fun _ _ => true)
    (fun _ => [0, 0]) 1
    { srv := add_receiver (add_receiver server_init 4) 5, conn_fd := 7,
      conn := { data := [5, 1, 9, 41, 39, 148, 236, 120, 5, 6, 255] ++ List.replicate 21 0,
                err := false },
      frame := List.replicate 32 0, iter := 0, broadcasts := [] }
    ([5, 1, 9, 41, 39, 148, 236, 120, 5, 6, 255] ++ List.replicate 21 0) [] 11
    (by decide) (by decide) (by decide) (by simp)
  exact ⟨srv, att, h1, by simpa using h3⟩

/-- C22. Store attach is gated by the magic number. If the `magic` field of the attached
segment differs from `0xDEADBEEF`, `init_shared_memory` leaves a store with
`magic = 0xDEADBEEF`, `connection_status = CONNECTION_DISCONNECTED`, with `update_counter`,
`history_write_index`, `history_count`, `total_received`, `total_errors` and the four
per-variant counters equal to 0, and with `valid = 0` in all four latest-value slots; if
`magic` already equals `0xDEADBEEF`, the segment is kept with only `writer_pid` written. -/
theorem init_shared_memory_gated (mem : shared_weather_data) (pid : Nat) :
    (mem.magic ≠ 0xDEADBEEF →
      (init_shared_memory mem pid).magic = 0xDEADBEEF ∧
      (init_shared_memory mem pid).connection_status = CONNECTION_DISCONNECTED ∧
      (init_shared_memory mem pid).update_counter = 0 ∧
      (init_shared_memory mem pid).history_write_index = 0 ∧
      (init_shared_memory mem pid).history_count = 0 ∧
      (init_shared_memory mem pid).total_received = 0 ∧
      (init_shared_memory mem pid).total_errors = 0 ∧
      (init_shared_memory mem pid).bme280_count = 0 ∧
      (init_shared_memory mem pid).lightrain_count = 0 ∧
      (init_shared_memory mem pid).system_status_count = 0 ∧
      (init_shared_memory mem pid).gps_count = 0 ∧
      (init_shared_memory mem pid).latest_bme280.valid = 0 ∧
      (init_shared_memory mem pid).latest_lightrain.valid = 0 ∧
      (init_shared_memory mem pid).latest_system_status.valid = 0 ∧
      (init_shared_memory mem pid).latest_gps.valid = 0) ∧
    (mem.magic = 0xDEADBEEF →
      init_shared_memory mem pid = { mem with writer_pid := pid % 4294967296 }) := by
  constructor
  · intro h
    have e : init_shared_memory mem pid =
        { zeroed_store with
          magic := SHARED_MEMORY_MAGIC
          writer_pid := pid % 4294967296
          connection_status := CONNECTION_DISCONNECTED
          update_counter := 0
          history_write_index := 0
          history_count := 0
          total_received := 0
          total_errors := 0
          last_error := "共享内存已初始化" } := by
      have h1 : mem.magic ≠ SHARED_MEMORY_MAGIC := h
      unfold init_shared_memory
      rw [if_pos h1]
    rw [e]
    exact ⟨rfl, rfl, rfl, rfl, rfl, rfl, rfl, rfl, rfl, rfl, rfl, rfl, rfl, rfl, rfl⟩
  · intro h
    have h1 : ¬ mem.magic ≠ SHARED_MEMORY_MAGIC := fun hn => hn h
    unfold init_shared_memory
    rw [if_neg h1]

/-- Attaching an all-zero segment with process id 4242, and attaching a segment that already
carries the magic number. -/
theorem init_shared_memory_gated_witness :
    (init_shared_memory zeroed_store 4242).magic = 0xDEADBEEF ∧
    (init_shared_memory zeroed_store 4242).update_counter = 0 ∧
    init_shared_memory { zeroed_store with magic := 0xDEADBEEF, update_counter := 9 } 4242 =
      { zeroed_store with magic := 0xDEADBEEF, update_counter := 9, writer_pid := 4242 } :=
  ⟨((init_shared_memory_gated zeroed_store 4242).1 (by decide)).1,
   ((init_shared_memory_gated zeroed_store 4242).1 (by decide)).2.2.1,
   (init_shared_memory_gated { zeroed_store with magic := 0xDEADBEEF, update_counter := 9 }
      4242).2 rfl⟩

/-- C23 (code bug). `Calculate_CRC4` misses every error in a low nibble. For every byte
sequence and every byte `data[i]` within the `len` bytes covered, replacing the byte by a
value with the same high nibble (so only its low nibble changes) leaves `Calculate_CRC4`
unchanged, the low nibble being XORed into the state twice; a replacement that changes the
high nibble does change `Calculate_CRC4`. -/
theorem Calculate_CRC4_misses_low_nibble_errors (data : List uint8_t) (len i : Nat)
    (v : uint8_t) (hi : i < data.length) (hlen : i < len) :
    (v.val >>> 4 = (data.getD i 0).val >>> 4 →
      Calculate_CRC4 (data.set i v) len = Calculate_CRC4 data len) ∧
    (v.val >>> 4 ≠ (data.getD i 0).val >>> 4 →
      Calculate_CRC4 (data.set i v) len ≠ Calculate_CRC4 data len) := by
  constructor
  · intro hh
    apply Calculate_CRC4_congr
    intro j _
    by_cases hj : i = j
    · subst hj
      rw [rd_set_self data i v hi]
      exact hh
    · rw [rd_set_ne data i j v hj]
  · intro hh
    have hne := crc4_fold_high_change (data.set i v) data i
      (by rw [rd_set_self data i v hi]; exact hh)
      (fun j hj => rd_set_ne data i j v (fun e => hj e.symm)) len hlen
    have hm : ∀ x, x < 16 → x &&& 0x0F = x := by
      intro x hx
      have e : (0x0F : Nat) = 2 ^ 4 - 1 := by norm_num
      rw [e, Nat.and_pow_two_sub_one_eq_mod]
      exact Nat.mod_eq_of_lt hx
    unfold Calculate_CRC4
    rw [hm _ (crc4_fold_lt _ _), hm _ (crc4_fold_lt _ _)]
    exact hne

/-- The byte 0x12 received as 0x13 (low nibble 2 changed to 3): the CRC4 is the same. -/
theorem Calculate_CRC4_misses_low_nibble_errors_witness :
    ([0x12] : List uint8_t).set 0 0x13 = [0x13] ∧ (0x13 : uint8_t) ≠ 0x12 ∧
    Calculate_CRC4 [0x13] 1 = Calculate_CRC4 [0x12] 1 :=
  ⟨rfl, by decide,
    (Calculate_CRC4_misses_low_nibble_errors [0x12] 1 0 0x13 (by decide) (by decide)).1
      (by decide)⟩

/-- C24. History append step: for every store state with `history_write_index = w < 100`
and every accepted frame, `write_data_to_shared_memory` stores the new latest-frame tagged
union in `history[w]`, sets `history_write_index` to `(w + 1) mod 100`, increases
`history_count` by 1 if it was below 100 and leaves it as it is (at 100) otherwise, and
leaves every other history slot unchanged. -/
theorem history_append_step (g : shared_weather_data) (frame : List uint8_t) (now : Int)
    (w : Nat) (hw : g.history_write_index = w) (hlt : w < 100)
    (ha : write_accepts g frame now = true) :
    (write_data_to_shared_memory g frame now).history w =
      (write_data_to_shared_memory g frame now).latest_data ∧
    (write_data_to_shared_memory g frame now).history_write_index = (w + 1) % 100 ∧
    (g.history_count < 100 →
      (write_data_to_shared_memory g frame now).history_count = g.history_count + 1) ∧
    (g.history_count = 100 →
      (write_data_to_shared_memory g frame now).history_count = 100) ∧
    (¬ g.history_count < 100 →
      (write_data_to_shared_memory g frame now).history_count = g.history_count) ∧
    ∀ j, j ≠ w →
      (write_data_to_shared_memory g frame now).history j = g.history j := by
  cases hsw : write_data_switch g frame now with
  | ret g1 =>
    have hf : write_accepts g frame now = false := by
      unfold write_accepts
      rw [hsw]
    rw [hf] at ha
    exact Bool.noConfusion ha
  | brk g1 =>
    obtain ⟨-, hwr⟩ := write_stored g g1 frame now hsw
    obtain ⟨r1, r2, r3⟩ := write_data_switch_ring g g1 frame now hsw
    obtain ⟨a1, a2, a3⟩ := append_history_ring g1 now
    have hl := (append_history_fields g1 now).2.2.2.1
    have hM : MAX_HISTORY_COUNT = 100 := rfl
    rw [r1, r2, hw] at a1
    rw [r2, hw, hM, Nat.mod_eq_of_lt (by omega : w + 1 < 4294967296)] at a2
    rw [r3, hM] at a3
    rw [hwr]
    refine ⟨?_, a2, ?_, ?_, ?_, ?_⟩
    · rw [a1, hl, Function.update_same]
    · intro h
      rw [a3, if_pos h]
      show (g.history_count + 1) % 4294967296 = g.history_count + 1
      exact Nat.mod_eq_of_lt (by omega)
    · intro h
      rw [a3, if_neg (by omega), h]
    · intro h
      rw [a3, if_neg h]
    · intro j hj
      rw [a1]
      exact Function.update_noteq hj _ _

/-- The first accepted frame on a freshly zeroed store goes to slot 0. -/
theorem history_append_step_witness :
    (write_data_to_shared_memory zeroed_store
      ([5, 1, 9, 41, 39, 148, 236, 120, 5, 6, 255] ++ List.replicate 21 0)
      1700000000).history_write_index = 1 ∧
    (write_data_to_shared_memory zeroed_store
      ([5, 1, 9, 41, 39, 148, 236, 120, 5, 6, 255] ++ List.replicate 21 0)
      1700000000).history_count = 1 := by
  obtain ⟨-, h2, h3, -⟩ := history_append_step zeroed_store
    ([5, 1, 9, 41, 39, 148, 236, 120, 5, 6, 255] ++ List.replicate 21 0) 1700000000 0 rfl
    (by decide) ((write_accepts_iff _ _ _).2 (Or.inl (by decide)))
  exact ⟨h2, h3 (by decide)⟩

/-- C25. The receiver's re-validation agrees with the protocol's: for every buffer (of 32
bytes or any other length) whose `cmd` byte is 0x01, 0x02, 0x03 or 0x04 and whose byte at
the last position of that variant is 0xFF, with `len` the variant's length (11, 8, 15, 25),
`write_data_to_shared_memory` accepts the frame (leaves its `switch` by `break`, not through
an error branch) if and only if `LORA_ParseResponse(buf, len)` returns a non-zero code. -/
theorem store_revalidation_agrees (g : shared_weather_data) (buf : List uint8_t) (now : Int)
    (len : Nat) (hs : frame_shape buf len) :
    write_accepts g buf now = true ↔ ∃ c, LORA_ParseResponse buf len = some c ∧ c ≠ 0 := by
  rw [write_accepts_iff, parse_nonzero_iff]
  have hcmd : ∀ L, frame_invariant buf L →
      (L = 11 ∧ rd buf 1 = 1) ∨ (L = 8 ∧ rd buf 1 = 2) ∨ (L = 15 ∧ rd buf 1 = 3) ∨
        (L = 25 ∧ rd buf 1 = 4) := by
    intro L h
    rcases h with ⟨a, b, _⟩ | ⟨a, b, _⟩ | ⟨a, b, _⟩ | ⟨a, b, _⟩
    · exact Or.inl ⟨a, b⟩
    · exact Or.inr (Or.inl ⟨a, b⟩)
    · exact Or.inr (Or.inr (Or.inl ⟨a, b⟩))
    · exact Or.inr (Or.inr (Or.inr ⟨a, b⟩))
  have hlen : (len = 11 ∧ rd buf 1 = 1) ∨ (len = 8 ∧ rd buf 1 = 2) ∨
      (len = 15 ∧ rd buf 1 = 3) ∨ (len = 25 ∧ rd buf 1 = 4) := by
    rcases hs with ⟨a, b, _⟩ | ⟨a, b, _⟩ | ⟨a, b, _⟩ | ⟨a, b, _⟩
    · exact Or.inl ⟨a, b⟩
    · exact Or.inr (Or.inl ⟨a, b⟩)
    · exact Or.inr (Or.inr (Or.inl ⟨a, b⟩))
    · exact Or.inr (Or.inr (Or.inr ⟨a, b⟩))
  constructor
  · intro h
    have key : ∀ L, frame_invariant buf L → frame_invariant buf len := by
      intro L hL
      have e : L = len := by
        have h1 := hcmd L hL
        omega
      rw [← e]
      exact hL
    rcases h with h | h | h | h
    · exact key 11 h
    · exact key 8 h
    · exact key 15 h
    · exact key 25 h
  · intro h
    rcases hlen with ⟨e, _⟩ | ⟨e, _⟩ | ⟨e, _⟩ | ⟨e, _⟩ <;> subst e
    · exact Or.inl h
    · exact Or.inr (Or.inl h)
    · exact Or.inr (Or.inr (Or.inl h))
    · exact Or.inr (Or.inr (Or.inr h))

/-- A BME280 block with a wrong XOR byte: the store rejects it and `LORA_ParseResponse`
returns 0. -/
theorem store_revalidation_agrees_witness :
    write_accepts zeroed_store
      ([5, 1, 9, 41, 39, 148, 236, 120, 5, 7, 255] ++ List.replicate 21 0) 1700000000 = false ∧
    ¬ ∃ c, LORA_ParseResponse
      ([5, 1, 9, 41, 39, 148, 236, 120, 5, 7, 255] ++ List.replicate 21 0) 11 = some c ∧
        c ≠ 0 := by
  have h := store_revalidation_agrees zeroed_store
    ([5, 1, 9, 41, 39, 148, 236, 120, 5, 7, 255] ++ List.replicate 21 0) 1700000000 11
    (by decide)
  have hp : ¬ ∃ c, LORA_ParseResponse
      ([5, 1, 9, 41, 39, 148, 236, 120, 5, 7, 255] ++ List.replicate 21 0) 11 = some c ∧
        c ≠ 0 := by
    rw [parse_nonzero_iff]
    decide
  refine ⟨?_, hp⟩
  cases hw : write_accepts zeroed_store
    ([5, 1, 9, 41, 39, 148, 236, 120, 5, 7, 255] ++ List.replicate 21 0) 1700000000 with
  | false => rfl
  | true => exact absurd (h.1 hw) hp

/-- C26. `Calculate_CRC4` does not depend on the low nibble of any input byte: for every
byte sequence and length, `Calculate_CRC4` of the sequence equals `Calculate_CRC4` of the
sequence with every byte replaced by `byte & 0xF0`; each byte `d` updates the state by
`crc := crc4_table[crc4_table[(crc ^ (d >> 4)) & 0x0F]]`, and `Calculate_CRC4` is the low
nibble of the state after `len` such updates from `0x0F`. -/
theorem Calculate_CRC4_ignores_low_nibbles (data : List uint8_t) (len : Nat) :
    Calculate_CRC4 data len = Calculate_CRC4 (data.map (fun b => b &&& 0xF0)) len ∧
    (∀ crc d, crc4_step crc d = crc4_table (crc4_table ((crc ^^^ (d >>> 4)) &&& 0x0F))) ∧
    Calculate_CRC4 data len =
      ((List.range len).foldl
        (fun crc i => crc4_table (crc4_table ((crc ^^^ (rd data i >>> 4)) &&& 0x0F)))
        0x0F) &&& 0x0F := by
  refine ⟨?_, crc4_step_eq, ?_⟩
  · exact Calculate_CRC4_congr _ _ len (fun j _ => (rd_map_high data j).symm)
  · unfold Calculate_CRC4
    congr 2
    funext crc i
    exact crc4_step_eq crc (rd data i)

/-- C27. In the receiver process the error counter of the store never moves. For every
input stream and every number `n` of passes of the loop of `receive_loop` (with its 32-byte
frame buffer), `total_errors` has its initial value after the passes. In the state `t`
reached, the next call of `LORA_ReadAndRarse` has a return value `c`; the pass leaves the
store untouched when `c <= 0`, and when `c > 0` the frame handed to
`write_data_to_shared_memory` is accepted (no rejection branch is taken) and `total_errors`
is unchanged. Whenever `receive_loop` returns, it returns such a state. -/
theorem receiver_total_errors_never_moves (hdr : Nat → List uint8_t) (now : Nat → Int)
    (s : receiver_state) (hf : s.frame.length = 32) (n : Nat) :
    (receive_passes hdr now n s).store.total_errors = s.store.total_errors ∧
    (∀ t, t = receive_passes hdr now n s →
      ∃ c, (LORA_ReadAndRarse t.conn t.frame (hdr t.iter)).ret = some c ∧
        (c < 0 → receive_pass hdr now t =
          pass_exit.next
            { t with conn := (LORA_ReadAndRarse t.conn t.frame (hdr t.iter)).fd,
                     frame := (LORA_ReadAndRarse t.conn t.frame (hdr t.iter)).buf,
                     iter := t.iter + 1 }) ∧
        (c = 0 → receive_pass hdr now t =
          pass_exit.brk
            { t with conn := (LORA_ReadAndRarse t.conn t.frame (hdr t.iter)).fd,
                     frame := (LORA_ReadAndRarse t.conn t.frame (hdr t.iter)).buf,
                     iter := t.iter + 1 }) ∧
        (0 < c →
          write_accepts t.store (LORA_ReadAndRarse t.conn t.frame (hdr t.iter)).buf
            (now t.iter) = true ∧
          (write_data_to_shared_memory t.store
            (LORA_ReadAndRarse t.conn t.frame (hdr t.iter)).buf (now t.iter)).total_errors =
              t.store.total_errors ∧
          receive_pass hdr now t =
            pass_exit.next
              { t with conn := (LORA_ReadAndRarse t.conn t.frame (hdr t.iter)).fd,
                       frame := (LORA_ReadAndRarse t.conn t.frame (hdr t.iter)).buf,
                       iter := t.iter + 1,
                       store := write_data_to_shared_memory t.store
                         (LORA_ReadAndRarse t.conn t.frame (hdr t.iter)).buf
                         (now t.iter) })) ∧
    (∀ s', receive_loop hdr now n s = some s' →
      s' = receive_passes hdr now n s ∧ s'.store.total_errors = s.store.total_errors) := by
  obtain ⟨i1, i2⟩ := receive_passes_invariant hdr now n s hf
  refine ⟨i2, ?_, ?_⟩
  · intro t ht
    subst ht
    exact (receive_pass_cases hdr now _ i1).2
  · intro s' h
    have e := receive_loop_passes hdr now n s s' h
    rw [e] at i2
    exact ⟨e.symm, i2⟩

/-- A valid BME280 block followed by a block with a wrong XOR byte and two more bytes, read
by the receiver on a zeroed store: `total_errors` is still 0 after three passes. -/
theorem receiver_total_errors_never_moves_witness :
    (receive_passes (fun _ => [0, 0]) (fun _ => 1700000000) 3
      { store := zeroed_store,
        conn := { data := ([5, 1, 9, 41, 39, 148, 236, 120, 5, 6, 255] ++
                    List.replicate 21 0) ++
                  ([5, 1, 9, 41, 39, 148, 236, 120, 5, 7, 255] ++
                    List.replicate 21 0) ++ [5, 9], err := false },
        frame := List.replicate 32 0, iter := 0 }).store.total_errors = 0 :=
  (receiver_total_errors_never_moves (fun _ => [0, 0]) (fun _ => 1700000000)
    { store := zeroed_store,
      conn := { data := ([5, 1, 9, 41, 39, 148, 236, 120, 5, 6, 255] ++
                  List.replicate 21 0) ++
                ([5, 1, 9, 41, 39, 148, 236, 120, 5, 7, 255] ++
                  List.replicate 21 0) ++ [5, 9], err := false },
      frame := List.replicate 32 0, iter := 0 } (by decide) 3).1

/-- C28. Counter consistency of the store: starting from a freshly initialised store
(`init_shared_memory` on a segment without the magic number) and after any sequence of
`write_data_to_shared_memory` calls of which fewer than 2^32 were accepted,
`update_counter = total_received` = the number of accepted frames
= `bme280_count + lightrain_count + system_status_count + gps_count`,
`history_count = min(total_received, 100)` and
`history_write_index = total_received mod 100`, hence `history_write_index < 100`. -/
theorem counter_consistency (mem : shared_weather_data) (pid : Nat)
    (hm : mem.magic ≠ SHARED_MEMORY_MAGIC) (calls : List (List uint8_t × Int))
    (hn : (run_writes (init_shared_memory mem pid) [] calls).2.length < 2 ^ 32) :
    (run_writes (init_shared_memory mem pid) [] calls).1.update_counter =
      (run_writes (init_shared_memory mem pid) [] calls).1.total_received ∧
    (run_writes (init_shared_memory mem pid) [] calls).1.total_received =
      (run_writes (init_shared_memory mem pid) [] calls).2.length ∧
    (run_writes (init_shared_memory mem pid) [] calls).1.total_received =
      (run_writes (init_shared_memory mem pid) [] calls).1.bme280_count +
      (run_writes (init_shared_memory mem pid) [] calls).1.lightrain_count +
      (run_writes (init_shared_memory mem pid) [] calls).1.system_status_count +
      (run_writes (init_shared_memory mem pid) [] calls).1.gps_count ∧
    (run_writes (init_shared_memory mem pid) [] calls).1.history_count =
      min (run_writes (init_shared_memory mem pid) [] calls).1.total_received 100 ∧
    (run_writes (init_shared_memory mem pid) [] calls).1.history_write_index =
      (run_writes (init_shared_memory mem pid) [] calls).1.total_received % 100 ∧
    (run_writes (init_shared_memory mem pid) [] calls).1.history_write_index <
      MAX_HISTORY_COUNT := by
  have h0 := init_shared_memory_fresh mem pid hm
  obtain ⟨c1, c2, c3⟩ := counters_run calls (init_shared_memory mem pid) []
    (by intro _; rw [h0]; exact ⟨rfl, rfl, rfl⟩) (by simpa using hn)
  obtain ⟨i1, i2, -⟩ := ring_invariant_run calls (init_shared_memory mem pid) []
    (by rw [h0]; rfl) (by rw [h0]; rfl) (by intro j hj; simp at hj)
  refine ⟨by rw [c1, c2], c2, by rw [c2, c3], by rw [i2, c2], by rw [i1, c2], ?_⟩
  rw [i1]
  exact Nat.mod_lt _ (by decide)

/-- Three calls on a fresh store, an accepted BME280 frame, the same frame with a wrong XOR
byte and an accepted system-status frame: two frames are counted. -/
theorem counter_consistency_witness :
    (run_writes (init_shared_memory zeroed_store 1234) []
      [([5, 1, 9, 41, 39, 148, 236, 120, 5, 6, 255], 10),
       ([5, 1, 9, 41, 39, 148, 236, 120, 5, 7, 255], 11),
       ([5, 3, 0, 1, 0, 0, 0, 0, 0, 2, 0, 99, 0, 102, 255], 12)]).2.length = 2 ∧
    (run_writes (init_shared_memory zeroed_store 1234) []
      [([5, 1, 9, 41, 39, 148, 236, 120, 5, 6, 255], 10),
       ([5, 1, 9, 41, 39, 148, 236, 120, 5, 7, 255], 11),
       ([5, 3, 0, 1, 0, 0, 0, 0, 0, 2, 0, 99, 0, 102, 255], 12)]).1.total_received =
      (run_writes (init_shared_memory zeroed_store 1234) []
      [([5, 1, 9, 41, 39, 148, 236, 120, 5, 6, 255], 10),
       ([5, 1, 9, 41, 39, 148, 236, 120, 5, 7, 255], 11),
       ([5, 3, 0, 1, 0, 0, 0, 0, 0, 2, 0, 99, 0, 102, 255], 12)]).2.length := by
  have hl : (run_writes (init_shared_memory zeroed_store 1234) []
      [([5, 1, 9, 41, 39, 148, 236, 120, 5, 6, 255], 10),
       ([5, 1, 9, 41, 39, 148, 236, 120, 5, 7, 255], 11),
       ([5, 3, 0, 1, 0, 0, 0, 0, 0, 2, 0, 99, 0, 102, 255], 12)]).2.length = 2 := by
    rfl
  exact ⟨hl, (counter_consistency zeroed_store 1234 (by decide) _ (by rw [hl]; decide)).2.1⟩

/-- C29 (code bug). The bounds of the receiver set are not kept by `receiver_thread`, which
calls `remove_receiver_nolock` with its descriptor where an index is expected (the defect of
C15). A receiver connects with descriptor 4 and is registered at index 0 (`count = 1`); a
broadcast whose `send_all` to it fails removes index 0 (`count = 0`); then its keep-alive
task sees the connection reset and calls `remove_receiver_nolock(4)`: the index 4 is not
below `count`, the slot read as `fds[count - 1]` is `fds[-1]`, and `count` becomes -1. -/
theorem receiver_set_bounds_violated :
    (∀ (st : server_state) (conn_fd : Int),
      receiver_thread st conn_fd [recv_event.reset] =
        some { remove_receiver_nolock st conn_fd with
               closed := (remove_receiver_nolock st conn_fd).closed ++ [conn_fd] }) ∧
    (main_accept server_init 4 { data := [0xBB, 0x00], err := false } [0, 0]).recvers.count
      = 1 ∧
    registered
      (main_accept server_init 4 { data := [0xBB, 0x00], err := false } [0, 0]).recvers
      = [4] ∧
    ∃ st2, broadcast_frame (fun _ => false)
        (main_accept server_init 4 { data := [0xBB, 0x00], err := false } [0, 0])
        (List.replicate 32 0) = some st2 ∧
      st2.recvers.count = 0 ∧ ¬ ((4 : Int) < st2.recvers.count) ∧
      st2.recvers.count - 1 = -1 ∧
      ∃ st3, receiver_thread st2 4 [recv_event.reset] = some st3 ∧
        st3.recvers.count = -1 ∧ st3.closed = [4, 0, 4] :=
  ⟨fun _ _ => rfl, by decide, by decide, _, rfl, by decide, by decide, by decide, _, rfl,
    by decide, by decide⟩

/-- C30. `LORA_ParseResponse` has a path that ends without a return value, taken exactly when
`len >= 3` and no variant's length, terminator and `cmd` condition matches. It is unreachable
from `LORA_ReadAndRarse`: for every `cmd` in {0x01, 0x02, 0x03, 0x04}, with `len` the
expected length of that `cmd`, and every buffer content with `buf[1] = cmd` that has passed
the terminator check, the call `LORA_ParseResponse(buf, len)` meets the branch condition of
that `cmd` and returns 0 or the code of that branch (1, 2, 4, 4); so every call of
`LORA_ReadAndRarse` returns one of -1, 0, 1, 2, 4. -/
theorem LORA_ParseResponse_missing_return_unreachable (buf : List uint8_t) (len : Nat) :
    (3 ≤ len → ¬ frame_shape buf len → LORA_ParseResponse buf len = none) ∧
    (LORA_ParseResponse buf len = none → 3 ≤ len ∧ ¬ frame_shape buf len) ∧
    (∀ cmd, expected_len_of cmd = some len → rd buf 1 = cmd →
      rd buf (len - 1) = END_SYMBOL 0 →
      frame_shape buf len ∧
      ((cmd = 0x01 ∧ len = 11 ∧
          (LORA_ParseResponse buf len = some 0 ∨ LORA_ParseResponse buf len = some 1)) ∨
       (cmd = 0x02 ∧ len = 8 ∧
          (LORA_ParseResponse buf len = some 0 ∨ LORA_ParseResponse buf len = some 2)) ∨
       (cmd = 0x03 ∧ len = 15 ∧
          (LORA_ParseResponse buf len = some 0 ∨ LORA_ParseResponse buf len = some 4)) ∨
       (cmd = 0x04 ∧ len = 25 ∧
          (LORA_ParseResponse buf len = some 0 ∨ LORA_ParseResponse buf len = some 4)))) ∧
    (∀ (fd : sock) (header : List uint8_t), buf.length = 32 →
      ∃ c, (LORA_ReadAndRarse fd buf header).ret = some c ∧
        (c = -1 ∨ c = 0 ∨ c = 1 ∨ c = 2 ∨ c = 4)) := by
  refine ⟨?_, ?_, ?_, ?_⟩
  · intro h3 hs
    rcases parse_no_shape buf len hs with h | h
    · unfold LORA_ParseResponse at h
      rw [if_neg (by omega)] at h
      simp only [frame_shape, not_or, not_and] at hs
      obtain ⟨ha, hb, hc, hd⟩ := hs
      rw [if_neg, if_neg, if_neg, if_neg] at h
      · exact Option.noConfusion h
      · rintro ⟨h1, h2, h3⟩; exact hd h1 h3 h2
      · rintro ⟨h1, h2, h3⟩; exact hc h1 h3 h2
      · rintro ⟨h1, h2, h3⟩; exact hb h1 h3 h2
      · rintro ⟨h1, h2, h3⟩; exact ha h1 h3 h2
    · exact h
  · intro hn
    constructor
    · by_contra h3
      unfold LORA_ParseResponse at hn
      rw [if_pos (by omega)] at hn
      exact Option.noConfusion hn
    · intro hs
      rcases parse_shape_code buf len hs with h | ⟨-, c, h, -⟩
      · rw [h] at hn; exact Option.noConfusion hn
      · rw [h] at hn; exact Option.noConfusion hn
  · intro cmd he h1 ht
    have hE : END_SYMBOL 0 = 0xFF := rfl
    rw [hE] at ht
    obtain ⟨p1, p2, p3, p4⟩ := parse_code_of_invariant buf
    rcases expected_len_of_some cmd len he with ⟨e, c⟩ | ⟨e, c⟩ | ⟨e, c⟩ | ⟨e, c⟩ <;>
      subst e <;> subst c
    · have hs : frame_shape buf 11 := Or.inl ⟨rfl, h1, ht⟩
      refine ⟨hs, Or.inl ⟨rfl, rfl, ?_⟩⟩
      rcases parse_shape_code buf 11 hs with h | ⟨hi, -⟩
      · exact Or.inl h
      · exact Or.inr (p1 hi)
    · have hs : frame_shape buf 8 := Or.inr (Or.inl ⟨rfl, h1, ht⟩)
      refine ⟨hs, Or.inr (Or.inl ⟨rfl, rfl, ?_⟩)⟩
      rcases parse_shape_code buf 8 hs with h | ⟨hi, -⟩
      · exact Or.inl h
      · exact Or.inr (p2 hi)
    · have hs : frame_shape buf 15 := Or.inr (Or.inr (Or.inl ⟨rfl, h1, ht⟩))
      refine ⟨hs, Or.inr (Or.inr (Or.inl ⟨rfl, rfl, ?_⟩))⟩
      rcases parse_shape_code buf 15 hs with h | ⟨hi, -⟩
      · exact Or.inl h
      · exact Or.inr (p3 hi)
    · have hs : frame_shape buf 25 := Or.inr (Or.inr (Or.inr ⟨rfl, h1, ht⟩))
      refine ⟨hs, Or.inr (Or.inr (Or.inr ⟨rfl, rfl, ?_⟩))⟩
      rcases parse_shape_code buf 25 hs with h | ⟨hi, -⟩
      · exact Or.inl h
      · exact Or.inr (p4 hi)
  · intro fd header hb
    obtain ⟨-, c, hc, hv⟩ := read_result_cases fd buf header hb
    refine ⟨c, hc, ?_⟩
    rcases hv with h | h | ⟨h | h | h, -⟩
    · exact Or.inl h
    · exact Or.inr (Or.inl h)
    · exact Or.inr (Or.inr (Or.inl h))
    · exact Or.inr (Or.inr (Or.inr (Or.inl h)))
    · exact Or.inr (Or.inr (Or.inr (Or.inr h)))

/-- A call with length 5 falls off the end of `LORA_ParseResponse`; a BME280 buffer that
has passed the terminator check is answered in the BME280 branch. -/
theorem LORA_ParseResponse_missing_return_unreachable_witness :
    LORA_ParseResponse [5, 1, 0, 0, 255] 5 = none ∧
    LORA_ParseResponse ([5, 1, 9, 41, 39, 148, 236, 120, 5, 6, 255] ++ List.replicate 21 0) 11
      ≠ none :=
  ⟨(LORA_ParseResponse_missing_return_unreachable [5, 1, 0, 0, 255] 5).1 (by decide)
      (by decide),
   fun h => ((LORA_ParseResponse_missing_return_unreachable
      ([5, 1, 9, 41, 39, 148, 236, 120, 5, 6, 255] ++ List.replicate 21 0) 11).2.1 h).2
      (by decide)⟩

end Meteo
